import Mathlib

set_option maxRecDepth 100000

/-!
# Radio message parser (RMP)

A shallow embedding of the fixed-length frame parser of
`radio_message_parser_state.c` and `radio_message_parser_api.c`, and the
properties of its frame-synchronisation state machine.

Conventions of the embedding:
* a byte, a `size_t` and an enumeration value are natural numbers; where the C
  code truncates to 8 or 16 bits the embedding reduces modulo `2^8` or `2^16`;
* memory reached through a `void *` is a function from byte offsets to bytes;
* the parser object is passed and returned explicitly;
* the two loops (`while (1)` in `RMP_FindFirstByte`, `do ... while` in
  `prvProcessing`) take a fuel argument and return `none` when it runs out.
-/

namespace RMP

/-! ## Constants of `radio_message_parser.h` -/

/-- Memory behind a `void *`: the byte stored at each offset. -/
abbrev Mem := Nat → Nat

/-- The macro `rmpSTART_FRAME_FIRST_BYTE`. -/
def rmpSTART_FRAME_FIRST_BYTE : Nat := 0xFF

/-- The macro `rmpSTART_FRAME_SECOND_BYTE`. -/
def rmpSTART_FRAME_SECOND_BYTE : Nat := 0xFF

/-- The value of `sizeof(rmpSTART_FRAME)`, a `uint16_t`. -/
def sizeof_rmpSTART_FRAME : Nat := 2

/-- The macro `rmpONE_MESSAGE_SIZE_IN_BYTES`. -/
def rmpONE_MESSAGE_SIZE_IN_BYTES : Nat := 18

/-- The macro `rmpCRC_SIZE_IN_BYTES`. -/
def rmpCRC_SIZE_IN_BYTES : Nat := 1

/-- Enumerator `rmpSTATE_FIND_FIRST_BYTE` of `rmp_state_e`. -/
def rmpSTATE_FIND_FIRST_BYTE : Nat := 0

/-- Enumerator `rmpSTATE_FIND_SECOND_BYTE` of `rmp_state_e`. -/
def rmpSTATE_FIND_SECOND_BYTE : Nat := 1

/-- Enumerator `rmpSTATE_WAIT_AND_COPY_MESSAGE` of `rmp_state_e`. -/
def rmpSTATE_WAIT_AND_COPY_MESSAGE : Nat := 2

/-- Enumerator `rmpSTATE_MAX_NUMB` of `rmp_state_e`. -/
def rmpSTATE_MAX_NUMB : Nat := 3

/-- The enumeration `rmp_return_code`. -/
inductive rmp_return_code where
  | rmpIN_PROGRESS
  | rmpMESSAGE_COPIED
  | rmpBREAK
  deriving DecidableEq, Repr

open rmp_return_code

/-! ## Memory helpers -/

/-- The bytes `m[off], ..., m[off + len - 1]`. -/
def memRead (m : Mem) (off len : Nat) : List Nat :=
  (List.range len).map (fun i => m (off + i))

/-- Store the bytes `bs` at offsets `off, off + 1, ...` of `m`. -/
def memWrite (m : Mem) (off : Nat) (bs : List Nat) : Mem :=
  fun i => if off ≤ i ∧ i < off + bs.length then bs.getD (i - off) 0 else m i

/-! ## Ring buffer -/

/-- Modelled from the spec: the control block `lwrb_t` of the external ring
buffer (`lwrb.h` is not among the sources). A fixed-capacity FIFO byte store:
`data` holds the buffered bytes, oldest first, and `cap` is the number of bytes
the store can hold. -/
structure lwrb_t where
  data : List Nat
  cap : Nat
  deriving DecidableEq, Repr

/-- Modelled from the spec: `lwrb_get_full` of the external ring buffer,
"full() -> count buffered". -/
def lwrb_get_full (rb : lwrb_t) : Nat := rb.data.length

/-- Modelled from the spec: `lwrb_read` of the external ring buffer,
"read(dst, n) -> bytes_read ≤ n, removes read bytes". Returns the buffer after
the call and the bytes delivered, oldest first; their number is the C return
value. -/
def lwrb_read (rb : lwrb_t) (btr : Nat) : lwrb_t × List Nat :=
  ({ rb with data := rb.data.drop btr }, rb.data.take btr)

/-- Modelled from the spec: `lwrb_write` of the external ring buffer,
"write(src, n) -> bytes_written ≤ n (short write signals overrun —
already-buffered data is untouched)". `src` are the `n` bytes offered; returns
the buffer after the call and the number of bytes accepted. -/
def lwrb_write (rb : lwrb_t) (src : List Nat) : lwrb_t × Nat :=
  let k := min src.length (rb.cap - rb.data.length)
  ({ rb with data := rb.data ++ src.take k }, k)

/-- Modelled from the spec: `lwrb_reset` of the external ring buffer,
"reset() -> count discarded, buffer becomes empty". -/
def lwrb_reset (rb : lwrb_t) : lwrb_t := { rb with data := [] }

/-! ## Parser object -/

/-- The data fields of `rmp_obj_t`: the state of the automaton, the ring buffer
and the read threshold. The two function tables `xAPI` and `xStateAPI` are
constant after construction and are the definitions `prvPut`, `prvPutISR`,
`prvProcessing`, `prvReset` and `aFn` below. -/
structure rmp_obj_t where
  eState : Nat
  xLWRB : lwrb_t
  uReadBytesThreshold : Nat
  deriving DecidableEq, Repr

/-- The function `RMP_SetState`: the result flag and the object after the
call. -/
def RMP_SetState (hObj : rmp_obj_t) (eNewState : Nat) : Bool × rmp_obj_t :=
  if eNewState < rmpSTATE_MAX_NUMB then
    (true, { hObj with eState := eNewState })
  else
    (false, hObj)

/-- The function `RMP_GetState`. -/
def RMP_GetState (hObj : rmp_obj_t) : Nat := hObj.eState

/-- The function `RMP_Get`: `lwrb_read` on the ring buffer of the object.
Returns the object after the call and the bytes stored to the destination. -/
def RMP_Get (hObj : rmp_obj_t) (uDstMemSize : Nat) : rmp_obj_t × List Nat :=
  let rd := lwrb_read hObj.xLWRB uDstMemSize
  ({ hObj with xLWRB := rd.1 }, rd.2)

/-! ## CRC engine -/

/-- One pass of the inner `for` loop of `CORE_GetCrc16_CCITT_Poly0x1021`:
`uCrc = (uint16_t) (uCrc & 0x8000 ? (uCrc << 1) ^ 0x1021 : uCrc << 1)`. -/
def crc16_bit (uCrc : Nat) : Nat :=
  if uCrc &&& 0x8000 ≠ 0 then ((uCrc <<< 1) ^^^ 0x1021) % 2 ^ 16
  else (uCrc <<< 1) % 2 ^ 16

/-- One pass of the outer `while` loop of `CORE_GetCrc16_CCITT_Poly0x1021`:
`uCrc ^= (uint16_t) (*pMem++ << 8u)` followed by eight bit steps. -/
def crc16_byte (uCrc : Nat) (uByte : Nat) : Nat :=
  Nat.iterate crc16_bit 8 (uCrc ^^^ ((uByte <<< 8) % 2 ^ 16))

/-- The function `CORE_GetCrc16_CCITT_Poly0x1021` over the `uLen` bytes
`pSrc`. -/
def CORE_GetCrc16_CCITT_Poly0x1021 (pSrc : List Nat) : Nat :=
  pSrc.foldl crc16_byte 0xFFFF

/-- Modelled from the spec: the offset of the field `xPLoad` in
`rmp_package_generic_t`, whose declaration is not among the sources; the
payload follows the two marker bytes ("bytes 2..(N-2) = payload"). -/
def offsetof_xPLoad : Nat := sizeof_rmpSTART_FRAME

/-- Modelled from the spec: the size of the field `xPLoad` in
`rmp_package_generic_t`, whose declaration is not among the sources: "the
declared payload length (frame_size − marker_size − checksum_field_size)". -/
def sizeof_xPLoad : Nat :=
  rmpONE_MESSAGE_SIZE_IN_BYTES - sizeof_rmpSTART_FRAME - rmpCRC_SIZE_IN_BYTES

/-- The function `RMP_GetPackCrc`: the CRC of the payload field of the message
at `pvMessage`. -/
def RMP_GetPackCrc (pvMessage : Mem) : Nat :=
  CORE_GetCrc16_CCITT_Poly0x1021 (memRead pvMessage offsetof_xPLoad sizeof_xPLoad)

/-! ## State handlers -/

/-- The `while (1)` loop of `RMP_FindFirstByte`. `uReadBytesCnt` is the local
counter of the C code; `none` means that the fuel ran out. -/
def RMP_FindFirstByte_loop : Nat → rmp_obj_t → Nat → Option (rmp_return_code × rmp_obj_t)
  | 0, _, _ => none
  | fuel + 1, hObj, uReadBytesCnt =>
    let rd := lwrb_read hObj.xLWRB 1
    let hObj1 : rmp_obj_t := { hObj with xLWRB := rd.1 }
    let uOneByte := rd.2.headD 0
    let uReadBytesNumb := rd.2.length
    let uReadBytesCnt1 := uReadBytesCnt + uReadBytesNumb
    if uReadBytesNumb = 0 then
      some (rmpBREAK, hObj1)
    else if uOneByte = rmpSTART_FRAME_FIRST_BYTE then
      some (rmpIN_PROGRESS, (RMP_SetState hObj1 rmpSTATE_FIND_SECOND_BYTE).2)
    else if uReadBytesNumb > hObj1.uReadBytesThreshold then
      some (rmpBREAK, hObj1)
    else
      RMP_FindFirstByte_loop fuel hObj1 uReadBytesCnt1

/-- The handler `RMP_FindFirstByte`; it does not touch the destination. -/
def RMP_FindFirstByte (fuel : Nat) (hObj : rmp_obj_t) (pDst : Mem) (_uDstMemSize : Nat) :
    Option (rmp_return_code × rmp_obj_t × Mem) :=
  match RMP_FindFirstByte_loop fuel hObj 0 with
  | none => none
  | some (eReturnCode, hObj1) => some (eReturnCode, hObj1, pDst)

/-- The handler `RMP_FindSecondByte`; it does not touch the destination. -/
def RMP_FindSecondByte (hObj : rmp_obj_t) (pDst : Mem) (_uDstMemSize : Nat) :
    Option (rmp_return_code × rmp_obj_t × Mem) :=
  let rd := RMP_Get hObj 1
  let uOneByte := rd.2.headD 0
  let uReadBytesNumb := rd.2.length
  if uReadBytesNumb = 0 then
    some (rmpBREAK, rd.1, pDst)
  else if uReadBytesNumb = 1 ∧ uOneByte = rmpSTART_FRAME_SECOND_BYTE then
    some (rmpIN_PROGRESS, (RMP_SetState rd.1 rmpSTATE_WAIT_AND_COPY_MESSAGE).2, pDst)
  else
    some (rmpIN_PROGRESS, (RMP_SetState rd.1 rmpSTATE_FIND_FIRST_BYTE).2, pDst)

/-- The handler `RMP_WaitAndCopyMessage`. -/
def RMP_WaitAndCopyMessage (hObj : rmp_obj_t) (pDst : Mem) (uDstMemSize : Nat) :
    Option (rmp_return_code × rmp_obj_t × Mem) :=
  if uDstMemSize ≥ rmpONE_MESSAGE_SIZE_IN_BYTES
      ∧ lwrb_get_full hObj.xLWRB ≥ rmpONE_MESSAGE_SIZE_IN_BYTES - sizeof_rmpSTART_FRAME then
    let pDst1 := memWrite pDst 0 [rmpSTART_FRAME_FIRST_BYTE]
    let pDst2 := memWrite pDst1 1 [rmpSTART_FRAME_SECOND_BYTE]
    let rd := RMP_Get hObj (rmpONE_MESSAGE_SIZE_IN_BYTES - sizeof_rmpSTART_FRAME)
    let pDst3 := memWrite pDst2 sizeof_rmpSTART_FRAME rd.2
    let hObj1 := (RMP_SetState rd.1 rmpSTATE_FIND_FIRST_BYTE).2
    let uCrc := RMP_GetPackCrc pDst3 % 2 ^ 8
    if uCrc = pDst3 (rmpONE_MESSAGE_SIZE_IN_BYTES - rmpCRC_SIZE_IN_BYTES) then
      some (rmpMESSAGE_COPIED, hObj1, pDst3)
    else
      some (rmpBREAK, hObj1, pDst3)
  else
    some (rmpBREAK, hObj, pDst)

/-- The handler table `xStateAPI.aFn` as filled by `RMP_InitStateAPI`; an index
outside the table has no handler. -/
def aFn (fuel : Nat) (eState : Nat) :
    Option (rmp_obj_t → Mem → Nat → Option (rmp_return_code × rmp_obj_t × Mem)) :=
  if eState = rmpSTATE_FIND_FIRST_BYTE then some (RMP_FindFirstByte fuel)
  else if eState = rmpSTATE_FIND_SECOND_BYTE then some RMP_FindSecondByte
  else if eState = rmpSTATE_WAIT_AND_COPY_MESSAGE then some RMP_WaitAndCopyMessage
  else none

/-! ## Facade -/

/-- The function `prvPut`: the object after the call and the number of bytes
written. -/
def prvPut (hObj : rmp_obj_t) (pSrc : List Nat) : rmp_obj_t × Nat :=
  let wr := lwrb_write hObj.xLWRB pSrc
  ({ hObj with xLWRB := wr.1 }, wr.2)

/-- The function `prvPutISR`. -/
def prvPutISR (hObj : rmp_obj_t) (pSrc : List Nat) : rmp_obj_t × Nat :=
  prvPut hObj pSrc

/-- The `do ... while (eReturnCode == rmpIN_PROGRESS)` loop of `prvProcessing`;
`uRxMessageSize` is the local variable of the C code. Every pass takes one unit
of fuel; `none` means that the fuel ran out or that the state indexes no
handler. -/
def prvProcessing_loop :
    Nat → rmp_obj_t → Mem → Nat → Nat → Option (Nat × rmp_obj_t × Mem)
  | 0, _, _, _, _ => none
  | fuel + 1, hObj, pDst, uDstMemSize, uRxMessageSize =>
    match aFn (fuel + 1) (RMP_GetState hObj) with
    | none => none
    | some fn =>
      match fn hObj pDst uDstMemSize with
      | none => none
      | some (eReturnCode, hObj1, pDst1) =>
        let uRxMessageSize1 :=
          if eReturnCode = rmpMESSAGE_COPIED then rmpONE_MESSAGE_SIZE_IN_BYTES
          else uRxMessageSize
        if eReturnCode = rmpIN_PROGRESS then
          prvProcessing_loop fuel hObj1 pDst1 uDstMemSize uRxMessageSize1
        else
          some (uRxMessageSize1, hObj1, pDst1)

/-- The function `prvProcessing`: the returned size, the object and the
destination memory after the call. -/
def prvProcessing (fuel : Nat) (hObj : rmp_obj_t) (pDst : Mem) (uDstMemSize : Nat) :
    Option (Nat × rmp_obj_t × Mem) :=
  prvProcessing_loop fuel hObj pDst uDstMemSize 0

/-- The function `prvReset`: the object after the call and the number of bytes
that were buffered. -/
def prvReset (hObj : rmp_obj_t) : rmp_obj_t × Nat :=
  let uBytesNumbInBuffBeforReset := lwrb_get_full hObj.xLWRB
  let hObj1 : rmp_obj_t := { hObj with xLWRB := lwrb_reset hObj.xLWRB }
  ((RMP_SetState hObj1 rmpSTATE_FIND_FIRST_BYTE).2, uBytesNumbInBuffBeforReset)

/-! ## Call sequences and frames -/

/-- A valid frame in the sense of the wire format: 18 bytes, the two marker
bytes `0xFF 0xFF` first, and a last byte equal to the low 8 bits of the CRC of
the 15 bytes in between. -/
def isValidFrame (f : List Nat) : Prop :=
  f.length = 18 ∧ f.getD 0 0 = 0xFF ∧ f.getD 1 0 = 0xFF
    ∧ f.getD 17 0 = CORE_GetCrc16_CCITT_Poly0x1021 ((f.drop 2).take 15) % 2 ^ 8

instance (f : List Nat) : Decidable (isValidFrame f) := by
  unfold isValidFrame; infer_instance

/-- Successive calls of `Processing` on one destination, one call for each
declared capacity of the list, as a caller polling the parser makes them.
Returns the sizes the calls returned, in order, and the object and the
destination after the last call. -/
def processingCalls (fuel : Nat) :
    rmp_obj_t → Mem → List Nat → Option (List Nat × rmp_obj_t × Mem)
  | hObj, pDst, [] => some ([], hObj, pDst)
  | hObj, pDst, uDstMemSize :: rest =>
    match prvProcessing fuel hObj pDst uDstMemSize with
    | none => none
    | some (uSize, hObj1, pDst1) =>
      match processingCalls fuel hObj1 pDst1 rest with
      | none => none
      | some (uSizes, hObj2, pDst2) => some (uSize :: uSizes, hObj2, pDst2)

/-- The loop of the byte-wise tests of `test_main.c`: for each byte of the
stream, `Put(&byte, 1)` followed by `Processing(dst, uDstMemSize)`. Returns the
sizes the `Processing` calls returned, in order, and the object and the
destination after the last call. -/
def putProcessingCalls (fuel : Nat) (uDstMemSize : Nat) :
    rmp_obj_t → Mem → List Nat → Option (List Nat × rmp_obj_t × Mem)
  | hObj, pDst, [] => some ([], hObj, pDst)
  | hObj, pDst, uByte :: rest =>
    match prvProcessing fuel (prvPut hObj [uByte]).1 pDst uDstMemSize with
    | none => none
    | some (uSize, hObj1, pDst1) =>
      match putProcessingCalls fuel uDstMemSize hObj1 pDst1 rest with
      | none => none
      | some (uSizes, hObj2, pDst2) => some (uSize :: uSizes, hObj2, pDst2)

/-- The destination after a frame with body `body` (the 16 bytes after the
marker) has been copied to it. -/
def frameInto (pDst : Mem) (body : List Nat) : Mem :=
  fun i => if i < 18 then (0xFF :: 0xFF :: body).getD i 0 else pDst i

/-- The frame of the test `FindStartFrameAndCopyMessage`: marker, payload with
`uaSrcMem[10] = 123`, and the low CRC byte `0x8D`. -/
def sampleFrame : List Nat :=
  [0xFF, 0xFF, 0, 0, 0, 0, 0, 0, 0, 0, 123, 0, 0, 0, 0, 0, 0, 0x8D]

/-- A destination array filled with zeros, as the tests declare it. -/
def zeroMem : Mem := fun _ => 0

/-! ## Construction -/

/-- The structure `rmp_init_t`. A pointer field is `none` when the pointer is
null and holds the address otherwise. -/
structure rmp_init_t where
  pMemAlloc : Option Nat
  uMemAllocSizeInBytes : Nat
  hData : Option Nat
  uReadBytesThreshold : Nat
  deriving DecidableEq, Repr

/-- The table `rmp_api_t`; an entry is `none` when the function pointer is
null. -/
structure rmp_api_t where
  Put : Option (rmp_obj_t → List Nat → rmp_obj_t × Nat)
  PutISR : Option (rmp_obj_t → List Nat → rmp_obj_t × Nat)
  Processing : Option (Nat → rmp_obj_t → Mem → Nat → Option (Nat × rmp_obj_t × Mem))
  Reset : Option (rmp_obj_t → rmp_obj_t × Nat)

/-- The table `rmp_state_api_t`: for each index the handler stored there,
`none` when the entry is null or the index is outside the table. The first
argument is the fuel handed to the handler. -/
structure rmp_state_api_t where
  aFn : Nat → Nat → Option (rmp_obj_t → Mem → Nat → Option (rmp_return_code × rmp_obj_t × Mem))

/-- What a non-null `rmp_api_handle_t` points to: the whole of the C structure
`rmp_obj_t`, that is the table `xAPI` (its first field, whose address the handle
is), the table `xStateAPI` and the data fields `hObj`. -/
structure rmp_api_handle_t where
  xAPI : rmp_api_t
  xStateAPI : rmp_state_api_t
  hObj : rmp_obj_t

/-- The control block after `memset((void *) hData, 0, sizeof(rmp_obj_t))`:
null function pointers and zero in every data field. -/
def memset_rmp_obj_t : rmp_api_handle_t :=
  { xAPI := { Put := none, PutISR := none, Processing := none, Reset := none }
    xStateAPI := { aFn := fun _ _ => none }
    hObj := { eState := 0, xLWRB := { data := [], cap := 0 }, uReadBytesThreshold := 0 } }

/-- Modelled from the spec: `lwrb_init` of the external ring buffer. It fails
(`none`, the C value 0) without backing storage or with size zero, and
otherwise gives an empty buffer whose capacity is fixed by the size of the
storage ("ring-buffer capacity fixed at construction"). -/
def lwrb_init (buffdata : Option Nat) (size : Nat) : Option lwrb_t :=
  if buffdata = none ∨ size = 0 then none else some { data := [], cap := size }

/-- The function `RMP_StructInit`: `memset` to zero, then the default
threshold. The argument is the descriptor before the call. -/
def RMP_StructInit (_pxInit : rmp_init_t) : rmp_init_t :=
  let xZero : rmp_init_t :=
    { pMemAlloc := none, uMemAllocSizeInBytes := 0, hData := none, uReadBytesThreshold := 0 }
  { xZero with uReadBytesThreshold := rmpONE_MESSAGE_SIZE_IN_BYTES * 2 }

/-- The function `RMP_InitAPI`. -/
def RMP_InitAPI (hData : rmp_api_handle_t) : rmp_api_handle_t :=
  { hData with
    xAPI := { Put := some prvPut, PutISR := some prvPutISR,
              Processing := some prvProcessing, Reset := some prvReset } }

/-- The function `RMP_InitStateAPI`: three stores into `xStateAPI.aFn`. -/
def RMP_InitStateAPI (hData : rmp_api_handle_t) : rmp_api_handle_t :=
  { hData with
    xStateAPI :=
      { aFn := fun fuel i =>
          if i = rmpSTATE_FIND_FIRST_BYTE then some (RMP_FindFirstByte fuel)
          else if i = rmpSTATE_FIND_SECOND_BYTE then some RMP_FindSecondByte
          else if i = rmpSTATE_WAIT_AND_COPY_MESSAGE then some RMP_WaitAndCopyMessage
          else hData.xStateAPI.aFn fuel i } }

/-- The function `RMP_Dtor`; the handle is `none` when null. -/
def RMP_Dtor (hAPI : Option rmp_api_handle_t) : Bool :=
  match hAPI with
  | none => false
  | some _ => true

/-- The function `RMP_Ctor`; the descriptor pointer and the returned handle are
`none` when null. -/
def RMP_Ctor (pxInit : Option rmp_init_t) : Option rmp_api_handle_t :=
  match pxInit with
  | none => none
  | some xInit =>
    if xInit.pMemAlloc = none then none
    else if xInit.uMemAllocSizeInBytes = 0 then none
    else if xInit.hData = none then none
    else
      let hData0 := memset_rmp_obj_t
      let hData1 : rmp_api_handle_t :=
        { hData0 with
          hObj := { hData0.hObj with uReadBytesThreshold := xInit.uReadBytesThreshold } }
      let xInitLWRB := lwrb_init xInit.pMemAlloc xInit.uMemAllocSizeInBytes
      let bIsCtorErrorDetect := xInitLWRB.isNone
      let hData2 : rmp_api_handle_t :=
        match xInitLWRB with
        | none => hData1
        | some xLWRB => { hData1 with hObj := { hData1.hObj with xLWRB := xLWRB } }
      let hAPI := RMP_InitStateAPI (RMP_InitAPI hData2)
      if bIsCtorErrorDetect = true then
        let _bIsObjDestroyed := RMP_Dtor (some hAPI)
        none
      else
        some hAPI

/-! ## More call sequences -/

/-- The value an `int` argument takes when it is passed as `rmp_state_e`. The
enumeration has no negative enumerator, and its underlying type is taken to be
the 32-bit `unsigned int`, as GCC and Clang choose it and as the test
`SetNewState` expects of `RMP_SetState(hAPI, -1)`. -/
def rmp_state_e_of_int (v : Int) : Nat := (v % 2 ^ 32).toNat

/-- Successive `Put` calls, one for each source sequence of the list. Returns
the object after the last call and the values the calls returned, in order. -/
def putCalls : rmp_obj_t → List (List Nat) → rmp_obj_t × List Nat
  | hObj, [] => (hObj, [])
  | hObj, pSrc :: rest =>
    let wr := prvPut hObj pSrc
    let wrs := putCalls wr.1 rest
    (wrs.1, wr.2 :: wrs.2)

/-- Successive `RMP_Get` calls, one for each destination size of the list.
Returns the object after the last call and the bytes each call delivered, in
order. -/
def getCalls : rmp_obj_t → List Nat → rmp_obj_t × List (List Nat)
  | hObj, [] => (hObj, [])
  | hObj, uDstMemSize :: rest =>
    let rd := RMP_Get hObj uDstMemSize
    let rds := getCalls rd.1 rest
    (rds.1, rd.2 :: rds.2)

/-- The reference packet `uaPackDef` of the test `GetCrcByReferencePack`. -/
def uaPackDef : List Nat :=
  [0xAA, 0x55, 0x05, 0x00, 0x00, 0x00, 0x00, 0x00, 0x00, 0x00,
   0x00, 0x00, 0x00, 0x00, 0x07, 0xFF, 0xFA, 0x00, 0xB8, 0x20]

/-! ## Bit-serial CRC reference, calls and traces -/

/-- One step of the bit-serial CRC-16/CCITT register machine, as the
specification words it: `c` is register bit 15 XOR the data bit `d`, the
register is shifted left by one modulo `2^16`, and `0x1021` is XORed in when
`c = 1`. -/
def crc16_bitserial_step (uReg : Nat) (d : Bool) : Nat :=
  let c := xor (uReg.testBit 15) d
  let uShifted := (uReg <<< 1) % 2 ^ 16
  if c then uShifted ^^^ 0x1021 else uShifted

/-- The eight bits of a byte, most significant first. -/
def byteBitsMsbFirst (uByte : Nat) : List Bool :=
  (List.range 8).reverse.map fun i => uByte.testBit i

/-- The bit-serial CRC-16/CCITT reference of the specification: the register
starts at `0xFFFF`, the bits of the message are fed byte by byte and most
significant bit first, and no final XOR is applied. -/
def crc16_bitserial (m : List Nat) : Nat :=
  ((m.map byteBitsMsbFirst).flatten).foldl crc16_bitserial_step 0xFFFF

/-- Successive calls of `Processing` on one destination, one for each declared
capacity of the list, recording for each call the size it returned and
`destination[0..18)` as the call left it. -/
def processingFrames (fuel : Nat) :
    rmp_obj_t → Mem → List Nat → Option (List (Nat × List Nat) × rmp_obj_t × Mem)
  | hObj, pDst, [] => some ([], hObj, pDst)
  | hObj, pDst, uDstMemSize :: rest =>
    match prvProcessing fuel hObj pDst uDstMemSize with
    | none => none
    | some (uSize, hObj1, pDst1) =>
      match processingFrames fuel hObj1 pDst1 rest with
      | none => none
      | some (res, hObj2, pDst2) =>
        some ((uSize, memRead pDst1 0 rmpONE_MESSAGE_SIZE_IN_BYTES) :: res, hObj2, pDst2)

/-- One call of the public interface, with its arguments. -/
inductive rmp_call where
  | Put (pSrc : List Nat)
  | PutISR (pSrc : List Nat)
  | Processing (pDst : Mem) (uDstMemSize : Nat)
  | Reset
  | SetState (eNewState : Nat)

/-- The object after one call of the public interface; `none` when
`Processing` gives no result. -/
def runCall (fuel : Nat) (hObj : rmp_obj_t) : rmp_call → Option rmp_obj_t
  | rmp_call.Put pSrc => some (prvPut hObj pSrc).1
  | rmp_call.PutISR pSrc => some (prvPutISR hObj pSrc).1
  | rmp_call.Processing pDst uDstMemSize =>
    match prvProcessing fuel hObj pDst uDstMemSize with
    | none => none
    | some (_, hObj1, _) => some hObj1
  | rmp_call.Reset => some (prvReset hObj).1
  | rmp_call.SetState eNewState => some (RMP_SetState hObj eNewState).2

/-- The object after a finite sequence of calls of the public interface. -/
def runCalls (fuel : Nat) : rmp_obj_t → List rmp_call → Option rmp_obj_t
  | hObj, [] => some hObj
  | hObj, xCall :: rest =>
    match runCall fuel hObj xCall with
    | none => none
    | some hObj1 => runCalls fuel hObj1 rest

/-- The frame of the test `FindStartFrameAndCopySomeMessages`: marker, payload
with `pStartMessage[3] = 123`, and the low CRC byte `0x8C`. -/
def sampleFrame2 : List Nat :=
  [0xFF, 0xFF, 0, 123, 0, 0, 0, 0, 0, 0, 0, 0, 0, 0, 0, 0, 0, 0x8C]

/-- The destination after a `Processing` call in terms of the destination before
it: unchanged (`none`), or with the frame of body `body` copied to it. -/
def copiedInto (pDst : Mem) : Option (List Nat) → Mem
  | none => pDst
  | some body => frameInto pDst body

/-- The byte sequence `f` with bit `k` of the byte at index `i` flipped. -/
def flipBit (f : List Nat) (i k : Nat) : List Nat :=
  f.set i (f.getD i 0 ^^^ 2 ^ k)

/-! ## Memory lemmas -/

theorem memRead_length (m : Mem) (off len : Nat) : (memRead m off len).length = len := by
  simp [memRead]

theorem memRead_eq_of_getD (m : Mem) (off : Nat) (l : List Nat)
    (h : ∀ i, i < l.length → m (off + i) = l.getD i 0) :
    memRead m off l.length = l := by
  apply List.ext_getElem
  · simp [memRead]
  · intro i h1 h2
    have := h i h2
    simp [memRead, this, List.getD_eq_getElem?_getD, List.getElem?_eq_getElem h2]

/-- The destination after the copy branch of `RMP_WaitAndCopyMessage`. -/
theorem copy_dst_apply (pDst : Mem) (body : List Nat) (hb : body.length = 16) (i : Nat) :
    memWrite (memWrite (memWrite pDst 0 [rmpSTART_FRAME_FIRST_BYTE]) 1
        [rmpSTART_FRAME_SECOND_BYTE]) sizeof_rmpSTART_FRAME body i
      = if i < 18 then (0xFF :: 0xFF :: body).getD i 0 else pDst i := by
  simp only [memWrite, hb, rmpSTART_FRAME_FIRST_BYTE, rmpSTART_FRAME_SECOND_BYTE,
    sizeof_rmpSTART_FRAME, List.length_singleton]
  by_cases h18 : i < 18
  · rcases Nat.lt_or_ge i 2 with h2 | h2
    · interval_cases i <;> simp
    · obtain ⟨j, rfl⟩ : ∃ j, i = j + 2 := ⟨i - 2, by omega⟩
      have : 2 ≤ j + 2 ∧ j + 2 < 2 + 16 := by omega
      simp [this, h18]
  · rw [if_neg (by omega), if_neg (by omega), if_neg (by omega), if_neg h18]

theorem copy_dst_eq (pDst : Mem) (body : List Nat) (hb : body.length = 16) :
    memWrite (memWrite (memWrite pDst 0 [rmpSTART_FRAME_FIRST_BYTE]) 1
        [rmpSTART_FRAME_SECOND_BYTE]) sizeof_rmpSTART_FRAME body
      = frameInto pDst body := by
  funext i
  rw [copy_dst_apply pDst body hb i, frameInto]

theorem frameInto_read_frame (pDst : Mem) (body : List Nat) (hb : body.length = 16) :
    memRead (frameInto pDst body) 0 18 = 0xFF :: 0xFF :: body := by
  have hl : (0xFF :: 0xFF :: body).length = 18 := by simp [hb]
  have := memRead_eq_of_getD (frameInto pDst body) 0 (0xFF :: 0xFF :: body) (by
    intro i hi
    rw [hl] at hi
    simp only [frameInto, Nat.zero_add, if_pos hi])
  rwa [hl] at this

theorem frameInto_read_payload (pDst : Mem) (body : List Nat) (hb : body.length = 16) :
    memRead (frameInto pDst body) 2 15 = body.take 15 := by
  have hl : (body.take 15).length = 15 := by simp [hb]
  have := memRead_eq_of_getD (frameInto pDst body) 2 (body.take 15) (by
    intro i hi
    rw [hl] at hi
    have h18 : i + 2 < 18 := by omega
    have h2 : 2 + i = i + 2 := by omega
    rw [h2]
    unfold frameInto
    rw [if_pos h18]
    simp [List.getD_eq_getElem?_getD, List.getElem?_take, hi])
  rwa [hl] at this

theorem frameInto_crc_byte (pDst : Mem) (body : List Nat) :
    frameInto pDst body 17 = body.getD 15 0 := by
  simp [frameInto]

/-! ## One call of each handler -/

theorem findFirst_loop_nil (fuel s cap t cnt : Nat) :
    RMP_FindFirstByte_loop (fuel + 1) ⟨s, ⟨[], cap⟩, t⟩ cnt
      = some (rmpBREAK, ⟨s, ⟨[], cap⟩, t⟩) := by
  simp [RMP_FindFirstByte_loop, lwrb_read]

theorem findFirst_loop_marker (fuel s cap t cnt : Nat) (r : List Nat) :
    RMP_FindFirstByte_loop (fuel + 1) ⟨s, ⟨0xFF :: r, cap⟩, t⟩ cnt
      = some (rmpIN_PROGRESS, ⟨rmpSTATE_FIND_SECOND_BYTE, ⟨r, cap⟩, t⟩) := by
  simp [RMP_FindFirstByte_loop, lwrb_read, rmpSTART_FRAME_FIRST_BYTE, RMP_SetState,
    rmpSTATE_FIND_SECOND_BYTE, rmpSTATE_MAX_NUMB]

theorem findFirst_loop_yield (fuel s cap cnt x : Nat) (r : List Nat) (hx : x ≠ 0xFF) :
    RMP_FindFirstByte_loop (fuel + 1) ⟨s, ⟨x :: r, cap⟩, 0⟩ cnt
      = some (rmpBREAK, ⟨s, ⟨r, cap⟩, 0⟩) := by
  simp [RMP_FindFirstByte_loop, lwrb_read, rmpSTART_FRAME_FIRST_BYTE, hx]

theorem findFirst_loop_skip (fuel s cap t cnt x : Nat) (r : List Nat) (hx : x ≠ 0xFF)
    (ht : 0 < t) :
    RMP_FindFirstByte_loop (fuel + 1) ⟨s, ⟨x :: r, cap⟩, t⟩ cnt
      = RMP_FindFirstByte_loop fuel ⟨s, ⟨r, cap⟩, t⟩ (cnt + 1) := by
  have : ¬ (1 > t) := by omega
  simp [RMP_FindFirstByte_loop, lwrb_read, rmpSTART_FRAME_FIRST_BYTE, hx, this]

theorem findSecond_nil (s cap t n : Nat) (pDst : Mem) :
    RMP_FindSecondByte ⟨s, ⟨[], cap⟩, t⟩ pDst n
      = some (rmpBREAK, ⟨s, ⟨[], cap⟩, t⟩, pDst) := by
  simp [RMP_FindSecondByte, RMP_Get, lwrb_read]

theorem findSecond_cons (s cap t n x : Nat) (r : List Nat) (pDst : Mem) :
    RMP_FindSecondByte ⟨s, ⟨x :: r, cap⟩, t⟩ pDst n
      = some (rmpIN_PROGRESS,
          ⟨if x = 0xFF then rmpSTATE_WAIT_AND_COPY_MESSAGE else rmpSTATE_FIND_FIRST_BYTE,
            ⟨r, cap⟩, t⟩, pDst) := by
  by_cases hx : x = 0xFF <;>
  simp [RMP_FindSecondByte, RMP_Get, lwrb_read, rmpSTART_FRAME_SECOND_BYTE, RMP_SetState,
    rmpSTATE_WAIT_AND_COPY_MESSAGE, rmpSTATE_FIND_FIRST_BYTE, rmpSTATE_MAX_NUMB, hx]

theorem waitAndCopy_wait (s cap t n : Nat) (b : List Nat) (pDst : Mem)
    (h : n < 18 ∨ b.length < 16) :
    RMP_WaitAndCopyMessage ⟨s, ⟨b, cap⟩, t⟩ pDst n
      = some (rmpBREAK, ⟨s, ⟨b, cap⟩, t⟩, pDst) := by
  have : ¬ (n ≥ 18 ∧ b.length ≥ 18 - 2) := by omega
  simp only [RMP_WaitAndCopyMessage, lwrb_get_full, rmpONE_MESSAGE_SIZE_IN_BYTES,
    sizeof_rmpSTART_FRAME, if_neg this]

theorem waitAndCopy_copy (s cap t n : Nat) (body r : List Nat) (pDst : Mem)
    (hn : 18 ≤ n) (hb : body.length = 16) :
    RMP_WaitAndCopyMessage ⟨s, ⟨body ++ r, cap⟩, t⟩ pDst n
      = some (if CORE_GetCrc16_CCITT_Poly0x1021 (body.take 15) % 2 ^ 8 = body.getD 15 0
                then rmpMESSAGE_COPIED else rmpBREAK,
          ⟨rmpSTATE_FIND_FIRST_BYTE, ⟨r, cap⟩, t⟩, frameInto pDst body) := by
  have hc : n ≥ rmpONE_MESSAGE_SIZE_IN_BYTES
      ∧ lwrb_get_full (⟨body ++ r, cap⟩ : lwrb_t)
          ≥ rmpONE_MESSAGE_SIZE_IN_BYTES - sizeof_rmpSTART_FRAME := by
    simp [rmpONE_MESSAGE_SIZE_IN_BYTES, sizeof_rmpSTART_FRAME, lwrb_get_full, hb]
    omega
  have htake : (body ++ r).take 16 = body := by
    rw [← hb]; simp
  have hdrop : (body ++ r).drop 16 = r := by
    rw [← hb]; simp
  have hrd : RMP_Get ⟨s, ⟨body ++ r, cap⟩, t⟩
        (rmpONE_MESSAGE_SIZE_IN_BYTES - sizeof_rmpSTART_FRAME)
      = (⟨s, ⟨r, cap⟩, t⟩, body) := by
    simp [RMP_Get, lwrb_read, rmpONE_MESSAGE_SIZE_IN_BYTES, sizeof_rmpSTART_FRAME, htake,
      hdrop]
  simp only [RMP_WaitAndCopyMessage, if_pos hc, hrd, copy_dst_eq pDst body hb,
    RMP_GetPackCrc, offsetof_xPLoad, sizeof_xPLoad]
  simp only [rmpONE_MESSAGE_SIZE_IN_BYTES, sizeof_rmpSTART_FRAME, rmpCRC_SIZE_IN_BYTES,
    Nat.reduceSub, frameInto_read_payload pDst body hb, frameInto_crc_byte, RMP_SetState,
    rmpSTATE_FIND_FIRST_BYTE, rmpSTATE_MAX_NUMB]
  split <;> simp

/-! ## One pass of the driver loop -/

theorem drv_first (fuel t n u : Nat) (rb : lwrb_t) (pDst : Mem) :
    prvProcessing_loop (fuel + 1) ⟨rmpSTATE_FIND_FIRST_BYTE, rb, t⟩ pDst n u
      = match RMP_FindFirstByte_loop (fuel + 1) ⟨rmpSTATE_FIND_FIRST_BYTE, rb, t⟩ 0 with
        | none => none
        | some (rmpIN_PROGRESS, hObj1) => prvProcessing_loop fuel hObj1 pDst n u
        | some (rmpMESSAGE_COPIED, hObj1) => some (18, hObj1, pDst)
        | some (rmpBREAK, hObj1) => some (u, hObj1, pDst) := by
  rw [prvProcessing_loop]
  simp only [aFn, RMP_GetState, if_true, RMP_FindFirstByte]
  rcases RMP_FindFirstByte_loop (fuel + 1) ⟨rmpSTATE_FIND_FIRST_BYTE, rb, t⟩ 0
    with _ | ⟨c, h1⟩
  · rfl
  · cases c <;> simp [rmpONE_MESSAGE_SIZE_IN_BYTES]

theorem drv_first_nil (fuel cap t n u : Nat) (pDst : Mem) :
    prvProcessing_loop (fuel + 1) ⟨rmpSTATE_FIND_FIRST_BYTE, ⟨[], cap⟩, t⟩ pDst n u
      = some (u, ⟨rmpSTATE_FIND_FIRST_BYTE, ⟨[], cap⟩, t⟩, pDst) := by
  rw [drv_first, findFirst_loop_nil]

theorem drv_first_marker (fuel cap t n u : Nat) (r : List Nat) (pDst : Mem) :
    prvProcessing_loop (fuel + 1) ⟨rmpSTATE_FIND_FIRST_BYTE, ⟨0xFF :: r, cap⟩, t⟩ pDst n u
      = prvProcessing_loop fuel ⟨rmpSTATE_FIND_SECOND_BYTE, ⟨r, cap⟩, t⟩ pDst n u := by
  rw [drv_first, findFirst_loop_marker]

theorem drv_first_yield (fuel cap n u x : Nat) (r : List Nat) (pDst : Mem) (hx : x ≠ 0xFF) :
    prvProcessing_loop (fuel + 1) ⟨rmpSTATE_FIND_FIRST_BYTE, ⟨x :: r, cap⟩, 0⟩ pDst n u
      = some (u, ⟨rmpSTATE_FIND_FIRST_BYTE, ⟨r, cap⟩, 0⟩, pDst) := by
  rw [drv_first, findFirst_loop_yield _ _ _ _ _ _ hx]

theorem drv_second_nil (fuel cap t n u : Nat) (pDst : Mem) :
    prvProcessing_loop (fuel + 1) ⟨rmpSTATE_FIND_SECOND_BYTE, ⟨[], cap⟩, t⟩ pDst n u
      = some (u, ⟨rmpSTATE_FIND_SECOND_BYTE, ⟨[], cap⟩, t⟩, pDst) := by
  rw [prvProcessing_loop]
  simp [aFn, RMP_GetState, rmpSTATE_FIND_SECOND_BYTE, rmpSTATE_FIND_FIRST_BYTE,
    findSecond_nil]

theorem drv_second_cons (fuel cap t n u x : Nat) (r : List Nat) (pDst : Mem) :
    prvProcessing_loop (fuel + 1) ⟨rmpSTATE_FIND_SECOND_BYTE, ⟨x :: r, cap⟩, t⟩ pDst n u
      = prvProcessing_loop fuel
          ⟨if x = 0xFF then rmpSTATE_WAIT_AND_COPY_MESSAGE else rmpSTATE_FIND_FIRST_BYTE,
            ⟨r, cap⟩, t⟩ pDst n u := by
  rw [prvProcessing_loop]
  simp [aFn, RMP_GetState, rmpSTATE_FIND_SECOND_BYTE, rmpSTATE_FIND_FIRST_BYTE,
    findSecond_cons]

theorem drv_wait_wait (fuel cap t n u : Nat) (b : List Nat) (pDst : Mem)
    (h : n < 18 ∨ b.length < 16) :
    prvProcessing_loop (fuel + 1) ⟨rmpSTATE_WAIT_AND_COPY_MESSAGE, ⟨b, cap⟩, t⟩ pDst n u
      = some (u, ⟨rmpSTATE_WAIT_AND_COPY_MESSAGE, ⟨b, cap⟩, t⟩, pDst) := by
  rw [prvProcessing_loop]
  simp [aFn, RMP_GetState, rmpSTATE_FIND_SECOND_BYTE, rmpSTATE_FIND_FIRST_BYTE,
    rmpSTATE_WAIT_AND_COPY_MESSAGE, waitAndCopy_wait _ _ _ _ _ _ h]

theorem drv_wait_copy (fuel cap t n u : Nat) (body r : List Nat) (pDst : Mem)
    (hn : 18 ≤ n) (hb : body.length = 16) :
    prvProcessing_loop (fuel + 1) ⟨rmpSTATE_WAIT_AND_COPY_MESSAGE, ⟨body ++ r, cap⟩, t⟩
        pDst n u
      = some (if CORE_GetCrc16_CCITT_Poly0x1021 (body.take 15) % 2 ^ 8 = body.getD 15 0
                then 18 else u,
          ⟨rmpSTATE_FIND_FIRST_BYTE, ⟨r, cap⟩, t⟩, frameInto pDst body) := by
  rw [prvProcessing_loop]
  have hfn : aFn (fuel + 1) rmpSTATE_WAIT_AND_COPY_MESSAGE = some RMP_WaitAndCopyMessage := by
    simp [aFn, rmpSTATE_FIND_SECOND_BYTE, rmpSTATE_FIND_FIRST_BYTE,
      rmpSTATE_WAIT_AND_COPY_MESSAGE]
  simp only [RMP_GetState, hfn,
    waitAndCopy_copy rmpSTATE_WAIT_AND_COPY_MESSAGE cap t n body r pDst hn hb]
  split <;> simp [rmpONE_MESSAGE_SIZE_IN_BYTES]

/-- A marker followed by sixteen bytes: the shape of every 18-byte sequence that
starts with `0xFF 0xFF`. -/
theorem marked_shape (f : List Nat) (hl : f.length = 18) (h0 : f.getD 0 0 = 0xFF)
    (h1 : f.getD 1 0 = 0xFF) :
    ∃ body : List Nat, f = 0xFF :: 0xFF :: body ∧ body.length = 16
      ∧ f.getD 17 0 = body.getD 15 0 ∧ (f.drop 2).take 15 = body.take 15 := by
  match f, hl with
  | a :: b :: body, hl =>
    simp at h0 h1
    subst h0 h1
    refine ⟨body, rfl, by simpa using hl, by simp, by simp⟩

/-- A frame-sized run that starts with the marker, met in state `FindFirstByte`:
three passes of the driver consume it and report it exactly when the checksum
byte matches. -/
theorem processing_marked (fuel cap t n : Nat) (body r : List Nat) (pDst : Mem)
    (hn : 18 ≤ n) (hb : body.length = 16) :
    prvProcessing (fuel + 3) ⟨rmpSTATE_FIND_FIRST_BYTE, ⟨0xFF :: 0xFF :: body ++ r, cap⟩, t⟩
        pDst n
      = some (if CORE_GetCrc16_CCITT_Poly0x1021 (body.take 15) % 2 ^ 8 = body.getD 15 0
                then 18 else 0,
          ⟨rmpSTATE_FIND_FIRST_BYTE, ⟨r, cap⟩, t⟩, frameInto pDst body) := by
  unfold prvProcessing
  rw [List.cons_append, List.cons_append, drv_first_marker, drv_second_cons, if_pos rfl,
    drv_wait_copy _ _ _ _ _ _ _ _ hn hb]

/-! ## What a handler can return -/

theorem findFirst_loop_codes (fuel : Nat) (hObj hObj1 : rmp_obj_t) (cnt : Nat)
    (c : rmp_return_code) (h : RMP_FindFirstByte_loop fuel hObj cnt = some (c, hObj1)) :
    c ≠ rmpMESSAGE_COPIED := by
  induction fuel generalizing hObj cnt with
  | zero => simp [RMP_FindFirstByte_loop] at h
  | succ k ih =>
    rw [RMP_FindFirstByte_loop] at h
    simp only at h
    split_ifs at h with h1 h2 h3
    · simp only [Option.some.injEq, Prod.mk.injEq] at h
      rw [← h.1]; decide
    · simp only [Option.some.injEq, Prod.mk.injEq] at h
      rw [← h.1]; decide
    · simp only [Option.some.injEq, Prod.mk.injEq] at h
      rw [← h.1]; decide
    · exact ih _ _ h

/-- Only the copy branch of `RMP_WaitAndCopyMessage` returns `rmpMESSAGE_COPIED`,
and it does so with a checked frame in the destination. -/
theorem handler_copied (fuel n : Nat) (hObj hObj1 : rmp_obj_t) (pDst pDst1 : Mem)
    (fn : rmp_obj_t → Mem → Nat → Option (rmp_return_code × rmp_obj_t × Mem))
    (hfn : aFn fuel (RMP_GetState hObj) = some fn)
    (h : fn hObj pDst n = some (rmpMESSAGE_COPIED, hObj1, pDst1)) :
    hObj1.eState = rmpSTATE_FIND_FIRST_BYTE ∧ pDst1 0 = 0xFF ∧ pDst1 1 = 0xFF
      ∧ pDst1 17 = CORE_GetCrc16_CCITT_Poly0x1021 (memRead pDst1 2 15) % 2 ^ 8 := by
  obtain ⟨s, ⟨b, cap⟩, t⟩ := hObj
  simp only [aFn, RMP_GetState] at hfn
  split_ifs at hfn with h0 h1 h2
  · simp only [Option.some.injEq] at hfn
    subst hfn
    simp only [RMP_FindFirstByte] at h
    split at h
    · simp at h
    · rename_i c h2 heq
      simp only [Option.some.injEq, Prod.mk.injEq] at h
      exact absurd h.1 (findFirst_loop_codes _ _ _ _ _ heq)
  · simp only [Option.some.injEq] at hfn
    subst hfn
    cases b with
    | nil => simp [findSecond_nil] at h
    | cons x r => simp [findSecond_cons] at h
  · simp only [Option.some.injEq] at hfn
    subst hfn
    by_cases hc : n < 18 ∨ b.length < 16
    · simp [waitAndCopy_wait _ _ _ _ _ _ hc] at h
    · have hb : (b.take 16).length = 16 := by simp; omega
      have hn : 18 ≤ n := by omega
      have := waitAndCopy_copy s cap t n (b.take 16) (b.drop 16) pDst hn hb
      rw [List.take_append_drop] at this
      rw [this] at h
      simp only [Option.some.injEq, Prod.mk.injEq] at h
      obtain ⟨hcode, hobj, hdst⟩ := h
      split_ifs at hcode with hcrc
      subst hobj hdst
      refine ⟨rfl, by simp [frameInto], by simp [frameInto], ?_⟩
      rw [frameInto_read_payload pDst _ hb, frameInto_crc_byte, hcrc]

/-- The size returned by the driver loop is either the value it started with or
18 with a checked frame in the destination and the state `FindFirstByte`. -/
theorem processing_loop_sound (fuel n u k : Nat) (hObj hObj1 : rmp_obj_t)
    (pDst pDst1 : Mem)
    (h : prvProcessing_loop fuel hObj pDst n u = some (k, hObj1, pDst1)) :
    k = u ∨ (k = 18 ∧ hObj1.eState = rmpSTATE_FIND_FIRST_BYTE ∧ pDst1 0 = 0xFF
      ∧ pDst1 1 = 0xFF
      ∧ pDst1 17 = CORE_GetCrc16_CCITT_Poly0x1021 (memRead pDst1 2 15) % 2 ^ 8) := by
  induction fuel generalizing hObj pDst with
  | zero => simp [prvProcessing_loop] at h
  | succ m ih =>
    rw [prvProcessing_loop] at h
    split at h
    · simp at h
    · rename_i fn hfn
      split at h
      · simp at h
      · rename_i c h2 d2 hres
        cases c with
        | rmpIN_PROGRESS =>
          simp only [if_true, reduceCtorEq, if_false] at h
          exact ih _ _ h
        | rmpMESSAGE_COPIED =>
          simp only [if_true, reduceCtorEq, if_false, Option.some.injEq, Prod.mk.injEq] at h
          obtain ⟨hk, hobj, hdst⟩ := h
          subst hobj hdst
          right
          exact ⟨by rw [← hk]; rfl, handler_copied _ _ _ _ _ _ _ hfn hres⟩
        | rmpBREAK =>
          simp only [reduceCtorEq, if_false, Option.some.injEq, Prod.mk.injEq] at h
          exact Or.inl h.1.symm

/-! ## Sequences of calls -/

theorem prvPut_one (s cap t x : Nat) (b : List Nat) (h : b.length < cap) :
    (prvPut ⟨s, ⟨b, cap⟩, t⟩ [x]).1 = ⟨s, ⟨b ++ [x], cap⟩, t⟩ := by
  have : min 1 (cap - b.length) = 1 := by omega
  simp [prvPut, lwrb_write, this]

/-- Feeding the body of a frame byte by byte in state `WaitAndCopyMessage`:
`Processing` returns 0 until the sixteenth body byte is buffered, then copies. -/
theorem putProcessing_body (fuel cap t n : Nat) (hcap : 16 ≤ cap) (hn : 18 ≤ n)
    (xs : List Nat) :
    ∀ (pre : List Nat) (pDst : Mem), pre.length + xs.length = 16 → xs ≠ [] →
      putProcessingCalls (fuel + 1) n ⟨rmpSTATE_WAIT_AND_COPY_MESSAGE, ⟨pre, cap⟩, t⟩ pDst xs
        = some (List.replicate (xs.length - 1) 0 ++
              [if CORE_GetCrc16_CCITT_Poly0x1021 ((pre ++ xs).take 15) % 2 ^ 8
                    = (pre ++ xs).getD 15 0 then 18 else 0],
            ⟨rmpSTATE_FIND_FIRST_BYTE, ⟨[], cap⟩, t⟩, frameInto pDst (pre ++ xs)) := by
  induction xs with
  | nil => intro pre pDst _ h; exact absurd rfl h
  | cons x rest ih =>
    intro pre pDst hlen _
    simp only [List.length_cons] at hlen
    rw [putProcessingCalls, prvPut_one _ _ _ _ _ (by omega)]
    unfold prvProcessing
    cases rest with
    | nil =>
      simp only [List.length_nil] at hlen
      have hb : (pre ++ [x]).length = 16 := by simp; omega
      have := drv_wait_copy fuel cap t n 0 (pre ++ [x]) [] pDst hn hb
      rw [List.append_nil] at this
      rw [this]
      simp [putProcessingCalls]
    | cons y ys =>
      simp only [List.length_cons] at hlen
      rw [drv_wait_wait fuel cap t n 0 (pre ++ [x]) pDst (Or.inr (by simp; omega))]
      have := ih (pre ++ [x]) pDst (by simp; omega) (by simp)
      simp only [List.append_assoc, List.singleton_append] at this
      simp only [this]
      simp [List.replicate_succ]

/-- With a positive threshold the search loop of `RMP_FindFirstByte` runs through
every byte that precedes the first marker byte. -/
theorem findFirst_loop_garbage (s cap t : Nat) (r : List Nat) (ht : 0 < t) (g : List Nat) :
    ∀ (fuel cnt : Nat), (∀ x ∈ g, x ≠ 0xFF) → g.length < fuel →
      RMP_FindFirstByte_loop fuel ⟨s, ⟨g ++ 0xFF :: r, cap⟩, t⟩ cnt
        = some (rmpIN_PROGRESS, ⟨rmpSTATE_FIND_SECOND_BYTE, ⟨r, cap⟩, t⟩) := by
  induction g with
  | nil =>
    intro fuel cnt _ hfuel
    obtain ⟨k, rfl⟩ : ∃ k, fuel = k + 1 := ⟨fuel - 1, by simp at hfuel; omega⟩
    exact findFirst_loop_marker k s cap t cnt r
  | cons x g ih =>
    intro fuel cnt hg hfuel
    simp only [List.length_cons] at hfuel
    obtain ⟨k, rfl⟩ : ∃ k, fuel = k + 1 := ⟨fuel - 1, by omega⟩
    rw [List.cons_append, findFirst_loop_skip k s cap t cnt x _ (hg x (by simp)) ht]
    exact ih k (cnt + 1) (fun y hy => hg y (by simp [hy])) (by omega)

theorem processingCalls_cons (fuel n k : Nat) (ns ks : List Nat) (hObj hObj1 hObj2 : rmp_obj_t)
    (pDst pDst1 pDst2 : Mem)
    (h1 : prvProcessing fuel hObj pDst n = some (k, hObj1, pDst1))
    (h2 : processingCalls fuel hObj1 pDst1 ns = some (ks, hObj2, pDst2)) :
    processingCalls fuel hObj pDst (n :: ns) = some (k :: ks, hObj2, pDst2) := by
  simp [processingCalls, h1, h2]

/-- With threshold 0 every `Processing` call drops one byte of garbage, and the
call after the last garbage byte reports the frame. -/
theorem recovery_thr0 (cap fuel n : Nat) (body : List Nat) (hn : 18 ≤ n)
    (hb : body.length = 16)
    (hcrc : CORE_GetCrc16_CCITT_Poly0x1021 (body.take 15) % 2 ^ 8 = body.getD 15 0)
    (g : List Nat) (hg : ∀ x ∈ g, x ≠ 0xFF) (pDst : Mem) :
    processingCalls (fuel + 3)
        ⟨rmpSTATE_FIND_FIRST_BYTE, ⟨g ++ 0xFF :: 0xFF :: body, cap⟩, 0⟩ pDst
        (List.replicate (g.length + 1) n)
      = some (List.replicate g.length 0 ++ [18],
          ⟨rmpSTATE_FIND_FIRST_BYTE, ⟨[], cap⟩, 0⟩, frameInto pDst body) := by
  induction g with
  | nil =>
    have := processing_marked fuel cap 0 n body [] pDst hn hb
    rw [if_pos hcrc, List.append_nil] at this
    exact processingCalls_cons _ _ _ _ _ _ _ _ _ _ _ this rfl
  | cons x g ih =>
    have h1 : prvProcessing (fuel + 3)
          ⟨rmpSTATE_FIND_FIRST_BYTE, ⟨(x :: g) ++ 0xFF :: 0xFF :: body, cap⟩, 0⟩ pDst n
        = some (0, ⟨rmpSTATE_FIND_FIRST_BYTE, ⟨g ++ 0xFF :: 0xFF :: body, cap⟩, 0⟩, pDst) := by
      unfold prvProcessing
      rw [List.cons_append, drv_first_yield _ _ _ _ _ _ _ (hg x (by simp))]
    exact processingCalls_cons _ _ _ _ _ _ _ _ _ _ _ h1
      (ih (fun y hy => hg y (by simp [hy])))

/-- With a positive threshold one `Processing` call runs through the garbage and
reports the frame. -/
theorem recovery_thr_pos (cap t fuel n : Nat) (body g : List Nat) (hn : 18 ≤ n)
    (hb : body.length = 16)
    (hcrc : CORE_GetCrc16_CCITT_Poly0x1021 (body.take 15) % 2 ^ 8 = body.getD 15 0)
    (hg : ∀ x ∈ g, x ≠ 0xFF) (ht : 0 < t) (hfuel : g.length < fuel + 3) (pDst : Mem) :
    prvProcessing (fuel + 3)
        ⟨rmpSTATE_FIND_FIRST_BYTE, ⟨g ++ 0xFF :: 0xFF :: body, cap⟩, t⟩ pDst n
      = some (18, ⟨rmpSTATE_FIND_FIRST_BYTE, ⟨[], cap⟩, t⟩, frameInto pDst body) := by
  unfold prvProcessing
  rw [drv_first, findFirst_loop_garbage _ _ _ _ ht g _ _ hg hfuel]
  simp only
  rw [drv_second_cons, if_pos rfl]
  have := drv_wait_copy fuel cap t n 0 body [] pDst hn hb
  rw [List.append_nil, if_pos hcrc] at this
  exact this

/-- Calls with a destination that is too small, in state `WaitAndCopyMessage`,
change nothing; the first call with room for a frame copies it. -/
theorem small_then_big (cap t fuel n : Nat) (body r : List Nat) (hn : 18 ≤ n)
    (hb : body.length = 16) (pDst : Mem) (caps : List Nat) (hcaps : ∀ c ∈ caps, c < 18) :
    processingCalls (fuel + 1)
        ⟨rmpSTATE_WAIT_AND_COPY_MESSAGE, ⟨body ++ r, cap⟩, t⟩ pDst (caps ++ [n])
      = some (List.replicate caps.length 0 ++
            [if CORE_GetCrc16_CCITT_Poly0x1021 (body.take 15) % 2 ^ 8 = body.getD 15 0
              then 18 else 0],
          ⟨rmpSTATE_FIND_FIRST_BYTE, ⟨r, cap⟩, t⟩, frameInto pDst body) := by
  induction caps with
  | nil =>
    exact processingCalls_cons _ _ _ _ _ _ _ _ _ _ _
      (drv_wait_copy fuel cap t n 0 body r pDst hn hb) rfl
  | cons c cs ih =>
    exact processingCalls_cons _ _ _ _ _ _ _ _ _ _ _
      (drv_wait_wait fuel cap t c 0 (body ++ r) pDst (Or.inl (hcaps c (by simp))))
      (ih (fun y hy => hcaps y (by simp [hy])))

/-! ## Termination and progress -/

/-- With more fuel than buffered bytes the search loop of `RMP_FindFirstByte`
returns: either `rmpBREAK` in the same state, or `rmpIN_PROGRESS` in state
`FindSecondByte` after removing at least one byte; what stays buffered is a
suffix of what was. -/
theorem findFirst_loop_total (s cap t : Nat) (b : List Nat) :
    ∀ (fuel cnt : Nat), b.length < fuel →
      ∃ b1 : List Nat, b1 <:+ b ∧
        (RMP_FindFirstByte_loop fuel ⟨s, ⟨b, cap⟩, t⟩ cnt
            = some (rmpBREAK, ⟨s, ⟨b1, cap⟩, t⟩)
          ∨ (RMP_FindFirstByte_loop fuel ⟨s, ⟨b, cap⟩, t⟩ cnt
              = some (rmpIN_PROGRESS, ⟨rmpSTATE_FIND_SECOND_BYTE, ⟨b1, cap⟩, t⟩)
            ∧ b1.length < b.length)) := by
  induction b with
  | nil =>
    intro fuel cnt hfuel
    obtain ⟨k, rfl⟩ : ∃ k, fuel = k + 1 := ⟨fuel - 1, by omega⟩
    exact ⟨[], List.suffix_refl _, Or.inl (findFirst_loop_nil k s cap t cnt)⟩
  | cons x r ih =>
    intro fuel cnt hfuel
    simp only [List.length_cons] at hfuel
    obtain ⟨k, rfl⟩ : ∃ k, fuel = k + 1 := ⟨fuel - 1, by omega⟩
    by_cases hx : x = 0xFF
    · subst hx
      exact ⟨r, List.suffix_cons _ _, Or.inr ⟨findFirst_loop_marker k s cap t cnt r, by simp⟩⟩
    · rcases Nat.eq_zero_or_pos t with ht | ht
      · subst ht
        exact ⟨r, List.suffix_cons _ _, Or.inl (findFirst_loop_yield k s cap cnt x r hx)⟩
      · obtain ⟨b1, hsuf, hres⟩ := ih k (cnt + 1) (by omega)
        refine ⟨b1, hsuf.trans (List.suffix_cons _ _), ?_⟩
        rw [findFirst_loop_skip k s cap t cnt x r hx ht]
        rcases hres with h | ⟨h, hlt⟩
        · exact Or.inl h
        · exact Or.inr ⟨h, by simp only [List.length_cons]; omega⟩

/-- With more fuel than buffered bytes the driver loop returns, and when the
buffer is too short to complete a frame from the current state the size it
returns is the one it started with. -/
theorem processing_loop_total (cap t n u : Nat) :
    ∀ (fuel s : Nat) (b : List Nat) (pDst : Mem),
      (s = rmpSTATE_FIND_FIRST_BYTE ∨ s = rmpSTATE_FIND_SECOND_BYTE
        ∨ s = rmpSTATE_WAIT_AND_COPY_MESSAGE) →
      b.length < fuel →
      ∃ k hObj1 pDst1,
        prvProcessing_loop fuel ⟨s, ⟨b, cap⟩, t⟩ pDst n u = some (k, hObj1, pDst1)
          ∧ (b.length + s < 18 → k = u) := by
  intro fuel
  induction fuel with
  | zero => intro s b pDst _ h; omega
  | succ m ih =>
    intro s b pDst hs hfuel
    rcases hs with rfl | rfl | rfl
    · rw [drv_first]
      obtain ⟨b1, hsuf, hres⟩ := findFirst_loop_total rmpSTATE_FIND_FIRST_BYTE cap t b
        (m + 1) 0 hfuel
      rcases hres with h | ⟨h, hlt⟩
      · rw [h]
        exact ⟨u, _, _, rfl, fun _ => rfl⟩
      · rw [h]
        obtain ⟨k, h1, d1, hk, hu⟩ := ih rmpSTATE_FIND_SECOND_BYTE b1 pDst (by simp)
          (by omega)
        refine ⟨k, h1, d1, hk, fun hlen => hu ?_⟩
        simp only [rmpSTATE_FIND_SECOND_BYTE, rmpSTATE_FIND_FIRST_BYTE] at hlen ⊢
        omega
    · cases b with
      | nil =>
        rw [drv_second_nil]
        exact ⟨u, _, _, rfl, fun _ => rfl⟩
      | cons x r =>
        rw [drv_second_cons]
        simp only [List.length_cons] at hfuel
        by_cases hx : x = 0xFF
        · rw [if_pos hx]
          obtain ⟨k, h1, d1, hk, hu⟩ := ih rmpSTATE_WAIT_AND_COPY_MESSAGE r pDst (by simp)
            (by omega)
          refine ⟨k, h1, d1, hk, fun hlen => hu ?_⟩
          simp only [rmpSTATE_FIND_SECOND_BYTE, rmpSTATE_WAIT_AND_COPY_MESSAGE,
            List.length_cons] at hlen ⊢
          omega
        · rw [if_neg hx]
          obtain ⟨k, h1, d1, hk, hu⟩ := ih rmpSTATE_FIND_FIRST_BYTE r pDst (by simp)
            (by omega)
          refine ⟨k, h1, d1, hk, fun hlen => hu ?_⟩
          simp only [rmpSTATE_FIND_SECOND_BYTE, rmpSTATE_FIND_FIRST_BYTE,
            List.length_cons] at hlen ⊢
          omega
    · by_cases hc : n < 18 ∨ b.length < 16
      · rw [drv_wait_wait m cap t n u b pDst hc]
        exact ⟨u, _, _, rfl, fun _ => rfl⟩
      · have hb : (b.take 16).length = 16 := by simp; omega
        have := drv_wait_copy m cap t n u (b.take 16) (b.drop 16) pDst (by omega) hb
        rw [List.take_append_drop] at this
        rw [this]
        refine ⟨_, _, _, rfl, fun hlen => ?_⟩
        simp only [rmpSTATE_WAIT_AND_COPY_MESSAGE] at hlen
        omega

/-- Whatever the fuel, a search loop that returns `rmpIN_PROGRESS` has removed
at least one byte from the ring buffer. -/
theorem findFirst_loop_shrinks (fuel : Nat) :
    ∀ (hObj hObj1 : rmp_obj_t) (cnt : Nat) (c : rmp_return_code),
      RMP_FindFirstByte_loop fuel hObj cnt = some (c, hObj1) →
      hObj1.xLWRB.data.length ≤ hObj.xLWRB.data.length
        ∧ (c = rmpIN_PROGRESS → hObj1.xLWRB.data.length < hObj.xLWRB.data.length) := by
  induction fuel with
  | zero => intro hObj hObj1 cnt c h; simp [RMP_FindFirstByte_loop] at h
  | succ k ih =>
    intro hObj hObj1 cnt c h
    obtain ⟨s, ⟨b, cap⟩, t⟩ := hObj
    cases b with
    | nil =>
      rw [findFirst_loop_nil] at h
      simp only [Option.some.injEq, Prod.mk.injEq] at h
      obtain ⟨hc, hobj⟩ := h
      subst hc hobj
      simp
    | cons x r =>
      by_cases hx : x = 0xFF
      · subst hx
        rw [findFirst_loop_marker] at h
        simp only [Option.some.injEq, Prod.mk.injEq] at h
        obtain ⟨hc, hobj⟩ := h
        subst hc hobj
        simp
      · rcases Nat.eq_zero_or_pos t with ht | ht
        · subst ht
          rw [findFirst_loop_yield _ _ _ _ _ _ hx] at h
          simp only [Option.some.injEq, Prod.mk.injEq] at h
          obtain ⟨hc, hobj⟩ := h
          subst hc hobj
          simp
        · rw [findFirst_loop_skip _ _ _ _ _ _ _ hx ht] at h
          have := ih _ _ _ _ h
          simp only [List.length_cons] at this ⊢
          exact ⟨by omega, fun hc => by have := this.2 hc; omega⟩

/-- A handler that returns `rmpIN_PROGRESS` has removed at least one byte from
the ring buffer. -/
theorem handler_progress (fuel n : Nat) (hObj hObj1 : rmp_obj_t) (pDst pDst1 : Mem)
    (fn : rmp_obj_t → Mem → Nat → Option (rmp_return_code × rmp_obj_t × Mem))
    (hfn : aFn fuel (RMP_GetState hObj) = some fn)
    (h : fn hObj pDst n = some (rmpIN_PROGRESS, hObj1, pDst1)) :
    lwrb_get_full hObj1.xLWRB < lwrb_get_full hObj.xLWRB := by
  obtain ⟨s, ⟨b, cap⟩, t⟩ := hObj
  simp only [aFn, RMP_GetState] at hfn
  simp only [lwrb_get_full]
  split_ifs at hfn with h0 h1 h2
  · simp only [Option.some.injEq] at hfn
    subst hfn
    simp only [RMP_FindFirstByte] at h
    split at h
    · simp at h
    · rename_i c h2 heq
      simp only [Option.some.injEq, Prod.mk.injEq] at h
      obtain ⟨hc, hobj, _⟩ := h
      subst hc hobj
      exact (findFirst_loop_shrinks _ _ _ _ _ heq).2 rfl
  · simp only [Option.some.injEq] at hfn
    subst hfn
    cases b with
    | nil => simp [findSecond_nil] at h
    | cons x r =>
      rw [findSecond_cons] at h
      simp only [Option.some.injEq, Prod.mk.injEq, true_and] at h
      rw [← h.1]
      simp
  · simp only [Option.some.injEq] at hfn
    subst hfn
    by_cases hc : n < 18 ∨ b.length < 16
    · simp [waitAndCopy_wait _ _ _ _ _ _ hc] at h
    · have hb : (b.take 16).length = 16 := by simp; omega
      have := waitAndCopy_copy s cap t n (b.take 16) (b.drop 16) pDst (by omega) hb
      rw [List.take_append_drop] at this
      rw [this] at h
      simp only [Option.some.injEq, Prod.mk.injEq] at h
      obtain ⟨hcode, _, _⟩ := h
      split_ifs at hcode

/-! ## Claims -/

/-- C1: valid frame, bulk delivery. In state `FindFirstByte` with a valid frame
`f` at the front of the ring buffer, followed by any bytes `r`, one `Processing`
call with a destination capacity of at least 18 returns 18, leaves `f` in
`destination[0..18)`, leaves exactly `r` buffered and leaves the state
`FindFirstByte`; three passes of the driver loop are enough, for every
threshold. -/
theorem C1_valid_frame_bulk (f r : List Nat) (cap t fuel n : Nat) (pDst : Mem)
    (hf : isValidFrame f) (hn : 18 ≤ n) (hfuel : 3 ≤ fuel) :
    ∃ pDst1, prvProcessing fuel ⟨rmpSTATE_FIND_FIRST_BYTE, ⟨f ++ r, cap⟩, t⟩ pDst n
        = some (18, ⟨rmpSTATE_FIND_FIRST_BYTE, ⟨r, cap⟩, t⟩, pDst1)
      ∧ memRead pDst1 0 18 = f := by
  obtain ⟨hl, h0, h1, hcrc⟩ := hf
  obtain ⟨body, rfl, hb, h17, hpay⟩ := marked_shape f hl h0 h1
  obtain ⟨k, rfl⟩ : ∃ k, fuel = k + 3 := ⟨fuel - 3, by omega⟩
  refine ⟨frameInto pDst body, ?_, frameInto_read_frame pDst body hb⟩
  rw [processing_marked k cap t n body r pDst hn hb, if_pos]
  rw [← h17, ← hpay, hcrc]

/-- Witness of C1 on the frame of the test `FindStartFrameAndCopyMessage`. -/
theorem C1_valid_frame_bulk_witness :
    isValidFrame sampleFrame ∧
    ∃ pDst1, prvProcessing 3 ⟨rmpSTATE_FIND_FIRST_BYTE, ⟨sampleFrame ++ [1, 2], 128⟩, 36⟩
          zeroMem 18
        = some (18, ⟨rmpSTATE_FIND_FIRST_BYTE, ⟨[1, 2], 128⟩, 36⟩, pDst1)
      ∧ memRead pDst1 0 18 = sampleFrame :=
  ⟨by decide,
    C1_valid_frame_bulk sampleFrame [1, 2] 128 36 3 18 zeroMem (by decide) (by decide)
      (by decide)⟩

/-- C2: soundness of a reported frame. Whatever the object (state, buffer,
threshold) and the destination, when `Processing` returns a non-zero size the
size is 18, `destination[0] = destination[1] = 0xFF`, `destination[17]` is the
low 8 bits of the CRC of `destination[2..16]`, and the state after the call is
`FindFirstByte`. -/
theorem C2_reported_frame_sound (fuel n k : Nat) (hObj hObj1 : rmp_obj_t)
    (pDst pDst1 : Mem)
    (h : prvProcessing fuel hObj pDst n = some (k, hObj1, pDst1)) (hk : k ≠ 0) :
    k = 18 ∧ pDst1 0 = 0xFF ∧ pDst1 1 = 0xFF
      ∧ pDst1 17 = CORE_GetCrc16_CCITT_Poly0x1021 (memRead pDst1 2 15) % 2 ^ 8
      ∧ RMP_GetState hObj1 = rmpSTATE_FIND_FIRST_BYTE := by
  rcases processing_loop_sound fuel n 0 k hObj hObj1 pDst pDst1 h with h0 | ⟨h1, h2, h3, h4, h5⟩
  · exact absurd h0 hk
  · exact ⟨h1, h3, h4, h5, h2⟩

/-- Witness of C2 on the call that reports the frame of the test
`FindStartFrameAndCopyMessage`. -/
theorem C2_reported_frame_sound_witness :
    (prvProcessing 3 ⟨rmpSTATE_FIND_FIRST_BYTE, ⟨sampleFrame, 128⟩, 36⟩ zeroMem 18
        = some (18, ⟨rmpSTATE_FIND_FIRST_BYTE, ⟨[], 128⟩, 36⟩,
            frameInto zeroMem (sampleFrame.drop 2)))
      ∧ 18 ≠ 0
      ∧ (18 = 18 ∧ frameInto zeroMem (sampleFrame.drop 2) 0 = 0xFF
        ∧ frameInto zeroMem (sampleFrame.drop 2) 1 = 0xFF
        ∧ frameInto zeroMem (sampleFrame.drop 2) 17
            = CORE_GetCrc16_CCITT_Poly0x1021
                (memRead (frameInto zeroMem (sampleFrame.drop 2)) 2 15) % 2 ^ 8
        ∧ RMP_GetState ⟨rmpSTATE_FIND_FIRST_BYTE, ⟨[], 128⟩, 36⟩
            = rmpSTATE_FIND_FIRST_BYTE) :=
  ⟨processing_marked 0 128 36 18 (sampleFrame.drop 2) [] zeroMem (by decide) (by decide),
    by decide,
    C2_reported_frame_sound 3 18 18 ⟨rmpSTATE_FIND_FIRST_BYTE, ⟨sampleFrame, 128⟩, 36⟩
      ⟨rmpSTATE_FIND_FIRST_BYTE, ⟨[], 128⟩, 36⟩ zeroMem
      (frameInto zeroMem (sampleFrame.drop 2))
      (processing_marked 0 128 36 18 (sampleFrame.drop 2) [] zeroMem (by decide) (by decide))
      (by decide)⟩

/-- C3: a corrupt frame is rejected but consumed. For 18 bytes `f` that start
with the marker and whose last byte differs from the low 8 bits of the CRC of
`f[2..16]`, followed by any bytes `r`: in state `FindFirstByte` one `Processing`
call with capacity at least 18 returns 0, leaves exactly `r` buffered and leaves
the state `FindFirstByte`. -/
theorem C3_corrupt_frame_consumed (f r : List Nat) (cap t fuel n : Nat) (pDst : Mem)
    (hl : f.length = 18) (h0 : f.getD 0 0 = 0xFF) (h1 : f.getD 1 0 = 0xFF)
    (hcrc : f.getD 17 0 ≠ CORE_GetCrc16_CCITT_Poly0x1021 ((f.drop 2).take 15) % 2 ^ 8)
    (hn : 18 ≤ n) (hfuel : 3 ≤ fuel) :
    ∃ pDst1, prvProcessing fuel ⟨rmpSTATE_FIND_FIRST_BYTE, ⟨f ++ r, cap⟩, t⟩ pDst n
        = some (0, ⟨rmpSTATE_FIND_FIRST_BYTE, ⟨r, cap⟩, t⟩, pDst1) := by
  obtain ⟨body, rfl, hb, h17, hpay⟩ := marked_shape f hl h0 h1
  obtain ⟨k, rfl⟩ : ∃ k, fuel = k + 3 := ⟨fuel - 3, by omega⟩
  refine ⟨frameInto pDst body, ?_⟩
  rw [processing_marked k cap t n body r pDst hn hb, if_neg]
  rw [← h17, ← hpay]
  exact fun h => hcrc h.symm

/-- Witness of C3 on the frame of the test with a zero checksum byte. -/
theorem C3_corrupt_frame_consumed_witness :
    ∃ pDst1, prvProcessing 3
          ⟨rmpSTATE_FIND_FIRST_BYTE, ⟨(sampleFrame.take 17 ++ [0]) ++ [7], 128⟩, 36⟩ zeroMem 18
        = some (0, ⟨rmpSTATE_FIND_FIRST_BYTE, ⟨[7], 128⟩, 36⟩, pDst1) :=
  C3_corrupt_frame_consumed (sampleFrame.take 17 ++ [0]) [7] 128 36 3 18 zeroMem
    (by decide) (by decide) (by decide) (by decide) (by decide) (by decide)

/-- C4: valid frame, byte-by-byte delivery. From an empty ring buffer with room
for at least 18 bytes, in state `FindFirstByte`, the eighteen pairs
`Put(f[i], 1); Processing(dst, n)` with `n ≥ 18` over a valid frame `f` make the
first 17 `Processing` calls return 0 and the 18th return 18 with
`destination[0..18) = f`; afterwards the buffer is empty and the state is
`FindFirstByte`. -/
theorem C4_valid_frame_bytewise (f : List Nat) (cap t fuel n : Nat) (pDst : Mem)
    (hf : isValidFrame f) (hcap : 18 ≤ cap) (hn : 18 ≤ n) (hfuel : 2 ≤ fuel) :
    ∃ pDst1, putProcessingCalls fuel n ⟨rmpSTATE_FIND_FIRST_BYTE, ⟨[], cap⟩, t⟩ pDst f
        = some (List.replicate 17 0 ++ [18], ⟨rmpSTATE_FIND_FIRST_BYTE, ⟨[], cap⟩, t⟩, pDst1)
      ∧ memRead pDst1 0 18 = f := by
  obtain ⟨hl, h0, h1, hcrc⟩ := hf
  obtain ⟨body, rfl, hb, h17, hpay⟩ := marked_shape f hl h0 h1
  obtain ⟨k, rfl⟩ : ∃ k, fuel = k + 2 := ⟨fuel - 2, by omega⟩
  refine ⟨frameInto pDst body, ?_, frameInto_read_frame pDst body hb⟩
  have hne : body ≠ [] := by
    intro h; rw [h] at hb; simp at hb
  have hbody := putProcessing_body (k + 1) cap t n (by omega) hn body [] pDst
    (by simpa using hb) hne
  rw [List.nil_append, if_pos (by rw [← h17, ← hpay, hcrc]), hb] at hbody
  have hfirst : prvProcessing (k + 2)
        (prvPut ⟨rmpSTATE_FIND_FIRST_BYTE, ⟨[], cap⟩, t⟩ [0xFF]).1 pDst n
      = some (0, ⟨rmpSTATE_FIND_SECOND_BYTE, ⟨[], cap⟩, t⟩, pDst) := by
    rw [prvPut_one _ _ _ _ _ (by simp; omega)]
    unfold prvProcessing
    rw [List.nil_append, drv_first_marker, drv_second_nil]
  have hsecond : prvProcessing (k + 2)
        (prvPut ⟨rmpSTATE_FIND_SECOND_BYTE, ⟨[], cap⟩, t⟩ [0xFF]).1 pDst n
      = some (0, ⟨rmpSTATE_WAIT_AND_COPY_MESSAGE, ⟨[], cap⟩, t⟩, pDst) := by
    rw [prvPut_one _ _ _ _ _ (by simp; omega)]
    unfold prvProcessing
    rw [List.nil_append, drv_second_cons, if_pos rfl,
      drv_wait_wait _ _ _ _ _ _ _ (Or.inr (by simp))]
  rw [putProcessingCalls, hfirst]
  simp only
  rw [putProcessingCalls, hsecond]
  simp only [hbody]
  rfl

/-- Witness of C4 on the frame of the test `FindStartFrameAndCopyMessage`. -/
theorem C4_valid_frame_bytewise_witness :
    isValidFrame sampleFrame ∧
    ∃ pDst1, putProcessingCalls 2 18 ⟨rmpSTATE_FIND_FIRST_BYTE, ⟨[], 128⟩, 36⟩ zeroMem
          sampleFrame
        = some (List.replicate 17 0 ++ [18], ⟨rmpSTATE_FIND_FIRST_BYTE, ⟨[], 128⟩, 36⟩, pDst1)
      ∧ memRead pDst1 0 18 = sampleFrame :=
  ⟨by decide,
    C4_valid_frame_bytewise sampleFrame 128 36 2 18 zeroMem (by decide) (by decide)
      (by decide) (by decide)⟩

/-- C5: recovery after non-marker garbage. For every threshold, garbage `g`
without a byte `0xFF` and valid frame `f`: in state `FindFirstByte` with buffer
`g ++ f` there is a `k` with `1 ≤ k ≤ |g| + 1` such that of `k` successive
`Processing` calls (capacity at least 18) the first `k - 1` return 0 and the
`k`-th returns 18 with `destination[0..18) = f`, leaving the buffer empty and
the state `FindFirstByte`. -/
theorem C5_recovery_after_garbage (g f : List Nat) (cap t fuel n : Nat) (pDst : Mem)
    (hg : ∀ x ∈ g, x ≠ 0xFF) (hf : isValidFrame f) (_hsize : g.length + 18 ≤ cap)
    (hn : 18 ≤ n) (hfuel : g.length + 3 ≤ fuel) :
    ∃ k pDst1, 1 ≤ k ∧ k ≤ g.length + 1
      ∧ processingCalls fuel ⟨rmpSTATE_FIND_FIRST_BYTE, ⟨g ++ f, cap⟩, t⟩ pDst
          (List.replicate k n)
        = some (List.replicate (k - 1) 0 ++ [18],
            ⟨rmpSTATE_FIND_FIRST_BYTE, ⟨[], cap⟩, t⟩, pDst1)
      ∧ memRead pDst1 0 18 = f := by
  obtain ⟨hl, h0, h1, hcrc⟩ := hf
  obtain ⟨body, rfl, hb, h17, hpay⟩ := marked_shape f hl h0 h1
  obtain ⟨m, rfl⟩ : ∃ m, fuel = m + 3 := ⟨fuel - 3, by omega⟩
  have hok : CORE_GetCrc16_CCITT_Poly0x1021 (body.take 15) % 2 ^ 8 = body.getD 15 0 := by
    rw [← h17, ← hpay, hcrc]
  rcases Nat.eq_zero_or_pos t with ht | ht
  · subst ht
    exact ⟨g.length + 1, frameInto pDst body, by omega, le_refl _,
      recovery_thr0 cap m n body hn hb hok g hg pDst, frameInto_read_frame pDst body hb⟩
  · exact ⟨1, frameInto pDst body, le_refl _, by omega,
      processingCalls_cons _ _ _ _ _ _ _ _ _ _ _
        (recovery_thr_pos cap t m n body g hn hb hok hg ht (by omega) pDst) rfl,
      frameInto_read_frame pDst body hb⟩

/-- Witness of C5: three garbage bytes before the frame of the test, default
threshold. -/
theorem C5_recovery_after_garbage_witness :
    (∀ x ∈ [0, 1, 2], x ≠ 0xFF) ∧ isValidFrame sampleFrame ∧
    ∃ k pDst1, 1 ≤ k ∧ k ≤ [0, 1, 2].length + 1
      ∧ processingCalls 6 ⟨rmpSTATE_FIND_FIRST_BYTE, ⟨[0, 1, 2] ++ sampleFrame, 128⟩, 36⟩
          zeroMem (List.replicate k 18)
        = some (List.replicate (k - 1) 0 ++ [18],
            ⟨rmpSTATE_FIND_FIRST_BYTE, ⟨[], 128⟩, 36⟩, pDst1)
      ∧ memRead pDst1 0 18 = sampleFrame :=
  ⟨by decide, by decide,
    C5_recovery_after_garbage [0, 1, 2] sampleFrame 128 36 6 18 zeroMem (by decide)
      (by decide) (by decide) (by decide) (by decide)⟩

/-- C6: a destination that is too small does not lose the frame. For a valid
frame `f` followed by any bytes `r`, in state `FindFirstByte`: `Processing`
calls with capacities below 18 (the list `caps`, of any length) all return 0,
and the following call with capacity at least 18 returns 18 with
`destination[0..18) = f` and leaves exactly `r` buffered. -/
theorem C6_small_destination_keeps_frame (f r caps : List Nat) (cap t fuel n : Nat)
    (pDst : Mem) (hf : isValidFrame f) (hcaps : ∀ c ∈ caps, c < 18) (hm : 1 ≤ caps.length)
    (hn : 18 ≤ n) (hfuel : 3 ≤ fuel) :
    ∃ pDst1, processingCalls fuel ⟨rmpSTATE_FIND_FIRST_BYTE, ⟨f ++ r, cap⟩, t⟩ pDst
          (caps ++ [n])
        = some (List.replicate caps.length 0 ++ [18],
            ⟨rmpSTATE_FIND_FIRST_BYTE, ⟨r, cap⟩, t⟩, pDst1)
      ∧ memRead pDst1 0 18 = f := by
  obtain ⟨hl, h0, h1, hcrc⟩ := hf
  obtain ⟨body, rfl, hb, h17, hpay⟩ := marked_shape f hl h0 h1
  obtain ⟨m, rfl⟩ : ∃ m, fuel = m + 3 := ⟨fuel - 3, by omega⟩
  have hok : CORE_GetCrc16_CCITT_Poly0x1021 (body.take 15) % 2 ^ 8 = body.getD 15 0 := by
    rw [← h17, ← hpay, hcrc]
  refine ⟨frameInto pDst body, ?_, frameInto_read_frame pDst body hb⟩
  cases caps with
  | nil => simp at hm
  | cons c cs =>
    have hfirst : prvProcessing (m + 3)
          ⟨rmpSTATE_FIND_FIRST_BYTE, ⟨(0xFF :: 0xFF :: body) ++ r, cap⟩, t⟩ pDst c
        = some (0, ⟨rmpSTATE_WAIT_AND_COPY_MESSAGE, ⟨body ++ r, cap⟩, t⟩, pDst) := by
      unfold prvProcessing
      rw [List.cons_append, List.cons_append, drv_first_marker, drv_second_cons, if_pos rfl,
        drv_wait_wait _ _ _ _ _ _ _ (Or.inl (hcaps c (by simp)))]
    have hrest := small_then_big cap t (m + 2) n body r hn hb pDst cs
      (fun y hy => hcaps y (by simp [hy]))
    rw [if_pos hok] at hrest
    exact processingCalls_cons _ _ _ _ _ _ _ _ _ _ _ hfirst hrest

/-- Witness of C6: two calls with a 17-byte destination, as in the test
`FindStartFrameAndCopyMessageInSmallDstBuff`, then one with 18 bytes. -/
theorem C6_small_destination_keeps_frame_witness :
    isValidFrame sampleFrame ∧ (∀ c ∈ [17, 17], c < 18) ∧
    ∃ pDst1, processingCalls 3 ⟨rmpSTATE_FIND_FIRST_BYTE, ⟨sampleFrame ++ [9], 128⟩, 36⟩
          zeroMem ([17, 17] ++ [18])
        = some (List.replicate [17, 17].length 0 ++ [18],
            ⟨rmpSTATE_FIND_FIRST_BYTE, ⟨[9], 128⟩, 36⟩, pDst1)
      ∧ memRead pDst1 0 18 = sampleFrame :=
  ⟨by decide, by decide,
    C6_small_destination_keeps_frame sampleFrame [9] [17, 17] 128 36 3 18 zeroMem
      (by decide) (by decide) (by decide) (by decide) (by decide)⟩

/-- C7: the threshold is meant to bound the marker search, but the loop of
`RMP_FindFirstByte` compares the size of the last read (always 1) with the
threshold, not the running count `uReadBytesCnt`. With threshold 1 and three
buffered bytes `0, 0, 0`, one `Processing` call in state `FindFirstByte` removes
all three bytes; stopping once more than `t = 1` bytes are read would remove
two and leave `[0]`. -/
theorem C7_threshold_not_cumulative :
    (prvProcessing 4 ⟨rmpSTATE_FIND_FIRST_BYTE, ⟨[0, 0, 0], 128⟩, 1⟩ zeroMem 18).map
        (fun res => (res.1, res.2.1))
      = some (0, ⟨rmpSTATE_FIND_FIRST_BYTE, ⟨[], 128⟩, 1⟩)
    ∧ ([] : List Nat) ≠ [0, 0, 0].drop (1 + 1) := by
  decide

/-- C8 fails as stated: in state `FindFirstByte` with the single byte `0xFF`
buffered (fewer than 18), a `Processing` call empties the ring buffer and moves
to state `FindSecondByte`. -/
theorem C8_counterexample :
    [0xFF].length < 18
    ∧ (prvProcessing 2 ⟨rmpSTATE_FIND_FIRST_BYTE, ⟨[0xFF], 128⟩, 36⟩ zeroMem 18).map
        (fun res => res.2.1)
      = some ⟨rmpSTATE_FIND_SECOND_BYTE, ⟨[], 128⟩, 36⟩
    ∧ (⟨rmpSTATE_FIND_SECOND_BYTE, ⟨[], 128⟩, 36⟩ : rmp_obj_t)
      ≠ ⟨rmpSTATE_FIND_FIRST_BYTE, ⟨[0xFF], 128⟩, 36⟩ := by
  decide

/-- C8, amended: in state `WaitAndCopyMessage` with fewer than 16 bytes
buffered, and in state `FindFirstByte` or `FindSecondByte` with an empty buffer,
a `Processing` call returns 0 and leaves the ring buffer, the state, the
threshold and the destination exactly as they were. -/
theorem C8_incomplete_framing_unchanged (s cap t n fuel : Nat) (b : List Nat) (pDst : Mem)
    (hc : ((s = rmpSTATE_FIND_FIRST_BYTE ∨ s = rmpSTATE_FIND_SECOND_BYTE) ∧ b = [])
      ∨ (s = rmpSTATE_WAIT_AND_COPY_MESSAGE ∧ b.length < 16))
    (hfuel : 1 ≤ fuel) :
    prvProcessing fuel ⟨s, ⟨b, cap⟩, t⟩ pDst n = some (0, ⟨s, ⟨b, cap⟩, t⟩, pDst) := by
  obtain ⟨k, rfl⟩ : ∃ k, fuel = k + 1 := ⟨fuel - 1, by omega⟩
  unfold prvProcessing
  rcases hc with ⟨rfl | rfl, rfl⟩ | ⟨rfl, hlen⟩
  · exact drv_first_nil k cap t n 0 pDst
  · exact drv_second_nil k cap t n 0 pDst
  · exact drv_wait_wait k cap t n 0 b pDst (Or.inr hlen)

/-- Witness of the amended C8: fifteen body bytes waiting in state
`WaitAndCopyMessage`. -/
theorem C8_incomplete_framing_unchanged_witness :
    (((rmpSTATE_WAIT_AND_COPY_MESSAGE = rmpSTATE_FIND_FIRST_BYTE
          ∨ rmpSTATE_WAIT_AND_COPY_MESSAGE = rmpSTATE_FIND_SECOND_BYTE)
        ∧ List.replicate 15 7 = [])
      ∨ (rmpSTATE_WAIT_AND_COPY_MESSAGE = rmpSTATE_WAIT_AND_COPY_MESSAGE
        ∧ (List.replicate 15 7).length < 16))
    ∧ prvProcessing 1 ⟨rmpSTATE_WAIT_AND_COPY_MESSAGE, ⟨List.replicate 15 7, 128⟩, 36⟩
        zeroMem 18
      = some (0, ⟨rmpSTATE_WAIT_AND_COPY_MESSAGE, ⟨List.replicate 15 7, 128⟩, 36⟩, zeroMem) :=
  ⟨by decide,
    C8_incomplete_framing_unchanged rmpSTATE_WAIT_AND_COPY_MESSAGE 128 36 18 1
      (List.replicate 15 7) zeroMem (by decide) (by decide)⟩

/-- C9: no frame is reported from too few bytes. With fewer than 18 bytes
buffered in state `FindFirstByte`, fewer than 17 in `FindSecondByte` or fewer
than 16 in `WaitAndCopyMessage`, `Processing` returns, and returns 0, for every
destination, capacity and threshold. -/
theorem C9_no_frame_from_too_few_bytes (s cap t n fuel : Nat) (b : List Nat) (pDst : Mem)
    (hc : (s = rmpSTATE_FIND_FIRST_BYTE ∧ b.length < 18)
      ∨ (s = rmpSTATE_FIND_SECOND_BYTE ∧ b.length < 17)
      ∨ (s = rmpSTATE_WAIT_AND_COPY_MESSAGE ∧ b.length < 16))
    (hfuel : b.length + 1 ≤ fuel) :
    ∃ hObj1 pDst1, prvProcessing fuel ⟨s, ⟨b, cap⟩, t⟩ pDst n = some (0, hObj1, pDst1) := by
  have hs : s = rmpSTATE_FIND_FIRST_BYTE ∨ s = rmpSTATE_FIND_SECOND_BYTE
      ∨ s = rmpSTATE_WAIT_AND_COPY_MESSAGE := by
    rcases hc with h | h | h
    · exact Or.inl h.1
    · exact Or.inr (Or.inl h.1)
    · exact Or.inr (Or.inr h.1)
  have hlen : b.length + s < 18 := by
    rcases hc with ⟨rfl, h⟩ | ⟨rfl, h⟩ | ⟨rfl, h⟩ <;>
    simp only [rmpSTATE_FIND_FIRST_BYTE, rmpSTATE_FIND_SECOND_BYTE,
      rmpSTATE_WAIT_AND_COPY_MESSAGE] <;> omega
  obtain ⟨k, h1, d1, hk, hu⟩ := processing_loop_total cap t n 0 fuel s b pDst hs (by omega)
  exact ⟨h1, d1, by rw [prvProcessing, hk, hu hlen]⟩

/-- Witness of C9: the marker and fifteen more bytes, one short of a frame, in
state `FindFirstByte`. -/
theorem C9_no_frame_from_too_few_bytes_witness :
    ((rmpSTATE_FIND_FIRST_BYTE = rmpSTATE_FIND_FIRST_BYTE ∧ (sampleFrame.take 17).length < 18)
      ∨ (rmpSTATE_FIND_FIRST_BYTE = rmpSTATE_FIND_SECOND_BYTE
        ∧ (sampleFrame.take 17).length < 17)
      ∨ (rmpSTATE_FIND_FIRST_BYTE = rmpSTATE_WAIT_AND_COPY_MESSAGE
        ∧ (sampleFrame.take 17).length < 16))
    ∧ ∃ hObj1 pDst1,
        prvProcessing 18 ⟨rmpSTATE_FIND_FIRST_BYTE, ⟨sampleFrame.take 17, 128⟩, 36⟩ zeroMem 18
          = some (0, hObj1, pDst1) :=
  ⟨by decide,
    C9_no_frame_from_too_few_bytes rmpSTATE_FIND_FIRST_BYTE 128 36 18 18 (sampleFrame.take 17)
      zeroMem (by decide) (by decide)⟩

/-- C10: `Processing` always terminates. In each of the three states, with `b`
buffered, any threshold and any destination capacity, `|b| + 1` units of fuel
are enough for the driver loop of `prvProcessing`, which spends one unit on each
handler it invokes, and for the `while (1)` loop of `RMP_FindFirstByte`, which
spends one unit on each read; and a handler that returns `rmpIN_PROGRESS` has
removed at least one byte from the ring buffer. -/
theorem C10_processing_terminates (s cap t n fuel cnt : Nat) (b : List Nat) (pDst : Mem)
    (hs : s = rmpSTATE_FIND_FIRST_BYTE ∨ s = rmpSTATE_FIND_SECOND_BYTE
      ∨ s = rmpSTATE_WAIT_AND_COPY_MESSAGE)
    (hfuel : b.length + 1 ≤ fuel) :
    (prvProcessing fuel ⟨s, ⟨b, cap⟩, t⟩ pDst n).isSome
    ∧ (RMP_FindFirstByte_loop fuel ⟨s, ⟨b, cap⟩, t⟩ cnt).isSome
    ∧ ∀ (fuel1 : Nat) (fn : rmp_obj_t → Mem → Nat → Option (rmp_return_code × rmp_obj_t × Mem))
        (hObj1 : rmp_obj_t) (pDst1 : Mem),
        aFn fuel1 (RMP_GetState ⟨s, ⟨b, cap⟩, t⟩) = some fn →
        fn ⟨s, ⟨b, cap⟩, t⟩ pDst n = some (rmpIN_PROGRESS, hObj1, pDst1) →
        lwrb_get_full hObj1.xLWRB < b.length := by
  refine ⟨?_, ?_, ?_⟩
  · obtain ⟨k, h1, d1, hk, _⟩ := processing_loop_total cap t n 0 fuel s b pDst hs (by omega)
    rw [prvProcessing, hk]
    rfl
  · obtain ⟨b1, _, h | ⟨h, _⟩⟩ := findFirst_loop_total s cap t b fuel cnt (by omega)
    · rw [h]; rfl
    · rw [h]; rfl
  · intro fuel1 fn hObj1 pDst1 hfn h
    exact handler_progress fuel1 n ⟨s, ⟨b, cap⟩, t⟩ hObj1 pDst pDst1 fn hfn h

/-- Witness of C10: three garbage bytes, the marker and one more byte, in state
`FindFirstByte` with the default threshold. -/
theorem C10_processing_terminates_witness :
    (rmpSTATE_FIND_FIRST_BYTE = rmpSTATE_FIND_FIRST_BYTE
      ∨ rmpSTATE_FIND_FIRST_BYTE = rmpSTATE_FIND_SECOND_BYTE
      ∨ rmpSTATE_FIND_FIRST_BYTE = rmpSTATE_WAIT_AND_COPY_MESSAGE)
    ∧ [1, 2, 3, 0xFF, 0xFF, 5].length + 1 ≤ 7
    ∧ (prvProcessing 7 ⟨rmpSTATE_FIND_FIRST_BYTE, ⟨[1, 2, 3, 0xFF, 0xFF, 5], 128⟩, 36⟩
        zeroMem 18).isSome
    ∧ (RMP_FindFirstByte_loop 7
        ⟨rmpSTATE_FIND_FIRST_BYTE, ⟨[1, 2, 3, 0xFF, 0xFF, 5], 128⟩, 36⟩ 0).isSome :=
  ⟨by decide, by decide,
    (C10_processing_terminates rmpSTATE_FIND_FIRST_BYTE 128 36 18 7 0
      [1, 2, 3, 0xFF, 0xFF, 5] zeroMem (by decide) (by decide)).1,
    (C10_processing_terminates rmpSTATE_FIND_FIRST_BYTE 128 36 18 7 0
      [1, 2, 3, 0xFF, 0xFF, 5] zeroMem (by decide) (by decide)).2.1⟩

/-! ## Facade lemmas -/

theorem prvPut_eq (s cap t : Nat) (b pSrc : List Nat) :
    prvPut ⟨s, ⟨b, cap⟩, t⟩ pSrc
      = (⟨s, ⟨b ++ pSrc.take (min pSrc.length (cap - b.length)), cap⟩, t⟩,
          min pSrc.length (cap - b.length)) := by
  simp [prvPut, lwrb_write]

/-- A run of `Put` calls keeps the buffered count within the capacity, and the
values returned add up to the growth of the buffered count. -/
theorem putCalls_count (srcs : List (List Nat)) :
    ∀ (s cap t : Nat) (b : List Nat), b.length ≤ cap →
      b.length + (putCalls ⟨s, ⟨b, cap⟩, t⟩ srcs).2.sum
          = lwrb_get_full (putCalls ⟨s, ⟨b, cap⟩, t⟩ srcs).1.xLWRB
        ∧ lwrb_get_full (putCalls ⟨s, ⟨b, cap⟩, t⟩ srcs).1.xLWRB ≤ cap := by
  induction srcs with
  | nil => intro s cap t b hb; simp [putCalls, lwrb_get_full, hb]
  | cons pSrc rest ih =>
    intro s cap t b hb
    rw [putCalls, prvPut_eq]
    simp only [List.sum_cons]
    have hlen : (b ++ pSrc.take (min pSrc.length (cap - b.length))).length
        = b.length + min pSrc.length (cap - b.length) := by
      simp
    obtain ⟨h1, h2⟩ := ih s cap t (b ++ pSrc.take (min pSrc.length (cap - b.length)))
      (by rw [hlen]; omega)
    rw [hlen] at h1
    exact ⟨by omega, h2⟩

theorem putCalls_bytes (s cap t : Nat) (xs : List Nat) :
    ∀ (b : List Nat), b.length + xs.length ≤ cap →
      putCalls ⟨s, ⟨b, cap⟩, t⟩ (xs.map fun x => [x])
        = (⟨s, ⟨b ++ xs, cap⟩, t⟩, List.replicate xs.length 1) := by
  induction xs with
  | nil => intro b _; simp [putCalls]
  | cons x rest ih =>
    intro b hb
    simp only [List.length_cons] at hb
    have hk : min [x].length (cap - b.length) = 1 := by
      simp only [List.length_singleton]; omega
    rw [List.map_cons, putCalls, prvPut_eq, hk]
    simp only [List.take_succ_cons, List.take_zero]
    rw [ih (b ++ [x]) (by simp; omega)]
    simp [List.replicate_succ]

theorem getCalls_bytes (s cap t : Nat) (xs : List Nat) :
    getCalls ⟨s, ⟨xs, cap⟩, t⟩ (List.replicate xs.length 1)
      = (⟨s, ⟨[], cap⟩, t⟩, xs.map fun x => [x]) := by
  induction xs with
  | nil => simp [getCalls]
  | cons x rest ih =>
    rw [List.length_cons, List.replicate_succ, getCalls]
    simp only [RMP_Get, lwrb_read, List.drop_succ_cons, List.drop_zero, List.take_succ_cons,
      List.take_zero]
    rw [ih]
    simp

theorem RMP_InitStateAPI_aFn (fuel i : Nat) :
    (RMP_InitStateAPI (RMP_InitAPI memset_rmp_obj_t)).xStateAPI.aFn fuel i = aFn fuel i := by
  simp only [RMP_InitStateAPI, RMP_InitAPI, memset_rmp_obj_t, aFn]

/-! ## Claims on the facade, construction and the CRC engine -/

/-- C11: the reset contract. For every state, ring buffer (contents `b`,
capacity `cap`) and threshold, `Reset` returns `|b|`, leaves the ring buffer
empty, sets the state to `FindFirstByte` and leaves the threshold (and the
capacity) unchanged. -/
theorem C11_reset_contract (s cap t : Nat) (b : List Nat) :
    prvReset ⟨s, ⟨b, cap⟩, t⟩ = (⟨rmpSTATE_FIND_FIRST_BYTE, ⟨[], cap⟩, t⟩, b.length)
    ∧ (prvReset ⟨s, ⟨b, cap⟩, t⟩).2 = lwrb_get_full (⟨b, cap⟩ : lwrb_t)
    ∧ lwrb_get_full (prvReset ⟨s, ⟨b, cap⟩, t⟩).1.xLWRB = 0
    ∧ RMP_GetState (prvReset ⟨s, ⟨b, cap⟩, t⟩).1 = rmpSTATE_FIND_FIRST_BYTE
    ∧ (prvReset ⟨s, ⟨b, cap⟩, t⟩).1.uReadBytesThreshold = t := by
  have h : prvReset ⟨s, ⟨b, cap⟩, t⟩
      = (⟨rmpSTATE_FIND_FIRST_BYTE, ⟨[], cap⟩, t⟩, b.length) := by
    simp [prvReset, lwrb_get_full, lwrb_reset, RMP_SetState, rmpSTATE_FIND_FIRST_BYTE,
      rmpSTATE_MAX_NUMB]
  rw [h]
  exact ⟨rfl, rfl, rfl, rfl, rfl⟩

/-- C12: set-state validation. For every object and requested value `v`,
`RMP_SetState` returns true and makes `RMP_GetState` return `v` exactly when `v`
is `FindFirstByte` (0), `FindSecondByte` (1) or `WaitAndCopyMessage` (2); every
other value is refused with the object unchanged, in particular
`rmpSTATE_MAX_NUMB`, `rmpSTATE_MAX_NUMB + 1` and `-1` (which reaches the
function as the largest value of the unsigned enumeration type). -/
theorem C12_set_state_validation (hObj : rmp_obj_t) (v : Nat) :
    (((RMP_SetState hObj v).1 = true ∧ RMP_GetState (RMP_SetState hObj v).2 = v)
      ↔ (v = rmpSTATE_FIND_FIRST_BYTE ∨ v = rmpSTATE_FIND_SECOND_BYTE
          ∨ v = rmpSTATE_WAIT_AND_COPY_MESSAGE))
    ∧ ((v = rmpSTATE_FIND_FIRST_BYTE ∨ v = rmpSTATE_FIND_SECOND_BYTE
          ∨ v = rmpSTATE_WAIT_AND_COPY_MESSAGE)
        ∨ RMP_SetState hObj v = (false, hObj))
    ∧ RMP_SetState hObj rmpSTATE_MAX_NUMB = (false, hObj)
    ∧ RMP_SetState hObj (rmpSTATE_MAX_NUMB + 1) = (false, hObj)
    ∧ RMP_SetState hObj (rmp_state_e_of_int (-1)) = (false, hObj) := by
  have hminus : rmp_state_e_of_int (-1) = 4294967295 := by decide
  refine ⟨?_, ?_, ?_, ?_, ?_⟩
  · simp only [RMP_SetState, RMP_GetState, rmpSTATE_MAX_NUMB, rmpSTATE_FIND_FIRST_BYTE,
      rmpSTATE_FIND_SECOND_BYTE, rmpSTATE_WAIT_AND_COPY_MESSAGE]
    by_cases hv : v < 3
    · have h012 : v = 0 ∨ v = 1 ∨ v = 2 := by omega
      simp [hv, h012]
    · have h012 : ¬ (v = 0 ∨ v = 1 ∨ v = 2) := by omega
      simp [hv, h012]
  · simp only [RMP_SetState, rmpSTATE_MAX_NUMB, rmpSTATE_FIND_FIRST_BYTE,
      rmpSTATE_FIND_SECOND_BYTE, rmpSTATE_WAIT_AND_COPY_MESSAGE]
    by_cases hv : v < 3
    · left; omega
    · right; rw [if_neg hv]
  · simp [RMP_SetState, rmpSTATE_MAX_NUMB]
  · simp [RMP_SetState, rmpSTATE_MAX_NUMB]
  · rw [hminus]
    simp [RMP_SetState, rmpSTATE_MAX_NUMB]

/-- C13: the contract of `Put` and `PutISR`. With `b` buffered in a ring buffer
of capacity `cap`, so free space `F = cap - |b|`, and `n = |pSrc|` bytes
offered: both return `k = min n F`, the buffer becomes `b ++ pSrc[0..k)`,
`k = n` exactly when `n ≤ F`, and `PutISR` gives the same result as `Put`. -/
theorem C13_put_contract (s cap t : Nat) (b pSrc : List Nat) :
    prvPut ⟨s, ⟨b, cap⟩, t⟩ pSrc
      = (⟨s, ⟨b ++ pSrc.take (min pSrc.length (cap - b.length)), cap⟩, t⟩,
          min pSrc.length (cap - b.length))
    ∧ ((prvPut ⟨s, ⟨b, cap⟩, t⟩ pSrc).2 = pSrc.length ↔ pSrc.length ≤ cap - b.length)
    ∧ prvPutISR ⟨s, ⟨b, cap⟩, t⟩ pSrc = prvPut ⟨s, ⟨b, cap⟩, t⟩ pSrc := by
  refine ⟨prvPut_eq s cap t b pSrc, ?_, rfl⟩
  rw [prvPut_eq]
  simp

/-- C14: the capacity limit. From an empty ring buffer of capacity `C`, the
values returned by any finite run of `Put` calls add up to at most `C`; and with
`C` bytes buffered a `Put` of any size returns 0 and changes nothing. -/
theorem C14_capacity_limit (s t C : Nat) (srcs : List (List Nat)) (b pSrc : List Nat)
    (hfull : b.length = C) :
    (putCalls ⟨s, ⟨[], C⟩, t⟩ srcs).2.sum ≤ C
    ∧ prvPut ⟨s, ⟨b, C⟩, t⟩ pSrc = (⟨s, ⟨b, C⟩, t⟩, 0) := by
  constructor
  · have := putCalls_count srcs s C t [] (by simp)
    simp only [List.length_nil, Nat.zero_add] at this
    omega
  · rw [prvPut_eq, hfull]
    simp

/-- Witness of C14: three `Put` calls of 3, 2 and 4 bytes into a buffer of
capacity 4, then a `Put` into the full buffer. -/
theorem C14_capacity_limit_witness :
    [1, 2, 3, 4].length = 4
    ∧ (putCalls ⟨rmpSTATE_FIND_FIRST_BYTE, ⟨[], 4⟩, 36⟩
        [[1, 2, 3], [4, 5], [6, 7, 8, 9]]).2.sum ≤ 4
    ∧ prvPut ⟨rmpSTATE_FIND_FIRST_BYTE, ⟨[1, 2, 3, 4], 4⟩, 36⟩ [5, 6]
      = (⟨rmpSTATE_FIND_FIRST_BYTE, ⟨[1, 2, 3, 4], 4⟩, 36⟩, 0) :=
  ⟨by decide,
    C14_capacity_limit rmpSTATE_FIND_FIRST_BYTE 36 4 [[1, 2, 3], [4, 5], [6, 7, 8, 9]]
      [1, 2, 3, 4] [5, 6] (by decide)⟩

/-- C15: FIFO round trip. A byte sequence `s` that fits an empty ring buffer is
accepted whole by one `Put`, and `RMP_Get` with a destination of at least `|s|`
bytes then delivers exactly `s` (so returns `|s|`) and empties the buffer; the
same holds with one `Put` per byte (each returns 1) and one `RMP_Get` of size 1
per byte (each delivers one byte, in the order written). -/
theorem C15_fifo_round_trip (st cap t n : Nat) (s : List Nat) (hfit : s.length ≤ cap)
    (hn : s.length ≤ n) :
    prvPut ⟨st, ⟨[], cap⟩, t⟩ s = (⟨st, ⟨s, cap⟩, t⟩, s.length)
    ∧ RMP_Get ⟨st, ⟨s, cap⟩, t⟩ n = (⟨st, ⟨[], cap⟩, t⟩, s)
    ∧ putCalls ⟨st, ⟨[], cap⟩, t⟩ (s.map fun x => [x])
        = (⟨st, ⟨s, cap⟩, t⟩, List.replicate s.length 1)
    ∧ getCalls ⟨st, ⟨s, cap⟩, t⟩ (List.replicate s.length 1)
        = (⟨st, ⟨[], cap⟩, t⟩, s.map fun x => [x]) := by
  refine ⟨?_, ?_, ?_, getCalls_bytes st cap t s⟩
  · have hk : min s.length (cap - ([] : List Nat).length) = s.length := by
      simp only [List.length_nil]; omega
    rw [prvPut_eq, hk]
    simp
  · simp [RMP_Get, lwrb_read, List.drop_eq_nil_of_le hn, List.take_of_length_le hn]
  · have := putCalls_bytes st cap t s [] (by simpa using hfit)
    simpa using this

/-- Witness of C15 on the text of the test `APIPutThenRead`, "Hello World!". -/
theorem C15_fifo_round_trip_witness :
    [72, 101, 108, 108, 111, 32, 87, 111, 114, 108, 100, 33].length ≤ 128
    ∧ [72, 101, 108, 108, 111, 32, 87, 111, 114, 108, 100, 33].length ≤ 128
    ∧ prvPut ⟨rmpSTATE_FIND_FIRST_BYTE, ⟨[], 128⟩, 36⟩
        [72, 101, 108, 108, 111, 32, 87, 111, 114, 108, 100, 33]
      = (⟨rmpSTATE_FIND_FIRST_BYTE,
          ⟨[72, 101, 108, 108, 111, 32, 87, 111, 114, 108, 100, 33], 128⟩, 36⟩, 12)
    ∧ RMP_Get ⟨rmpSTATE_FIND_FIRST_BYTE,
          ⟨[72, 101, 108, 108, 111, 32, 87, 111, 114, 108, 100, 33], 128⟩, 36⟩ 128
      = (⟨rmpSTATE_FIND_FIRST_BYTE, ⟨[], 128⟩, 36⟩,
          [72, 101, 108, 108, 111, 32, 87, 111, 114, 108, 100, 33]) :=
  ⟨by decide, by decide,
    (C15_fifo_round_trip rmpSTATE_FIND_FIRST_BYTE 128 36 128
      [72, 101, 108, 108, 111, 32, 87, 111, 114, 108, 100, 33] (by decide) (by decide)).1,
    (C15_fifo_round_trip rmpSTATE_FIND_FIRST_BYTE 128 36 128
      [72, 101, 108, 108, 111, 32, 87, 111, 114, 108, 100, 33] (by decide) (by decide)).2.1⟩

/-- C16: construction failure. `RMP_Ctor` returns no object when the descriptor
pointer is null, or `pMemAlloc` is null, or `uMemAllocSizeInBytes` is 0, or
`hData` is null, whatever the other fields; so it fails on a descriptor fresh
from `RMP_StructInit`, and on one with only the storage pointer set, only the
size set, or storage and size set without a control block. -/
theorem C16_ctor_failure (pxInit : Option rmp_init_t) (xPrior : rmp_init_t) (a size : Nat)
    (h : pxInit = none
      ∨ ∃ xInit, pxInit = some xInit
          ∧ (xInit.pMemAlloc = none ∨ xInit.uMemAllocSizeInBytes = 0 ∨ xInit.hData = none)) :
    (RMP_Ctor pxInit).isNone = true
    ∧ (RMP_Ctor (some (RMP_StructInit xPrior))).isNone = true
    ∧ (RMP_Ctor (some { RMP_StructInit xPrior with pMemAlloc := some a })).isNone = true
    ∧ (RMP_Ctor (some { RMP_StructInit xPrior with uMemAllocSizeInBytes := size })).isNone
        = true
    ∧ (RMP_Ctor (some { RMP_StructInit xPrior with
          pMemAlloc := some a, uMemAllocSizeInBytes := size })).isNone = true := by
  refine ⟨?_, ?_, ?_, ?_, ?_⟩
  · rcases h with rfl | ⟨xInit, rfl, h1 | h2 | h3⟩
    · rfl
    · simp [RMP_Ctor, h1]
    · simp [RMP_Ctor, h2]
    · by_cases h1 : xInit.pMemAlloc = none
      · simp [RMP_Ctor, h1]
      · by_cases h2 : xInit.uMemAllocSizeInBytes = 0
        · simp [RMP_Ctor, h1, h2]
        · simp [RMP_Ctor, h1, h2, h3]
  · simp [RMP_Ctor, RMP_StructInit]
  · simp [RMP_Ctor, RMP_StructInit]
  · simp [RMP_Ctor, RMP_StructInit]
  · by_cases hs : size = 0
    · simp [RMP_Ctor, RMP_StructInit, hs]
    · simp [RMP_Ctor, RMP_StructInit, hs]

/-- Witness of C16: storage of 128 bytes at a non-null address, threshold 36,
but no control block, as in the test `CtorIfValidMemAndSizeButInvalidData`. -/
theorem C16_ctor_failure_witness :
    (RMP_Ctor (some ⟨some 4096, 128, none, 36⟩)).isNone = true :=
  (C16_ctor_failure (some ⟨some 4096, 128, none, 36⟩) ⟨none, 0, none, 0⟩ 4096 128
    (Or.inr ⟨⟨some 4096, 128, none, 36⟩, rfl, Or.inr (Or.inr rfl)⟩)).1

/-- C17: construction success and the initial state. With a storage pointer, a
non-zero size and a control block, `RMP_Ctor` returns an object in state
`FindFirstByte` with an empty ring buffer and the threshold of the descriptor;
the four API entries hold `prvPut`, `prvPutISR`, `prvProcessing` and
`prvReset`, each of the three states has its handler, and a `Processing` call
on the fresh object returns 0. -/
theorem C17_ctor_success (xInit : rmp_init_t) (a d fuel n : Nat) (pDst : Mem)
    (hp : xInit.pMemAlloc = some a) (hs : xInit.uMemAllocSizeInBytes ≠ 0)
    (hd : xInit.hData = some d) (hfuel : 1 ≤ fuel) :
    ∃ hAPI, RMP_Ctor (some xInit) = some hAPI
      ∧ RMP_GetState hAPI.hObj = rmpSTATE_FIND_FIRST_BYTE
      ∧ lwrb_get_full hAPI.hObj.xLWRB = 0
      ∧ hAPI.hObj.uReadBytesThreshold = xInit.uReadBytesThreshold
      ∧ hAPI.xAPI.Put = some prvPut ∧ hAPI.xAPI.PutISR = some prvPutISR
      ∧ hAPI.xAPI.Processing = some prvProcessing ∧ hAPI.xAPI.Reset = some prvReset
      ∧ hAPI.xStateAPI.aFn fuel rmpSTATE_FIND_FIRST_BYTE = some (RMP_FindFirstByte fuel)
      ∧ hAPI.xStateAPI.aFn fuel rmpSTATE_FIND_SECOND_BYTE = some RMP_FindSecondByte
      ∧ hAPI.xStateAPI.aFn fuel rmpSTATE_WAIT_AND_COPY_MESSAGE = some RMP_WaitAndCopyMessage
      ∧ prvProcessing fuel hAPI.hObj pDst n = some (0, hAPI.hObj, pDst) := by
  obtain ⟨k, rfl⟩ : ∃ k, fuel = k + 1 := ⟨fuel - 1, by omega⟩
  refine ⟨RMP_InitStateAPI (RMP_InitAPI
    { memset_rmp_obj_t with
      hObj := ⟨0, ⟨[], xInit.uMemAllocSizeInBytes⟩, xInit.uReadBytesThreshold⟩ }), ?_, rfl, rfl,
    rfl, rfl, rfl, rfl, rfl, rfl, rfl, rfl, ?_⟩
  · simp [RMP_Ctor, hp, hs, hd, lwrb_init, memset_rmp_obj_t]
  · exact drv_first_nil k xInit.uMemAllocSizeInBytes xInit.uReadBytesThreshold n 0 pDst

/-- Witness of C17 on the descriptor of the test fixture: 128 bytes of storage,
a control block, and the default threshold. -/
theorem C17_ctor_success_witness :
    ∃ hAPI, RMP_Ctor (some ⟨some 4096, 128, some 8192, 36⟩) = some hAPI
      ∧ RMP_GetState hAPI.hObj = rmpSTATE_FIND_FIRST_BYTE
      ∧ lwrb_get_full hAPI.hObj.xLWRB = 0
      ∧ hAPI.hObj.uReadBytesThreshold = 36
      ∧ hAPI.xAPI.Put = some prvPut ∧ hAPI.xAPI.PutISR = some prvPutISR
      ∧ hAPI.xAPI.Processing = some prvProcessing ∧ hAPI.xAPI.Reset = some prvReset
      ∧ hAPI.xStateAPI.aFn 1 rmpSTATE_FIND_FIRST_BYTE = some (RMP_FindFirstByte 1)
      ∧ hAPI.xStateAPI.aFn 1 rmpSTATE_FIND_SECOND_BYTE = some RMP_FindSecondByte
      ∧ hAPI.xStateAPI.aFn 1 rmpSTATE_WAIT_AND_COPY_MESSAGE = some RMP_WaitAndCopyMessage
      ∧ prvProcessing 1 hAPI.hObj zeroMem 18 = some (0, hAPI.hObj, zeroMem) :=
  C17_ctor_success ⟨some 4096, 128, some 8192, 36⟩ 4096 8192 1 18 zeroMem rfl (by decide) rfl
    (by decide)

/-- C18: the default descriptor. Whatever the descriptor held before,
`RMP_StructInit` leaves `pMemAlloc` null, `uMemAllocSizeInBytes` zero, `hData`
null and `uReadBytesThreshold` equal to twice the frame size, 36. -/
theorem C18_struct_init_defaults (xPrior : rmp_init_t) :
    (RMP_StructInit xPrior).pMemAlloc = none
    ∧ (RMP_StructInit xPrior).uMemAllocSizeInBytes = 0
    ∧ (RMP_StructInit xPrior).hData = none
    ∧ (RMP_StructInit xPrior).uReadBytesThreshold = 2 * rmpONE_MESSAGE_SIZE_IN_BYTES
    ∧ (RMP_StructInit xPrior).uReadBytesThreshold = 36 :=
  ⟨rfl, rfl, rfl, rfl, rfl⟩

/-- C19: the CRC engine is CRC-16/CCITT with initial register `0xFFFF`:
`CORE_GetCrc16_CCITT_Poly0x1021` gives the check value `0x29B1` on the nine
ASCII bytes "123456789" and the initial register `0xFFFF` on the empty
input. -/
theorem C19_crc_check_value :
    CORE_GetCrc16_CCITT_Poly0x1021 [0x31, 0x32, 0x33, 0x34, 0x35, 0x36, 0x37, 0x38, 0x39]
      = 0x29B1
    ∧ CORE_GetCrc16_CCITT_Poly0x1021 [] = 0xFFFF := by
  decide

/-- C20: the CRC of the reference packet. Over the 16 bytes that follow the two
marker bytes of `uaPackDef` (`05`, eleven `00`, `07 FF FA 00`),
`CORE_GetCrc16_CCITT_Poly0x1021` gives `0x20B8`, the value of the last two
bytes `B8 20` read little-endian. -/
theorem C20_reference_packet_crc :
    (uaPackDef.drop 2).take 16 = [0x05, 0, 0, 0, 0, 0, 0, 0, 0, 0, 0, 0, 0x07, 0xFF, 0xFA, 0x00]
    ∧ CORE_GetCrc16_CCITT_Poly0x1021 ((uaPackDef.drop 2).take 16)
      = uaPackDef.getD 18 0 + 2 ^ 8 * uaPackDef.getD 19 0
    ∧ CORE_GetCrc16_CCITT_Poly0x1021 ((uaPackDef.drop 2).take 16) = 0x20B8 := by
  decide

/-! ## The CRC loop and the bit-serial register -/

theorem testBit_32768 (i : Nat) : Nat.testBit 32768 i = decide (15 = i) := by
  have h : (32768 : Nat) = 2 ^ 15 := by norm_num
  rw [h, Nat.testBit_two_pow]

theorem and_0x8000_ne_zero (y : Nat) : (y &&& 0x8000 ≠ 0) ↔ y.testBit 15 = true := by
  have h : y &&& 2 ^ 15 = if y.testBit 15 then 2 ^ 15 else 0 := by
    apply Nat.eq_of_testBit_eq
    intro i
    rw [Nat.testBit_and, Nat.testBit_two_pow]
    by_cases hi : 15 = i
    · subst hi
      cases hb : y.testBit 15 <;> simp [testBit_32768]
    · cases hb : y.testBit 15 <;> simp [hi, testBit_32768]
  have h2 : (0x8000 : Nat) = 2 ^ 15 := by norm_num
  rw [h2, h]
  cases y.testBit 15 <;> simp

theorem crc16_bit_eq (y : Nat) :
    crc16_bit y = ((y <<< 1) % 2 ^ 16) ^^^ (if y.testBit 15 then 0x1021 else 0) := by
  unfold crc16_bit
  by_cases hb : y.testBit 15 = true
  · rw [if_pos ((and_0x8000_ne_zero y).2 hb), if_pos hb]
    apply Nat.eq_of_testBit_eq
    intro i
    simp only [Nat.testBit_mod_two_pow, Nat.testBit_xor]
    by_cases hi : i < 16
    · simp [hi]
    · have : Nat.testBit 0x1021 i = false :=
        Nat.testBit_lt_two_pow (lt_of_lt_of_le (by norm_num) (Nat.pow_le_pow_right (by norm_num) (not_lt.mp hi)))
      simp [hi, this]
  · have hc : ¬ (y &&& 0x8000 ≠ 0) := fun h => hb ((and_0x8000_ne_zero y).1 h)
    rw [if_neg hc, if_neg hb, Nat.xor_zero]

theorem shiftLeft_xor_low (a q : Nat) (hq : q < 2 ^ 15) :
    ((a ^^^ q) <<< 1) % 2 ^ 16 = ((a <<< 1) % 2 ^ 16) ^^^ (2 * q) := by
  apply Nat.eq_of_testBit_eq
  intro i
  have h2 : 2 * q = q <<< 1 := by rw [Nat.shiftLeft_eq]; ring
  rw [h2]
  simp only [Nat.testBit_mod_two_pow, Nat.testBit_xor, Nat.testBit_shiftLeft]
  by_cases hi : i < 16
  · by_cases h1 : 1 ≤ i <;> simp [hi, h1]
  · have : q.testBit (i - 1) = false :=
      Nat.testBit_lt_two_pow (lt_of_lt_of_le hq (Nat.pow_le_pow_right (by norm_num) (by omega)))
    simp [hi, this]

theorem crc16_bit_low (a q : Nat) (hq : q < 2 ^ 15) :
    crc16_bit (a ^^^ q) = crc16_bit a ^^^ (2 * q) := by
  have hb : (a ^^^ q).testBit 15 = a.testBit 15 := by
    rw [Nat.testBit_xor, Nat.testBit_lt_two_pow hq]; simp
  rw [crc16_bit_eq, crc16_bit_eq, hb, shiftLeft_xor_low a q hq, Nat.xor_assoc, Nat.xor_assoc,
    Nat.xor_comm (2 * q)]

theorem crc16_bitserial_step_eq (a : Nat) (d : Bool) :
    crc16_bitserial_step a d = crc16_bit (a ^^^ (if d then 2 ^ 15 else 0)) := by
  have hb : (a ^^^ (if d then 2 ^ 15 else 0)).testBit 15 = xor (a.testBit 15) d := by
    cases d <;> simp [testBit_32768]
  have hs : ((a ^^^ (if d then 2 ^ 15 else 0)) <<< 1) % 2 ^ 16 = (a <<< 1) % 2 ^ 16 := by
    cases d
    · simp
    · apply Nat.eq_of_testBit_eq
      intro i
      simp only [Nat.testBit_mod_two_pow, Nat.testBit_xor, Nat.testBit_shiftLeft, if_true,
        Nat.testBit_two_pow]
      by_cases hi : i < 16
      · have : ¬ (15 = i - 1) := by omega
        simp [hi, this]
      · simp [hi]
  rw [crc16_bit_eq, hb, hs]
  unfold crc16_bitserial_step
  cases xor (a.testBit 15) d <;> simp

theorem byte_split : ∀ j, j < 8 → ∀ y, y < 256 →
    ((y % 2 ^ (j + 1)) <<< (15 - j)) = (if y.testBit j then 2 ^ 15 else 0) ^^^ ((y % 2 ^ j) <<< (15 - j))
    ∧ (y % 2 ^ j) <<< (15 - j) < 2 ^ 15
    ∧ 2 * ((y % 2 ^ j) <<< (15 - j)) = (y % 2 ^ j) <<< (16 - j) := by
  decide

/-- Feeding the `j` low bits of a byte, most significant first, to the
bit-serial register is the same as XORing them into the top of the register and
running `j` passes of the inner loop of the C code. -/
theorem crc16_bits_chain (y : Nat) (hy : y < 256) :
    ∀ (j : Nat), j ≤ 8 → ∀ (a : Nat),
      Nat.iterate crc16_bit j (a ^^^ ((y % 2 ^ j) <<< (16 - j)))
        = ((List.range j).reverse.map fun i => y.testBit i).foldl crc16_bitserial_step a := by
  intro j
  induction j with
  | zero => intro _ a; simp [Nat.mod_one]
  | succ j ih =>
    intro hj a
    obtain ⟨hsplit, hlow, hdbl⟩ := byte_split j (by omega) y hy
    have h16 : 16 - (j + 1) = 15 - j := by omega
    rw [Function.iterate_succ_apply, h16, hsplit, ← Nat.xor_assoc, crc16_bit_low _ _ hlow, hdbl,
      ← crc16_bitserial_step_eq, ih (by omega), List.range_succ, List.reverse_append]
    simp

theorem crc16_byte_eq_bitserial (a x : Nat) :
    crc16_byte a x = (byteBitsMsbFirst x).foldl crc16_bitserial_step a := by
  have hx : (x <<< 8) % 2 ^ 16 = ((x % 256) % 2 ^ 8) <<< (16 - 8) := by
    simp only [Nat.shiftLeft_eq]
    norm_num
    omega
  have hbits : byteBitsMsbFirst x
      = (List.range 8).reverse.map fun i => (x % 256).testBit i := by
    unfold byteBitsMsbFirst
    apply List.map_congr_left
    intro i hi
    have h8 : i < 8 := by simpa using hi
    have h256 : (256 : Nat) = 2 ^ 8 := by norm_num
    rw [h256, Nat.testBit_mod_two_pow]
    simp [h8]
  rw [crc16_byte, hx, hbits]
  exact crc16_bits_chain (x % 256) (Nat.mod_lt _ (by norm_num)) 8 (le_refl _) a

theorem crc16_foldl_eq_bitserial (m : List Nat) :
    ∀ (a : Nat), m.foldl crc16_byte a
      = ((m.map byteBitsMsbFirst).flatten).foldl crc16_bitserial_step a := by
  induction m with
  | nil => intro a; rfl
  | cons x rest ih =>
    intro a
    rw [List.foldl_cons, List.map_cons, List.flatten_cons, List.foldl_append,
      crc16_byte_eq_bitserial, ih]

theorem crc16_bit_lt (y : Nat) : crc16_bit y < 2 ^ 16 := by
  unfold crc16_bit
  split <;> exact Nat.mod_lt _ (by norm_num)

theorem crc16_byte_lt (a x : Nat) : crc16_byte a x < 2 ^ 16 := by
  unfold crc16_byte
  rw [show (8 : Nat) = 7 + 1 from rfl, Function.iterate_succ_apply']
  exact crc16_bit_lt _

theorem crc16_foldl_lt (m : List Nat) :
    ∀ (a : Nat), a < 2 ^ 16 → m.foldl crc16_byte a < 2 ^ 16 := by
  induction m with
  | nil => intro a ha; exact ha
  | cons x rest ih => intro a _; exact ih _ (crc16_byte_lt a x)

/-! ## More lemmas on handlers and call sequences -/

theorem frameInto_read_body (pDst : Mem) (body : List Nat) (hb : body.length = 16) :
    memRead (frameInto pDst body) 2 16 = body := by
  have := memRead_eq_of_getD (frameInto pDst body) 2 body (by
    intro i hi
    rw [hb] at hi
    have h18 : i + 2 < 18 := by omega
    have h2 : 2 + i = i + 2 := by omega
    rw [h2]
    unfold frameInto
    rw [if_pos h18]
    simp)
  rwa [hb] at this

/-- One byte other than the marker byte, alone in the buffer in state
`FindFirstByte`: `Processing` removes it and returns 0, whatever the
threshold. -/
theorem processing_single_other (fuel cap t n x : Nat) (pDst : Mem) (hx : x ≠ 0xFF) :
    prvProcessing (fuel + 2) ⟨rmpSTATE_FIND_FIRST_BYTE, ⟨[x], cap⟩, t⟩ pDst n
      = some (0, ⟨rmpSTATE_FIND_FIRST_BYTE, ⟨[], cap⟩, t⟩, pDst) := by
  unfold prvProcessing
  rw [drv_first]
  rcases Nat.eq_zero_or_pos t with ht | ht
  · subst ht
    rw [findFirst_loop_yield _ _ _ _ _ _ hx]
  · rw [findFirst_loop_skip _ _ _ _ _ _ _ hx ht, findFirst_loop_nil]

theorem processingCalls_empty (fuel cap t n : Nat) (pDst : Mem) (k : Nat) :
    processingCalls (fuel + 1) ⟨rmpSTATE_FIND_FIRST_BYTE, ⟨[], cap⟩, t⟩ pDst
        (List.replicate k n)
      = some (List.replicate k 0, ⟨rmpSTATE_FIND_FIRST_BYTE, ⟨[], cap⟩, t⟩, pDst) := by
  induction k with
  | zero => rfl
  | succ k ih =>
    exact processingCalls_cons _ _ _ _ _ _ _ _ _ _ _ (drv_first_nil fuel cap t n 0 pDst) ih

/-! ## Claims on the handlers and the CRC loop -/

/-- C23: the copy branch of `WaitAndCopyMessage`. In state
`WaitAndCopyMessage` with `b` buffered, `|b| ≥ 16`, and a destination capacity
of at least 18, the handler stores `0xFF 0xFF` in `destination[0..2)` and
`b[0..16)` in `destination[2..18)`, leaves `b[16..]` buffered, sets the state to
`FindFirstByte`, and returns `rmpMESSAGE_COPIED` exactly when `b[15]` is the low
8 bits of the CRC of `b[0..15)`, and `rmpBREAK` otherwise (the destination then
holds the invalid frame). -/
theorem C23_wait_and_copy_copy_branch (cap t n : Nat) (b : List Nat) (pDst : Mem)
    (hb : 16 ≤ b.length) (hn : 18 ≤ n) :
    ∃ eReturnCode pDst1,
      RMP_WaitAndCopyMessage ⟨rmpSTATE_WAIT_AND_COPY_MESSAGE, ⟨b, cap⟩, t⟩ pDst n
        = some (eReturnCode, ⟨rmpSTATE_FIND_FIRST_BYTE, ⟨b.drop 16, cap⟩, t⟩, pDst1)
      ∧ pDst1 0 = 0xFF ∧ pDst1 1 = 0xFF ∧ memRead pDst1 2 16 = b.take 16
      ∧ (eReturnCode = rmpMESSAGE_COPIED
          ↔ b.getD 15 0 = CORE_GetCrc16_CCITT_Poly0x1021 (b.take 15) % 2 ^ 8)
      ∧ (eReturnCode = rmpMESSAGE_COPIED ∨ eReturnCode = rmpBREAK) := by
  have hlen : (b.take 16).length = 16 := by simp; omega
  have h := waitAndCopy_copy rmpSTATE_WAIT_AND_COPY_MESSAGE cap t n (b.take 16) (b.drop 16)
    pDst hn hlen
  rw [List.take_append_drop] at h
  have h15 : (b.take 16).take 15 = b.take 15 := by
    rw [List.take_take]; simp
  have hget : (b.take 16).getD 15 0 = b.getD 15 0 := by
    simp [List.getD_eq_getElem?_getD, List.getElem?_take]
  rw [h15, hget] at h
  refine ⟨_, frameInto pDst (b.take 16), h, by simp [frameInto], by simp [frameInto],
    frameInto_read_body pDst _ hlen, ?_, ?_⟩
  · by_cases hc : CORE_GetCrc16_CCITT_Poly0x1021 (b.take 15) % 2 ^ 8 = b.getD 15 0
    · rw [if_pos hc]; exact ⟨fun _ => hc.symm, fun _ => rfl⟩
    · rw [if_neg hc]
      exact ⟨fun h1 => (by cases h1), fun h1 => absurd h1.symm hc⟩
  · by_cases hc : CORE_GetCrc16_CCITT_Poly0x1021 (b.take 15) % 2 ^ 8 = b.getD 15 0
    · rw [if_pos hc]; exact Or.inl rfl
    · rw [if_neg hc]; exact Or.inr rfl

/-- Witness of C23: the body of the test frame and one more byte, waiting in
state `WaitAndCopyMessage`. -/
theorem C23_wait_and_copy_copy_branch_witness :
    16 ≤ (sampleFrame.drop 2 ++ [7]).length ∧ 18 ≤ 18 ∧
    ∃ eReturnCode pDst1,
      RMP_WaitAndCopyMessage
          ⟨rmpSTATE_WAIT_AND_COPY_MESSAGE, ⟨sampleFrame.drop 2 ++ [7], 128⟩, 36⟩ zeroMem 18
        = some (eReturnCode,
            ⟨rmpSTATE_FIND_FIRST_BYTE, ⟨(sampleFrame.drop 2 ++ [7]).drop 16, 128⟩, 36⟩, pDst1)
      ∧ pDst1 0 = 0xFF ∧ pDst1 1 = 0xFF
      ∧ memRead pDst1 2 16 = (sampleFrame.drop 2 ++ [7]).take 16
      ∧ (eReturnCode = rmpMESSAGE_COPIED
          ↔ (sampleFrame.drop 2 ++ [7]).getD 15 0
            = CORE_GetCrc16_CCITT_Poly0x1021 ((sampleFrame.drop 2 ++ [7]).take 15) % 2 ^ 8)
      ∧ (eReturnCode = rmpMESSAGE_COPIED ∨ eReturnCode = rmpBREAK) :=
  ⟨by decide, by decide,
    C23_wait_and_copy_copy_branch 128 36 18 (sampleFrame.drop 2 ++ [7]) zeroMem (by decide)
      (by decide)⟩

/-- C24: precondition failure of `WaitAndCopyMessage`. In state
`WaitAndCopyMessage`, with a destination capacity below 18 or fewer than 16
bytes buffered, the handler returns `rmpBREAK` and leaves the ring buffer, the
state and the whole destination unchanged. -/
theorem C24_wait_and_copy_precondition (cap t n : Nat) (b : List Nat) (pDst : Mem)
    (h : n < 18 ∨ b.length < 16) :
    RMP_WaitAndCopyMessage ⟨rmpSTATE_WAIT_AND_COPY_MESSAGE, ⟨b, cap⟩, t⟩ pDst n
      = some (rmpBREAK, ⟨rmpSTATE_WAIT_AND_COPY_MESSAGE, ⟨b, cap⟩, t⟩, pDst) :=
  waitAndCopy_wait rmpSTATE_WAIT_AND_COPY_MESSAGE cap t n b pDst h

/-- Witness of C24: a whole frame body buffered, but a destination of 17
bytes. -/
theorem C24_wait_and_copy_precondition_witness :
    (17 < 18 ∨ (sampleFrame.drop 2).length < 16)
    ∧ RMP_WaitAndCopyMessage
        ⟨rmpSTATE_WAIT_AND_COPY_MESSAGE, ⟨sampleFrame.drop 2, 128⟩, 36⟩ zeroMem 17
      = some (rmpBREAK,
          ⟨rmpSTATE_WAIT_AND_COPY_MESSAGE, ⟨sampleFrame.drop 2, 128⟩, 36⟩, zeroMem) :=
  ⟨by decide,
    C24_wait_and_copy_precondition 128 36 17 (sampleFrame.drop 2) zeroMem (by decide)⟩

/-- C25: transitions of `FindFirstByte`. In state `FindFirstByte` with threshold
`t`: (a) on an empty buffer the handler returns `rmpBREAK` with state and buffer
unchanged; (b) on a buffer `g ++ [0xFF] ++ r`, where `g` has no byte `0xFF` and
`|g| ≤ t`, it returns `rmpIN_PROGRESS`, sets the state to `FindSecondByte` and
leaves exactly `r` buffered. The destination is untouched in both cases. -/
theorem C25_find_first_byte_transitions (cap t n fuel : Nat) (g r : List Nat) (pDst : Mem)
    (hg : ∀ x ∈ g, x ≠ 0xFF) (ht : g.length ≤ t) (hfuel : g.length + 1 ≤ fuel) :
    RMP_FindFirstByte fuel ⟨rmpSTATE_FIND_FIRST_BYTE, ⟨[], cap⟩, t⟩ pDst n
      = some (rmpBREAK, ⟨rmpSTATE_FIND_FIRST_BYTE, ⟨[], cap⟩, t⟩, pDst)
    ∧ RMP_FindFirstByte fuel ⟨rmpSTATE_FIND_FIRST_BYTE, ⟨g ++ [0xFF] ++ r, cap⟩, t⟩ pDst n
      = some (rmpIN_PROGRESS, ⟨rmpSTATE_FIND_SECOND_BYTE, ⟨r, cap⟩, t⟩, pDst) := by
  obtain ⟨k, rfl⟩ : ∃ k, fuel = k + 1 := ⟨fuel - 1, by omega⟩
  constructor
  · simp only [RMP_FindFirstByte, findFirst_loop_nil]
  · have hshape : g ++ [0xFF] ++ r = g ++ 0xFF :: r := by simp
    rw [hshape]
    rcases Nat.eq_zero_or_pos t with h0 | hpos
    · subst h0
      have hnil : g = [] := List.eq_nil_of_length_eq_zero (by omega)
      subst hnil
      simp only [RMP_FindFirstByte, List.nil_append, findFirst_loop_marker]
    · simp only [RMP_FindFirstByte,
        findFirst_loop_garbage rmpSTATE_FIND_FIRST_BYTE cap t r hpos g (k + 1) 0 hg (by omega)]

/-- Witness of C25: two garbage bytes before the marker byte, default
threshold. -/
theorem C25_find_first_byte_transitions_witness :
    (∀ x ∈ [1, 2], x ≠ 0xFF) ∧ [1, 2].length ≤ 36 ∧
    RMP_FindFirstByte 3 ⟨rmpSTATE_FIND_FIRST_BYTE, ⟨[], 128⟩, 36⟩ zeroMem 18
      = some (rmpBREAK, ⟨rmpSTATE_FIND_FIRST_BYTE, ⟨[], 128⟩, 36⟩, zeroMem)
    ∧ RMP_FindFirstByte 3
        ⟨rmpSTATE_FIND_FIRST_BYTE, ⟨[1, 2] ++ [0xFF] ++ [0xFF, 5], 128⟩, 36⟩ zeroMem 18
      = some (rmpIN_PROGRESS, ⟨rmpSTATE_FIND_SECOND_BYTE, ⟨[0xFF, 5], 128⟩, 36⟩, zeroMem) :=
  ⟨by decide, by decide,
    C25_find_first_byte_transitions 128 36 18 3 [1, 2] [0xFF, 5] zeroMem (by decide)
      (by decide) (by decide)⟩

/-- C26: transitions of `FindSecondByte`. In state `FindSecondByte`: (a) on an
empty buffer the handler returns `rmpBREAK` with state and buffer unchanged;
(b) on `[0xFF] ++ r` it returns `rmpIN_PROGRESS`, sets the state to
`WaitAndCopyMessage` and leaves `r`; (c) on `[x] ++ r` with `x ≠ 0xFF` it
returns `rmpIN_PROGRESS`, sets the state to `FindFirstByte` and leaves `r`. -/
theorem C26_find_second_byte_transitions (cap t n x : Nat) (r : List Nat) (pDst : Mem)
    (hx : x ≠ 0xFF) :
    RMP_FindSecondByte ⟨rmpSTATE_FIND_SECOND_BYTE, ⟨[], cap⟩, t⟩ pDst n
      = some (rmpBREAK, ⟨rmpSTATE_FIND_SECOND_BYTE, ⟨[], cap⟩, t⟩, pDst)
    ∧ RMP_FindSecondByte ⟨rmpSTATE_FIND_SECOND_BYTE, ⟨[0xFF] ++ r, cap⟩, t⟩ pDst n
      = some (rmpIN_PROGRESS, ⟨rmpSTATE_WAIT_AND_COPY_MESSAGE, ⟨r, cap⟩, t⟩, pDst)
    ∧ RMP_FindSecondByte ⟨rmpSTATE_FIND_SECOND_BYTE, ⟨[x] ++ r, cap⟩, t⟩ pDst n
      = some (rmpIN_PROGRESS, ⟨rmpSTATE_FIND_FIRST_BYTE, ⟨r, cap⟩, t⟩, pDst) := by
  refine ⟨findSecond_nil _ cap t n pDst, ?_, ?_⟩
  · rw [List.singleton_append, findSecond_cons, if_pos rfl]
  · rw [List.singleton_append, findSecond_cons, if_neg hx]

/-- Witness of C26 with the byte `0x00` after the first marker byte. -/
theorem C26_find_second_byte_transitions_witness :
    (0 : Nat) ≠ 0xFF ∧
    RMP_FindSecondByte ⟨rmpSTATE_FIND_SECOND_BYTE, ⟨[], 128⟩, 36⟩ zeroMem 18
      = some (rmpBREAK, ⟨rmpSTATE_FIND_SECOND_BYTE, ⟨[], 128⟩, 36⟩, zeroMem)
    ∧ RMP_FindSecondByte ⟨rmpSTATE_FIND_SECOND_BYTE, ⟨[0xFF] ++ [1, 2], 128⟩, 36⟩ zeroMem 18
      = some (rmpIN_PROGRESS, ⟨rmpSTATE_WAIT_AND_COPY_MESSAGE, ⟨[1, 2], 128⟩, 36⟩, zeroMem)
    ∧ RMP_FindSecondByte ⟨rmpSTATE_FIND_SECOND_BYTE, ⟨[0] ++ [1, 2], 128⟩, 36⟩ zeroMem 18
      = some (rmpIN_PROGRESS, ⟨rmpSTATE_FIND_FIRST_BYTE, ⟨[1, 2], 128⟩, 36⟩, zeroMem) :=
  ⟨by decide, C26_find_second_byte_transitions 128 36 18 0 [1, 2] zeroMem (by decide)⟩

/-- C27: the byte-wise CRC loop equals the bit-serial CRC-16/CCITT reference.
For every byte sequence `m`, `CORE_GetCrc16_CCITT_Poly0x1021 m` is the value of
the bit-serial register machine (start `0xFFFF`, bits most significant first,
no final XOR), and it is below `2^16`. -/
theorem C27_crc_equals_bitserial (m : List Nat) :
    CORE_GetCrc16_CCITT_Poly0x1021 m = crc16_bitserial m
    ∧ CORE_GetCrc16_CCITT_Poly0x1021 m < 2 ^ 16 :=
  ⟨crc16_foldl_eq_bitserial m 0xFFFF, crc16_foldl_lt m 0xFFFF (by norm_num)⟩

/-! ## Where the destination is written -/

/-- A handler either leaves the destination as it was, or it is the copy branch
of `RMP_WaitAndCopyMessage`: the declared capacity is at least 18, the handler
ends the driver loop and the destination holds a copied frame. -/
theorem handler_dst (fuel n : Nat) (hObj hObj1 : rmp_obj_t) (pDst pDst1 : Mem)
    (c : rmp_return_code)
    (fn : rmp_obj_t → Mem → Nat → Option (rmp_return_code × rmp_obj_t × Mem))
    (hfn : aFn fuel (RMP_GetState hObj) = some fn)
    (h : fn hObj pDst n = some (c, hObj1, pDst1)) :
    pDst1 = pDst
      ∨ (18 ≤ n ∧ c ≠ rmpIN_PROGRESS
          ∧ ∃ body : List Nat, body.length = 16 ∧ pDst1 = frameInto pDst body) := by
  obtain ⟨s, ⟨b, cap⟩, t⟩ := hObj
  simp only [aFn, RMP_GetState] at hfn
  split_ifs at hfn with h0 h1 h2
  · simp only [Option.some.injEq] at hfn
    subst hfn
    simp only [RMP_FindFirstByte] at h
    split at h
    · simp at h
    · simp only [Option.some.injEq, Prod.mk.injEq] at h
      exact Or.inl h.2.2.symm
  · simp only [Option.some.injEq] at hfn
    subst hfn
    cases b with
    | nil =>
      rw [findSecond_nil] at h
      simp only [Option.some.injEq, Prod.mk.injEq] at h
      exact Or.inl h.2.2.symm
    | cons x r =>
      rw [findSecond_cons] at h
      simp only [Option.some.injEq, Prod.mk.injEq] at h
      exact Or.inl h.2.2.symm
  · simp only [Option.some.injEq] at hfn
    subst hfn
    by_cases hc : n < 18 ∨ b.length < 16
    · rw [waitAndCopy_wait _ _ _ _ _ _ hc] at h
      simp only [Option.some.injEq, Prod.mk.injEq] at h
      exact Or.inl h.2.2.symm
    · have hb : (b.take 16).length = 16 := by simp; omega
      have hn : 18 ≤ n := by omega
      have := waitAndCopy_copy s cap t n (b.take 16) (b.drop 16) pDst hn hb
      rw [List.take_append_drop] at this
      rw [this] at h
      simp only [Option.some.injEq, Prod.mk.injEq] at h
      obtain ⟨hcode, _, hdst⟩ := h
      refine Or.inr ⟨hn, ?_, b.take 16, hb, hdst.symm⟩
      rw [← hcode]
      split <;> decide

theorem processing_loop_dst (fuel n : Nat) :
    ∀ (hObj hObj1 : rmp_obj_t) (pDst pDst1 : Mem) (u k : Nat),
      prvProcessing_loop fuel hObj pDst n u = some (k, hObj1, pDst1) →
      pDst1 = pDst
        ∨ (18 ≤ n ∧ ∃ body : List Nat, body.length = 16 ∧ pDst1 = frameInto pDst body) := by
  induction fuel with
  | zero => intro hObj hObj1 pDst pDst1 u k h; simp [prvProcessing_loop] at h
  | succ m ih =>
    intro hObj hObj1 pDst pDst1 u k h
    rw [prvProcessing_loop] at h
    split at h
    · simp at h
    · rename_i fn hfn
      split at h
      · simp at h
      · rename_i c h2 d2 hres
        have hd := handler_dst _ _ _ _ _ _ _ _ hfn hres
        by_cases hc : c = rmpIN_PROGRESS
        · rw [if_pos hc] at h
          rcases hd with hd | ⟨_, hne, _⟩
          · rw [hd] at h
            exact ih _ _ _ _ _ _ h
          · exact absurd hc hne
        · rw [if_neg hc] at h
          simp only [Option.some.injEq, Prod.mk.injEq] at h
          obtain ⟨_, _, hdst⟩ := h
          rw [← hdst]
          rcases hd with hd | ⟨hn, _, hbody⟩
          · exact Or.inl hd
          · exact Or.inr ⟨hn, hbody⟩

/-! ## Invariants of the driver loop -/

/-- With more fuel than buffered bytes the driver loop returns an object that
is again in one of the three states, with the same capacity and threshold, and
whose buffer is a suffix of the buffer before the call. -/
theorem processing_loop_inv (cap t n u : Nat) :
    ∀ (fuel s : Nat) (b : List Nat) (pDst : Mem),
      (s = rmpSTATE_FIND_FIRST_BYTE ∨ s = rmpSTATE_FIND_SECOND_BYTE
        ∨ s = rmpSTATE_WAIT_AND_COPY_MESSAGE) →
      b.length < fuel →
      ∃ (k s1 : Nat) (b1 : List Nat) (pDst1 : Mem),
        prvProcessing_loop fuel ⟨s, ⟨b, cap⟩, t⟩ pDst n u
            = some (k, ⟨s1, ⟨b1, cap⟩, t⟩, pDst1)
          ∧ (s1 = rmpSTATE_FIND_FIRST_BYTE ∨ s1 = rmpSTATE_FIND_SECOND_BYTE
              ∨ s1 = rmpSTATE_WAIT_AND_COPY_MESSAGE)
          ∧ b1 <:+ b := by
  intro fuel
  induction fuel with
  | zero => intro s b pDst _ h; omega
  | succ m ih =>
    intro s b pDst hs hfuel
    rcases hs with rfl | rfl | rfl
    · rw [drv_first]
      obtain ⟨b1, hsuf, hres⟩ := findFirst_loop_total rmpSTATE_FIND_FIRST_BYTE cap t b
        (m + 1) 0 hfuel
      rcases hres with h | ⟨h, hlt⟩
      · rw [h]
        exact ⟨u, _, b1, pDst, rfl, Or.inl rfl, hsuf⟩
      · rw [h]
        obtain ⟨k, s2, b2, d2, hk, hs2, hsuf2⟩ := ih rmpSTATE_FIND_SECOND_BYTE b1 pDst
          (by simp) (by omega)
        exact ⟨k, s2, b2, d2, hk, hs2, hsuf2.trans hsuf⟩
    · cases b with
      | nil =>
        rw [drv_second_nil]
        exact ⟨u, _, [], pDst, rfl, Or.inr (Or.inl rfl), List.suffix_refl _⟩
      | cons x r =>
        rw [drv_second_cons]
        simp only [List.length_cons] at hfuel
        obtain ⟨k, s2, b2, d2, hk, hs2, hsuf2⟩ := ih
          (if x = 0xFF then rmpSTATE_WAIT_AND_COPY_MESSAGE else rmpSTATE_FIND_FIRST_BYTE) r pDst
          (by by_cases hx : x = 0xFF <;> simp [hx]) (by omega)
        exact ⟨k, s2, b2, d2, hk, hs2, hsuf2.trans (List.suffix_cons _ _)⟩
    · by_cases hc : n < 18 ∨ b.length < 16
      · rw [drv_wait_wait m cap t n u b pDst hc]
        exact ⟨u, _, b, pDst, rfl, Or.inr (Or.inr rfl), List.suffix_refl _⟩
      · have hb : (b.take 16).length = 16 := by simp; omega
        have := drv_wait_copy m cap t n u (b.take 16) (b.drop 16) pDst (by omega) hb
        rw [List.take_append_drop] at this
        rw [this]
        exact ⟨_, _, b.drop 16, _, rfl, Or.inl rfl, List.drop_suffix _ _⟩

theorem prvReset_eq (s cap t : Nat) (b : List Nat) :
    prvReset ⟨s, ⟨b, cap⟩, t⟩ = (⟨rmpSTATE_FIND_FIRST_BYTE, ⟨[], cap⟩, t⟩, b.length) := by
  simp [prvReset, lwrb_get_full, lwrb_reset, RMP_SetState, rmpSTATE_FIND_FIRST_BYTE,
    rmpSTATE_MAX_NUMB]

/-- Every call of the public interface keeps the state among the three defined
ones and the buffered count within the capacity, and with more fuel than the
capacity every call returns. -/
theorem runCalls_inv (cap t fuel : Nat) (hfuel : cap < fuel) (calls : List rmp_call) :
    ∀ (s : Nat) (b : List Nat),
      (s = rmpSTATE_FIND_FIRST_BYTE ∨ s = rmpSTATE_FIND_SECOND_BYTE
        ∨ s = rmpSTATE_WAIT_AND_COPY_MESSAGE) →
      b.length ≤ cap →
      ∃ (s1 : Nat) (b1 : List Nat),
        runCalls fuel ⟨s, ⟨b, cap⟩, t⟩ calls = some ⟨s1, ⟨b1, cap⟩, t⟩
          ∧ (s1 = rmpSTATE_FIND_FIRST_BYTE ∨ s1 = rmpSTATE_FIND_SECOND_BYTE
              ∨ s1 = rmpSTATE_WAIT_AND_COPY_MESSAGE)
          ∧ b1.length ≤ cap := by
  induction calls with
  | nil => intro s b hs hb; exact ⟨s, b, rfl, hs, hb⟩
  | cons xCall rest ih =>
    intro s b hs hb
    have hput : ∀ pSrc : List Nat,
        (b ++ pSrc.take (min pSrc.length (cap - b.length))).length ≤ cap := by
      intro pSrc
      simp only [List.length_append, List.length_take]
      omega
    cases xCall with
    | Put pSrc =>
      obtain ⟨s1, b1, h1, h2, h3⟩ := ih s _ hs (hput pSrc)
      exact ⟨s1, b1, by simp only [runCalls, runCall, prvPut_eq, h1], h2, h3⟩
    | PutISR pSrc =>
      obtain ⟨s1, b1, h1, h2, h3⟩ := ih s _ hs (hput pSrc)
      exact ⟨s1, b1, by simp only [runCalls, runCall, prvPutISR, prvPut_eq, h1], h2, h3⟩
    | Processing pDst n =>
      obtain ⟨k, s2, b2, d2, hk, hs2, hsuf⟩ :=
        processing_loop_inv cap t n 0 fuel s b pDst hs (by omega)
      obtain ⟨s1, b1, h1, h2, h3⟩ := ih s2 b2 hs2 (le_trans hsuf.length_le hb)
      exact ⟨s1, b1, by simp only [runCalls, runCall, prvProcessing, hk, h1], h2, h3⟩
    | Reset =>
      obtain ⟨s1, b1, h1, h2, h3⟩ := ih rmpSTATE_FIND_FIRST_BYTE [] (Or.inl rfl) (by simp)
      exact ⟨s1, b1, by simp only [runCalls, runCall, prvReset_eq, h1], h2, h3⟩
    | SetState v =>
      by_cases hv : v < rmpSTATE_MAX_NUMB
      · have hv3 : v = rmpSTATE_FIND_FIRST_BYTE ∨ v = rmpSTATE_FIND_SECOND_BYTE
            ∨ v = rmpSTATE_WAIT_AND_COPY_MESSAGE := by
          simp only [rmpSTATE_MAX_NUMB] at hv
          simp only [rmpSTATE_FIND_FIRST_BYTE, rmpSTATE_FIND_SECOND_BYTE,
            rmpSTATE_WAIT_AND_COPY_MESSAGE]
          omega
        obtain ⟨s1, b1, h1, h2, h3⟩ := ih v b hv3 hb
        exact ⟨s1, b1, by simp only [runCalls, runCall, RMP_SetState, if_pos hv, h1], h2, h3⟩
      · obtain ⟨s1, b1, h1, h2, h3⟩ := ih s b hs hb
        exact ⟨s1, b1, by simp only [runCalls, runCall, RMP_SetState, if_neg hv, h1], h2, h3⟩

theorem aFn_isSome (fuel s : Nat)
    (hs : s = rmpSTATE_FIND_FIRST_BYTE ∨ s = rmpSTATE_FIND_SECOND_BYTE
      ∨ s = rmpSTATE_WAIT_AND_COPY_MESSAGE) :
    (aFn fuel s).isSome = true := by
  rcases hs with rfl | rfl | rfl <;>
  simp [aFn, rmpSTATE_FIND_FIRST_BYTE, rmpSTATE_FIND_SECOND_BYTE,
    rmpSTATE_WAIT_AND_COPY_MESSAGE]

theorem RMP_InitStateAPI_aFn' (hObj : rmp_obj_t) (fuel i : Nat) :
    (RMP_InitStateAPI (RMP_InitAPI { memset_rmp_obj_t with hObj := hObj })).xStateAPI.aFn fuel i
      = aFn fuel i := by
  simp only [RMP_InitStateAPI, RMP_InitAPI, memset_rmp_obj_t, aFn]

/-- What `RMP_Ctor` returns when it returns an object. -/
theorem RMP_Ctor_some (xInit : rmp_init_t) (hAPI : rmp_api_handle_t)
    (h : RMP_Ctor (some xInit) = some hAPI) :
    hAPI = RMP_InitStateAPI (RMP_InitAPI
      { memset_rmp_obj_t with
        hObj := ⟨0, ⟨[], xInit.uMemAllocSizeInBytes⟩, xInit.uReadBytesThreshold⟩ }) := by
  by_cases h1 : xInit.pMemAlloc = none
  · simp [RMP_Ctor, h1] at h
  · by_cases h2 : xInit.uMemAllocSizeInBytes = 0
    · simp [RMP_Ctor, h1, h2] at h
    · by_cases h3 : xInit.hData = none
      · simp [RMP_Ctor, h1, h2, h3] at h
      · simp [RMP_Ctor, h1, h2, h3, lwrb_init, memset_rmp_obj_t] at h
        rw [← h]
        rfl

/-! ## Claims on invariants, bounds and resynchronisation -/

/-- C28: the state invariant. From an object that `RMP_Ctor` returned, every
finite sequence of `Put`, `PutISR`, `Processing`, `Reset` and `RMP_SetState`
calls with arbitrary arguments (state values out of range included) runs to the
end and leaves the state among `FindFirstByte`, `FindSecondByte` and
`WaitAndCopyMessage`, so that the entry `aFn[state]` of the handler table is an
installed handler. -/
theorem C28_state_invariant (xInit : rmp_init_t) (hAPI : rmp_api_handle_t)
    (calls : List rmp_call) (fuel : Nat) (hctor : RMP_Ctor (some xInit) = some hAPI)
    (hfuel : xInit.uMemAllocSizeInBytes + 1 ≤ fuel) :
    ∃ hObj1, runCalls fuel hAPI.hObj calls = some hObj1
      ∧ (RMP_GetState hObj1 = rmpSTATE_FIND_FIRST_BYTE
          ∨ RMP_GetState hObj1 = rmpSTATE_FIND_SECOND_BYTE
          ∨ RMP_GetState hObj1 = rmpSTATE_WAIT_AND_COPY_MESSAGE)
      ∧ (hAPI.xStateAPI.aFn fuel (RMP_GetState hObj1)).isSome = true := by
  have hshape := RMP_Ctor_some xInit hAPI hctor
  subst hshape
  obtain ⟨s1, b1, h1, h2, _⟩ := runCalls_inv xInit.uMemAllocSizeInBytes
    xInit.uReadBytesThreshold fuel (by omega) calls rmpSTATE_FIND_FIRST_BYTE []
    (Or.inl rfl) (by simp)
  refine ⟨_, h1, h2, ?_⟩
  rw [RMP_InitStateAPI_aFn']
  exact aFn_isSome fuel s1 h2

/-- Witness of C28: the descriptor of the test fixture, then a marker, a
refused state value, a `Processing` call, a reset and one more byte. -/
theorem C28_state_invariant_witness :
    RMP_Ctor (some ⟨some 4096, 128, some 8192, 36⟩)
      = some (RMP_InitStateAPI (RMP_InitAPI
          { memset_rmp_obj_t with hObj := ⟨0, ⟨[], 128⟩, 36⟩ }))
    ∧ 128 + 1 ≤ 129
    ∧ ∃ hObj1,
        runCalls 129
            (RMP_InitStateAPI (RMP_InitAPI
              { memset_rmp_obj_t with hObj := ⟨0, ⟨[], 128⟩, 36⟩ })).hObj
            [rmp_call.Put [0xFF, 0xFF], rmp_call.SetState 7,
              rmp_call.Processing zeroMem 18, rmp_call.Reset, rmp_call.PutISR [1]]
          = some hObj1
        ∧ (RMP_GetState hObj1 = rmpSTATE_FIND_FIRST_BYTE
            ∨ RMP_GetState hObj1 = rmpSTATE_FIND_SECOND_BYTE
            ∨ RMP_GetState hObj1 = rmpSTATE_WAIT_AND_COPY_MESSAGE)
        ∧ ((RMP_InitStateAPI (RMP_InitAPI
              { memset_rmp_obj_t with hObj := ⟨0, ⟨[], 128⟩, 36⟩ })).xStateAPI.aFn 129
            (RMP_GetState hObj1)).isSome = true :=
  ⟨rfl, by decide,
    C28_state_invariant ⟨some 4096, 128, some 8192, 36⟩
      (RMP_InitStateAPI (RMP_InitAPI { memset_rmp_obj_t with hObj := ⟨0, ⟨[], 128⟩, 36⟩ }))
      [rmp_call.Put [0xFF, 0xFF], rmp_call.SetState 7, rmp_call.Processing zeroMem 18,
        rmp_call.Reset, rmp_call.PutISR [1]]
      129 rfl (by decide)⟩

/-- C29: destination writes stay in bounds. Whatever `Processing` returns, for
every object, destination and declared capacity `n`: every destination byte at
an index of 18 or more is unchanged; with `n < 18` the destination is unchanged
altogether; no byte at an index `≥ n` is changed; the destination is either
untouched or holds the frame stored by the copy branch of
`RMP_WaitAndCopyMessage` (reached only with `n ≥ 18`); and the handlers
`RMP_FindFirstByte` and `RMP_FindSecondByte` return the destination as they
received it. -/
theorem C29_destination_writes_in_bounds (fuel n k : Nat) (hObj hObj1 : rmp_obj_t)
    (pDst pDst1 : Mem)
    (h : prvProcessing fuel hObj pDst n = some (k, hObj1, pDst1)) :
    (∀ i, 18 ≤ i → pDst1 i = pDst i)
    ∧ (n < 18 → pDst1 = pDst)
    ∧ (∀ i, n ≤ i → pDst1 i = pDst i)
    ∧ (pDst1 = pDst
        ∨ (18 ≤ n ∧ ∃ body : List Nat, body.length = 16 ∧ pDst1 = frameInto pDst body))
    ∧ (∀ (fuel1 : Nat) (c : rmp_return_code) (hObj2 : rmp_obj_t) (pDst2 : Mem),
        RMP_FindFirstByte fuel1 hObj pDst n = some (c, hObj2, pDst2) → pDst2 = pDst)
    ∧ (∀ (c : rmp_return_code) (hObj2 : rmp_obj_t) (pDst2 : Mem),
        RMP_FindSecondByte hObj pDst n = some (c, hObj2, pDst2) → pDst2 = pDst) := by
  have hd := processing_loop_dst fuel n hObj hObj1 pDst pDst1 0 k h
  refine ⟨?_, ?_, ?_, hd, ?_, ?_⟩
  · intro i hi
    rcases hd with hd | ⟨_, body, _, hd⟩
    · rw [hd]
    · rw [hd, frameInto, if_neg (by omega)]
  · intro hn
    rcases hd with hd | ⟨h18, _⟩
    · exact hd
    · omega
  · intro i hi
    rcases hd with hd | ⟨h18, body, _, hd⟩
    · rw [hd]
    · rw [hd, frameInto, if_neg (by omega)]
  · intro fuel1 c hObj2 pDst2 h1
    simp only [RMP_FindFirstByte] at h1
    split at h1
    · simp at h1
    · simp only [Option.some.injEq, Prod.mk.injEq] at h1
      exact h1.2.2.symm
  · intro c hObj2 pDst2 h1
    simp only [RMP_FindSecondByte] at h1
    split_ifs at h1 <;>
    · simp only [Option.some.injEq, Prod.mk.injEq] at h1
      exact h1.2.2.symm

/-- Witness of C29 on the call that copies the frame of the test into a
destination declared with 18 bytes. -/
theorem C29_destination_writes_in_bounds_witness :
    prvProcessing 3 ⟨rmpSTATE_FIND_FIRST_BYTE, ⟨sampleFrame, 128⟩, 36⟩ zeroMem 18
      = some (18, ⟨rmpSTATE_FIND_FIRST_BYTE, ⟨[], 128⟩, 36⟩,
          frameInto zeroMem (sampleFrame.drop 2))
    ∧ (∀ i, 18 ≤ i → frameInto zeroMem (sampleFrame.drop 2) i = zeroMem i) :=
  ⟨processing_marked 0 128 36 18 (sampleFrame.drop 2) [] zeroMem (by decide) (by decide),
    (C29_destination_writes_in_bounds 3 18 18 ⟨rmpSTATE_FIND_FIRST_BYTE, ⟨sampleFrame, 128⟩, 36⟩
      ⟨rmpSTATE_FIND_FIRST_BYTE, ⟨[], 128⟩, 36⟩ zeroMem (frameInto zeroMem (sampleFrame.drop 2))
      (processing_marked 0 128 36 18 (sampleFrame.drop 2) [] zeroMem (by decide)
        (by decide))).1⟩

/-- C30: the resynchronisation limitation. The valid frame of the test,
preceded by one stray marker byte `0xFF`, is lost: in state `FindFirstByte`
with buffer `[0xFF] ++ f` and no further input, the first `Processing` call
(capacity at least 18) takes the stray byte and `f[0]` as the marker, consumes
`f[1..16]` as the frame body, returns 0 and is back in `FindFirstByte` with
only `f[17]` buffered; and any number `k` of successive calls all return 0. -/
theorem C30_resync_limitation (cap t fuel n k : Nat) (pDst : Mem) (hn : 18 ≤ n)
    (hfuel : 3 ≤ fuel) :
    isValidFrame sampleFrame
    ∧ prvProcessing fuel ⟨rmpSTATE_FIND_FIRST_BYTE, ⟨[0xFF] ++ sampleFrame, cap⟩, t⟩ pDst n
      = some (0, ⟨rmpSTATE_FIND_FIRST_BYTE, ⟨sampleFrame.drop 17, cap⟩, t⟩,
          frameInto pDst ((sampleFrame.drop 1).take 16))
    ∧ ∃ hObj1 pDst1,
        processingCalls fuel ⟨rmpSTATE_FIND_FIRST_BYTE, ⟨[0xFF] ++ sampleFrame, cap⟩, t⟩ pDst
            (List.replicate k n)
          = some (List.replicate k 0, hObj1, pDst1) := by
  obtain ⟨m, rfl⟩ : ∃ m, fuel = m + 3 := ⟨fuel - 3, by omega⟩
  have hbuf : [0xFF] ++ sampleFrame
      = (0xFF :: 0xFF :: (sampleFrame.drop 1).take 16) ++ sampleFrame.drop 17 := by decide
  have hfirst : prvProcessing (m + 3)
        ⟨rmpSTATE_FIND_FIRST_BYTE, ⟨[0xFF] ++ sampleFrame, cap⟩, t⟩ pDst n
      = some (0, ⟨rmpSTATE_FIND_FIRST_BYTE, ⟨sampleFrame.drop 17, cap⟩, t⟩,
          frameInto pDst ((sampleFrame.drop 1).take 16)) := by
    rw [hbuf, processing_marked m cap t n ((sampleFrame.drop 1).take 16) (sampleFrame.drop 17)
      pDst hn (by decide), if_neg (by decide)]
  have hsecond : prvProcessing (m + 3)
        ⟨rmpSTATE_FIND_FIRST_BYTE, ⟨sampleFrame.drop 17, cap⟩, t⟩
        (frameInto pDst ((sampleFrame.drop 1).take 16)) n
      = some (0, ⟨rmpSTATE_FIND_FIRST_BYTE, ⟨[], cap⟩, t⟩,
          frameInto pDst ((sampleFrame.drop 1).take 16)) := by
    have h17 : sampleFrame.drop 17 = [0x8D] := by decide
    rw [h17]
    exact processing_single_other (m + 1) cap t n 0x8D _ (by decide)
  refine ⟨by decide, hfirst, ?_⟩
  cases k with
  | zero => exact ⟨_, _, rfl⟩
  | succ k =>
    cases k with
    | zero => exact ⟨_, _, processingCalls_cons _ _ _ _ _ _ _ _ _ _ _ hfirst rfl⟩
    | succ k =>
      exact ⟨_, _, processingCalls_cons _ _ _ _ _ _ _ _ _ _ _ hfirst
        (processingCalls_cons _ _ _ _ _ _ _ _ _ _ _ hsecond
          (processingCalls_empty (m + 2) cap t n _ k))⟩

/-- Witness of C30: five calls with an 18-byte destination, default
threshold. -/
theorem C30_resync_limitation_witness :
    18 ≤ 18 ∧ 3 ≤ 3 ∧ isValidFrame sampleFrame
    ∧ prvProcessing 3 ⟨rmpSTATE_FIND_FIRST_BYTE, ⟨[0xFF] ++ sampleFrame, 128⟩, 36⟩ zeroMem 18
      = some (0, ⟨rmpSTATE_FIND_FIRST_BYTE, ⟨sampleFrame.drop 17, 128⟩, 36⟩,
          frameInto zeroMem ((sampleFrame.drop 1).take 16))
    ∧ ∃ hObj1 pDst1,
        processingCalls 3 ⟨rmpSTATE_FIND_FIRST_BYTE, ⟨[0xFF] ++ sampleFrame, 128⟩, 36⟩ zeroMem
            (List.replicate 5 18)
          = some (List.replicate 5 0, hObj1, pDst1) :=
  ⟨by decide, by decide, C30_resync_limitation 128 36 3 18 5 zeroMem (by decide) (by decide)⟩

/-! ## Delivery modes and runs of frames -/

theorem putProcessingCalls_cons (fuel n k x : Nat) (rest ks : List Nat)
    (hObj hObj1 hObj2 : rmp_obj_t) (pDst pDst1 pDst2 : Mem)
    (h1 : prvProcessing fuel (prvPut hObj [x]).1 pDst n = some (k, hObj1, pDst1))
    (h2 : putProcessingCalls fuel n hObj1 pDst1 rest = some (ks, hObj2, pDst2)) :
    putProcessingCalls fuel n hObj pDst (x :: rest) = some (k :: ks, hObj2, pDst2) := by
  simp [putProcessingCalls, h1, h2]

/-- A frame-sized run that starts with the marker, delivered byte by byte from
an empty buffer in state `FindFirstByte`: seventeen calls return 0 and the
eighteenth reports the frame exactly when the checksum byte matches. -/
theorem putProcessing_frame (fuel cap t n : Nat) (body : List Nat) (pDst : Mem)
    (hcap : 16 ≤ cap) (hn : 18 ≤ n) (hb : body.length = 16) :
    putProcessingCalls (fuel + 2) n ⟨rmpSTATE_FIND_FIRST_BYTE, ⟨[], cap⟩, t⟩ pDst
        (0xFF :: 0xFF :: body)
      = some (List.replicate 17 0 ++
            [if CORE_GetCrc16_CCITT_Poly0x1021 (body.take 15) % 2 ^ 8 = body.getD 15 0
              then 18 else 0],
          ⟨rmpSTATE_FIND_FIRST_BYTE, ⟨[], cap⟩, t⟩, frameInto pDst body) := by
  have hne : body ≠ [] := by
    intro h; rw [h] at hb; simp at hb
  have hbody := putProcessing_body (fuel + 1) cap t n hcap hn body [] pDst
    (by simpa using hb) hne
  rw [List.nil_append, hb] at hbody
  have hfirst : prvProcessing (fuel + 2)
        (prvPut ⟨rmpSTATE_FIND_FIRST_BYTE, ⟨[], cap⟩, t⟩ [0xFF]).1 pDst n
      = some (0, ⟨rmpSTATE_FIND_SECOND_BYTE, ⟨[], cap⟩, t⟩, pDst) := by
    rw [prvPut_one _ _ _ _ _ (by simp; omega)]
    unfold prvProcessing
    rw [List.nil_append, drv_first_marker, drv_second_nil]
  have hsecond : prvProcessing (fuel + 2)
        (prvPut ⟨rmpSTATE_FIND_SECOND_BYTE, ⟨[], cap⟩, t⟩ [0xFF]).1 pDst n
      = some (0, ⟨rmpSTATE_WAIT_AND_COPY_MESSAGE, ⟨[], cap⟩, t⟩, pDst) := by
    rw [prvPut_one _ _ _ _ _ (by simp; omega)]
    unfold prvProcessing
    rw [List.nil_append, drv_second_cons, if_pos rfl,
      drv_wait_wait _ _ _ _ _ _ _ (Or.inr (by simp))]
  exact putProcessingCalls_cons _ _ _ _ _ _ _ _ _ _ _ _ hfirst
    (putProcessingCalls_cons _ _ _ _ _ _ _ _ _ _ _ _ hsecond hbody)

/-- Garbage delivered byte by byte from an empty buffer in state
`FindFirstByte`: every call removes the byte just written and returns 0. -/
theorem putProcessing_garbage (fuel cap t n : Nat) (hcap : 1 ≤ cap) (rest ks : List Nat)
    (hObj1 : rmp_obj_t) (pDst pDst1 : Mem)
    (hrest : putProcessingCalls (fuel + 2) n ⟨rmpSTATE_FIND_FIRST_BYTE, ⟨[], cap⟩, t⟩ pDst rest
      = some (ks, hObj1, pDst1))
    (g : List Nat) (hg : ∀ x ∈ g, x ≠ 0xFF) :
    putProcessingCalls (fuel + 2) n ⟨rmpSTATE_FIND_FIRST_BYTE, ⟨[], cap⟩, t⟩ pDst (g ++ rest)
      = some (List.replicate g.length 0 ++ ks, hObj1, pDst1) := by
  induction g with
  | nil => simpa using hrest
  | cons x g ih =>
    have hstep : prvProcessing (fuel + 2)
          (prvPut ⟨rmpSTATE_FIND_FIRST_BYTE, ⟨[], cap⟩, t⟩ [x]).1 pDst n
        = some (0, ⟨rmpSTATE_FIND_FIRST_BYTE, ⟨[], cap⟩, t⟩, pDst) := by
      rw [prvPut_one _ _ _ _ _ (by simp; omega), List.nil_append]
      exact processing_single_other fuel cap t n x pDst (hg x (by simp))
    exact putProcessingCalls_cons _ _ _ _ _ _ _ _ _ _ _ _ hstep
      (ih (fun y hy => hg y (by simp [hy])))

theorem processingFrames_cons (fuel n k : Nat) (ns : List Nat) (res : List (Nat × List Nat))
    (hObj hObj1 hObj2 : rmp_obj_t) (pDst pDst1 pDst2 : Mem)
    (h1 : prvProcessing fuel hObj pDst n = some (k, hObj1, pDst1))
    (h2 : processingFrames fuel hObj1 pDst1 ns = some (res, hObj2, pDst2)) :
    processingFrames fuel hObj pDst (n :: ns)
      = some ((k, memRead pDst1 0 18) :: res, hObj2, pDst2) := by
  simp [processingFrames, h1, h2, rmpONE_MESSAGE_SIZE_IN_BYTES]

/-- A run of valid frames in state `FindFirstByte`: each `Processing` call
reports the next frame. -/
theorem frames_in_order (fuel cap t n : Nat) (hn : 18 ≤ n) (fs : List (List Nat))
    (hfs : ∀ f ∈ fs, isValidFrame f) :
    ∀ (pDst : Mem), ∃ pDst1,
      processingFrames (fuel + 3) ⟨rmpSTATE_FIND_FIRST_BYTE, ⟨fs.flatten, cap⟩, t⟩ pDst
          (List.replicate fs.length n)
        = some (fs.map fun f => (18, f), ⟨rmpSTATE_FIND_FIRST_BYTE, ⟨[], cap⟩, t⟩, pDst1) := by
  induction fs with
  | nil => intro pDst; exact ⟨pDst, rfl⟩
  | cons f rest ih =>
    intro pDst
    obtain ⟨hl, h0, h1, hcrc⟩ := hfs f (by simp)
    obtain ⟨body, rfl, hb, h17, hpay⟩ := marked_shape f hl h0 h1
    have hok : CORE_GetCrc16_CCITT_Poly0x1021 (body.take 15) % 2 ^ 8 = body.getD 15 0 := by
      rw [← h17, ← hpay, hcrc]
    have hcall := processing_marked fuel cap t n body rest.flatten pDst hn hb
    rw [if_pos hok] at hcall
    obtain ⟨pDst1, hrest⟩ := ih (fun f hf => hfs f (by simp [hf])) (frameInto pDst body)
    refine ⟨pDst1, ?_⟩
    have := processingFrames_cons _ _ _ _ _ _ _ _ _ _ _ hcall hrest
    rw [frameInto_read_frame pDst body hb] at this
    simpa [List.replicate_succ] using this

/-! ## Claims on delivery modes and runs of frames -/

/-- C21: delivery-mode independence. For a stream `g ++ f` that fits the ring
buffer, with `g` free of `0xFF` and `f` a valid frame, from an empty buffer in
state `FindFirstByte`: (A) one `Put` of the whole stream followed by `k`
`Processing` calls, of which the first `k - 1` return 0 and the last returns
18, and (B) one `Put` and one `Processing` call per byte, of which the last
returns 18 and the others 0, leave the same destination, with
`destination[0..18) = f`, and the same object: state `FindFirstByte`, empty
ring buffer. -/
theorem C21_delivery_mode_independence (g f : List Nat) (cap t fuel n : Nat) (pDst : Mem)
    (hg : ∀ x ∈ g, x ≠ 0xFF) (hf : isValidFrame f) (hsize : (g ++ f).length ≤ cap)
    (hn : 18 ≤ n) (hfuel : g.length + 3 ≤ fuel) :
    ∃ k pDst1, 1 ≤ k ∧ k ≤ g.length + 1
      ∧ (prvPut ⟨rmpSTATE_FIND_FIRST_BYTE, ⟨[], cap⟩, t⟩ (g ++ f)).2 = (g ++ f).length
      ∧ processingCalls fuel (prvPut ⟨rmpSTATE_FIND_FIRST_BYTE, ⟨[], cap⟩, t⟩ (g ++ f)).1 pDst
          (List.replicate k n)
        = some (List.replicate (k - 1) 0 ++ [18],
            ⟨rmpSTATE_FIND_FIRST_BYTE, ⟨[], cap⟩, t⟩, pDst1)
      ∧ putProcessingCalls fuel n ⟨rmpSTATE_FIND_FIRST_BYTE, ⟨[], cap⟩, t⟩ pDst (g ++ f)
        = some (List.replicate ((g ++ f).length - 1) 0 ++ [18],
            ⟨rmpSTATE_FIND_FIRST_BYTE, ⟨[], cap⟩, t⟩, pDst1)
      ∧ memRead pDst1 0 18 = f := by
  obtain ⟨hl, h0, h1, hcrc⟩ := hf
  obtain ⟨body, rfl, hb, h17, hpay⟩ := marked_shape f hl h0 h1
  obtain ⟨m, rfl⟩ : ∃ m, fuel = m + 3 := ⟨fuel - 3, by omega⟩
  have hok : CORE_GetCrc16_CCITT_Poly0x1021 (body.take 15) % 2 ^ 8 = body.getD 15 0 := by
    rw [← h17, ← hpay, hcrc]
  have hlen : (g ++ 0xFF :: 0xFF :: body).length = g.length + 18 := by
    simp [hb]
  rw [hlen] at hsize
  have hk : min (g ++ 0xFF :: 0xFF :: body).length (cap - ([] : List Nat).length)
      = g.length + 18 := by
    rw [hlen]; simp only [List.length_nil]; omega
  have hput : prvPut ⟨rmpSTATE_FIND_FIRST_BYTE, ⟨[], cap⟩, t⟩ (g ++ 0xFF :: 0xFF :: body)
      = (⟨rmpSTATE_FIND_FIRST_BYTE, ⟨g ++ 0xFF :: 0xFF :: body, cap⟩, t⟩, g.length + 18) := by
    rw [prvPut_eq, hk, ← hlen]
    simp
  have hframe := putProcessing_frame (m + 1) cap t n body pDst (by omega) hn hb
  rw [if_pos hok] at hframe
  have hbytes := putProcessing_garbage (m + 1) cap t n (by omega) _ _ _ pDst _ hframe g hg
  have hzeros : List.replicate g.length 0 ++ (List.replicate 17 0 ++ [18])
      = List.replicate (g.length + 18 - 1) 0 ++ [18] := by
    rw [← List.append_assoc, List.append_replicate_replicate]
    rfl
  rw [hzeros] at hbytes
  rw [hput, hlen]
  rcases Nat.eq_zero_or_pos t with ht | ht
  · subst ht
    exact ⟨g.length + 1, frameInto pDst body, by omega, le_refl _, rfl,
      recovery_thr0 cap m n body hn hb hok g hg pDst, hbytes,
      frameInto_read_frame pDst body hb⟩
  · exact ⟨1, frameInto pDst body, le_refl _, by omega, rfl,
      processingCalls_cons _ _ _ _ _ _ _ _ _ _ _
        (recovery_thr_pos cap t m n body g hn hb hok hg ht (by omega) pDst) rfl,
      hbytes, frameInto_read_frame pDst body hb⟩

/-- Witness of C21: three garbage bytes before the frame of the test, default
threshold. -/
theorem C21_delivery_mode_independence_witness :
    (∀ x ∈ [0, 1, 2], x ≠ 0xFF) ∧ isValidFrame sampleFrame
    ∧ ([0, 1, 2] ++ sampleFrame).length ≤ 128 ∧
    ∃ k pDst1, 1 ≤ k ∧ k ≤ [0, 1, 2].length + 1
      ∧ (prvPut ⟨rmpSTATE_FIND_FIRST_BYTE, ⟨[], 128⟩, 36⟩ ([0, 1, 2] ++ sampleFrame)).2
          = ([0, 1, 2] ++ sampleFrame).length
      ∧ processingCalls 6
          (prvPut ⟨rmpSTATE_FIND_FIRST_BYTE, ⟨[], 128⟩, 36⟩ ([0, 1, 2] ++ sampleFrame)).1
          zeroMem (List.replicate k 18)
        = some (List.replicate (k - 1) 0 ++ [18],
            ⟨rmpSTATE_FIND_FIRST_BYTE, ⟨[], 128⟩, 36⟩, pDst1)
      ∧ putProcessingCalls 6 18 ⟨rmpSTATE_FIND_FIRST_BYTE, ⟨[], 128⟩, 36⟩ zeroMem
          ([0, 1, 2] ++ sampleFrame)
        = some (List.replicate (([0, 1, 2] ++ sampleFrame).length - 1) 0 ++ [18],
            ⟨rmpSTATE_FIND_FIRST_BYTE, ⟨[], 128⟩, 36⟩, pDst1)
      ∧ memRead pDst1 0 18 = sampleFrame :=
  ⟨by decide, by decide, by decide,
    C21_delivery_mode_independence [0, 1, 2] sampleFrame 128 36 6 18 zeroMem (by decide)
      (by decide) (by decide) (by decide) (by decide)⟩

/-- C22: frames are extracted one per call, in arrival order. For `k ≥ 1`
valid frames `f1 .. fk` buffered back to back in state `FindFirstByte`, the
`i`-th of `k` successive `Processing` calls (capacity at least 18) returns 18
and leaves `destination[0..18) = fi`; after the `k`-th call the buffer is empty
and one more call returns 0. -/
theorem C22_frames_in_order (fs : List (List Nat)) (cap t fuel n : Nat) (pDst : Mem)
    (hfs : ∀ f ∈ fs, isValidFrame f) (_hk : 1 ≤ fs.length) (_hsize : 18 * fs.length ≤ cap)
    (hn : 18 ≤ n) (hfuel : 3 ≤ fuel) :
    ∃ pDst1,
      processingFrames fuel ⟨rmpSTATE_FIND_FIRST_BYTE, ⟨fs.flatten, cap⟩, t⟩ pDst
          (List.replicate fs.length n)
        = some (fs.map fun f => (18, f), ⟨rmpSTATE_FIND_FIRST_BYTE, ⟨[], cap⟩, t⟩, pDst1)
      ∧ prvProcessing fuel ⟨rmpSTATE_FIND_FIRST_BYTE, ⟨[], cap⟩, t⟩ pDst1 n
        = some (0, ⟨rmpSTATE_FIND_FIRST_BYTE, ⟨[], cap⟩, t⟩, pDst1) := by
  obtain ⟨m, rfl⟩ : ∃ m, fuel = m + 3 := ⟨fuel - 3, by omega⟩
  obtain ⟨pDst1, h⟩ := frames_in_order m cap t n hn fs hfs pDst
  exact ⟨pDst1, h, drv_first_nil (m + 2) cap t n 0 pDst1⟩

/-- Witness of C22: the two frames of the tests, back to back. -/
theorem C22_frames_in_order_witness :
    (∀ f ∈ [sampleFrame, sampleFrame2], isValidFrame f)
    ∧ 18 * [sampleFrame, sampleFrame2].length ≤ 128 ∧
    ∃ pDst1,
      processingFrames 3
          ⟨rmpSTATE_FIND_FIRST_BYTE, ⟨[sampleFrame, sampleFrame2].flatten, 128⟩, 36⟩ zeroMem
          (List.replicate [sampleFrame, sampleFrame2].length 18)
        = some ([sampleFrame, sampleFrame2].map fun f => (18, f),
            ⟨rmpSTATE_FIND_FIRST_BYTE, ⟨[], 128⟩, 36⟩, pDst1)
      ∧ prvProcessing 3 ⟨rmpSTATE_FIND_FIRST_BYTE, ⟨[], 128⟩, 36⟩ pDst1 18
        = some (0, ⟨rmpSTATE_FIND_FIRST_BYTE, ⟨[], 128⟩, 36⟩, pDst1) :=
  ⟨by decide, by decide,
    C22_frames_in_order [sampleFrame, sampleFrame2] 128 36 3 18 zeroMem (by decide) (by decide)
      (by decide) (by decide) (by decide)⟩

/-! ## The result of `Processing` as a function of the destination -/

theorem aFn_none (fuel s : Nat) (h0 : s ≠ rmpSTATE_FIND_FIRST_BYTE)
    (h1 : s ≠ rmpSTATE_FIND_SECOND_BYTE) (h2 : s ≠ rmpSTATE_WAIT_AND_COPY_MESSAGE) :
    aFn fuel s = none := by
  simp [aFn, h0, h1, h2]

/-- The driver loop reads the destination only after writing it: the size and
the object it returns do not depend on the destination, and the destination it
returns is the one it received, possibly with a frame copied to it. A size
other than the initial one comes with a copied frame. -/
theorem processing_loop_normal (n : Nat) :
    ∀ (fuel : Nat) (hObj : rmp_obj_t) (u : Nat),
      ∃ res : Option (Nat × rmp_obj_t × Option (List Nat)),
        (∀ pDst : Mem, prvProcessing_loop fuel hObj pDst n u
            = res.map fun r => (r.1, r.2.1, copiedInto pDst r.2.2))
        ∧ (∀ k hObj1 ob, res = some (k, hObj1, ob) →
            k = u ∨ ∃ body : List Nat, ob = some body ∧ body.length = 16) := by
  intro fuel
  induction fuel with
  | zero =>
    intro hObj u
    exact ⟨none, fun _ => rfl, fun _ _ _ h => by cases h⟩
  | succ m ih =>
    intro hObj u
    obtain ⟨s, ⟨b, cap⟩, t⟩ := hObj
    by_cases h0 : s = rmpSTATE_FIND_FIRST_BYTE
    · subst h0
      cases hres : RMP_FindFirstByte_loop (m + 1) ⟨rmpSTATE_FIND_FIRST_BYTE, ⟨b, cap⟩, t⟩ 0 with
      | none =>
        exact ⟨none, fun pDst => by rw [drv_first, hres]; rfl, fun _ _ _ h => by cases h⟩
      | some r =>
        obtain ⟨c, h1⟩ := r
        cases c with
        | rmpIN_PROGRESS =>
          obtain ⟨res, hr1, hr2⟩ := ih h1 u
          exact ⟨res, fun pDst => by rw [drv_first, hres]; exact hr1 pDst, hr2⟩
        | rmpMESSAGE_COPIED => exact absurd rfl (findFirst_loop_codes _ _ _ _ _ hres)
        | rmpBREAK =>
          refine ⟨some (u, h1, none), fun pDst => by rw [drv_first, hres]; rfl, ?_⟩
          intro k hObj1 ob h
          simp only [Option.some.injEq, Prod.mk.injEq] at h
          exact Or.inl h.1.symm
    · by_cases h1 : s = rmpSTATE_FIND_SECOND_BYTE
      · subst h1
        cases b with
        | nil =>
          refine ⟨some (u, ⟨rmpSTATE_FIND_SECOND_BYTE, ⟨[], cap⟩, t⟩, none),
            fun pDst => by rw [drv_second_nil]; rfl, ?_⟩
          intro k hObj1 ob h
          simp only [Option.some.injEq, Prod.mk.injEq] at h
          exact Or.inl h.1.symm
        | cons x r =>
          obtain ⟨res, hr1, hr2⟩ := ih
            ⟨if x = 0xFF then rmpSTATE_WAIT_AND_COPY_MESSAGE else rmpSTATE_FIND_FIRST_BYTE,
              ⟨r, cap⟩, t⟩ u
          exact ⟨res, fun pDst => by rw [drv_second_cons]; exact hr1 pDst, hr2⟩
      · by_cases h2 : s = rmpSTATE_WAIT_AND_COPY_MESSAGE
        · subst h2
          by_cases hc : n < 18 ∨ b.length < 16
          · refine ⟨some (u, ⟨rmpSTATE_WAIT_AND_COPY_MESSAGE, ⟨b, cap⟩, t⟩, none),
              fun pDst => by rw [drv_wait_wait m cap t n u b pDst hc]; rfl, ?_⟩
            intro k hObj1 ob h
            simp only [Option.some.injEq, Prod.mk.injEq] at h
            exact Or.inl h.1.symm
          · have hb : (b.take 16).length = 16 := by simp; omega
            refine ⟨some (if CORE_GetCrc16_CCITT_Poly0x1021 ((b.take 16).take 15) % 2 ^ 8
                  = (b.take 16).getD 15 0 then 18 else u,
                ⟨rmpSTATE_FIND_FIRST_BYTE, ⟨b.drop 16, cap⟩, t⟩, some (b.take 16)), ?_, ?_⟩
            · intro pDst
              have := drv_wait_copy m cap t n u (b.take 16) (b.drop 16) pDst (by omega) hb
              rw [List.take_append_drop] at this
              rw [this]
              rfl
            · intro k hObj1 ob h
              simp only [Option.some.injEq, Prod.mk.injEq] at h
              exact Or.inr ⟨b.take 16, h.2.2.symm, hb⟩
        · refine ⟨none, fun pDst => ?_, fun _ _ _ h => by cases h⟩
          rw [prvProcessing_loop]
          simp only [RMP_GetState, aFn_none (m + 1) s h0 h1 h2]
          rfl

/-! ## Claims on what `Processing` and the facade leave unchanged -/

/-- C31: `Processing` only consumes from the front of the stream. In each of
the three states, with `b` buffered, the call returns and the buffer afterwards
is a suffix of `b`: `b = consumed ++ remaining`, so nothing is appended,
reordered or altered and the buffered count does not grow. -/
theorem C31_processing_consumes_front (s cap t n fuel : Nat) (b : List Nat) (pDst : Mem)
    (hs : s = rmpSTATE_FIND_FIRST_BYTE ∨ s = rmpSTATE_FIND_SECOND_BYTE
      ∨ s = rmpSTATE_WAIT_AND_COPY_MESSAGE)
    (hfuel : b.length + 1 ≤ fuel) :
    ∃ (k : Nat) (hObj1 : rmp_obj_t) (pDst1 : Mem) (consumed : List Nat),
      prvProcessing fuel ⟨s, ⟨b, cap⟩, t⟩ pDst n = some (k, hObj1, pDst1)
      ∧ b = consumed ++ hObj1.xLWRB.data
      ∧ hObj1.xLWRB.data <:+ b
      ∧ lwrb_get_full hObj1.xLWRB ≤ lwrb_get_full (⟨b, cap⟩ : lwrb_t) := by
  obtain ⟨k, s1, b1, d1, hk, _, hsuf⟩ := processing_loop_inv cap t n 0 fuel s b pDst hs
    (by omega)
  obtain ⟨consumed, hcons⟩ := hsuf
  exact ⟨k, _, d1, consumed, hk, hcons.symm, ⟨consumed, hcons⟩,
    List.IsSuffix.length_le ⟨consumed, hcons⟩⟩

/-- Witness of C31: two garbage bytes, a first marker byte and a byte that is
not the second marker byte, in state `FindFirstByte`. -/
theorem C31_processing_consumes_front_witness :
    (rmpSTATE_FIND_FIRST_BYTE = rmpSTATE_FIND_FIRST_BYTE
      ∨ rmpSTATE_FIND_FIRST_BYTE = rmpSTATE_FIND_SECOND_BYTE
      ∨ rmpSTATE_FIND_FIRST_BYTE = rmpSTATE_WAIT_AND_COPY_MESSAGE)
    ∧ [1, 2, 0xFF, 3].length + 1 ≤ 5
    ∧ ∃ (k : Nat) (hObj1 : rmp_obj_t) (pDst1 : Mem) (consumed : List Nat),
        prvProcessing 5 ⟨rmpSTATE_FIND_FIRST_BYTE, ⟨[1, 2, 0xFF, 3], 128⟩, 36⟩ zeroMem 18
          = some (k, hObj1, pDst1)
        ∧ [1, 2, 0xFF, 3] = consumed ++ hObj1.xLWRB.data
        ∧ hObj1.xLWRB.data <:+ [1, 2, 0xFF, 3]
        ∧ lwrb_get_full hObj1.xLWRB ≤ lwrb_get_full (⟨[1, 2, 0xFF, 3], 128⟩ : lwrb_t) :=
  ⟨by decide, by decide,
    C31_processing_consumes_front rmpSTATE_FIND_FIRST_BYTE 128 36 18 5 [1, 2, 0xFF, 3] zeroMem
      (by decide) (by decide)⟩

/-- C33: the destination is write-only. For one object (in one of the three
states) and two destinations `d1`, `d2` declared with the same capacity,
`Processing` returns the same size and the same object (state, ring buffer,
threshold) for both, and when the size is 18 the first 18 bytes of the two
destinations are equal afterwards. -/
theorem C33_destination_write_only (s cap t n fuel : Nat) (b : List Nat) (d1 d2 : Mem)
    (hs : s = rmpSTATE_FIND_FIRST_BYTE ∨ s = rmpSTATE_FIND_SECOND_BYTE
      ∨ s = rmpSTATE_WAIT_AND_COPY_MESSAGE)
    (hfuel : b.length + 1 ≤ fuel) :
    ∃ (k : Nat) (hObj1 : rmp_obj_t) (e1 e2 : Mem),
      prvProcessing fuel ⟨s, ⟨b, cap⟩, t⟩ d1 n = some (k, hObj1, e1)
      ∧ prvProcessing fuel ⟨s, ⟨b, cap⟩, t⟩ d2 n = some (k, hObj1, e2)
      ∧ (k = 18 → memRead e1 0 18 = memRead e2 0 18) := by
  obtain ⟨res, hr1, hr2⟩ := processing_loop_normal n fuel ⟨s, ⟨b, cap⟩, t⟩ 0
  obtain ⟨k0, s1, b1, e0, hk, _, _⟩ := processing_loop_inv cap t n 0 fuel s b d1 hs
    (by omega)
  cases res with
  | none =>
    rw [hr1 d1] at hk
    cases hk
  | some r =>
    obtain ⟨k, hObj1, ob⟩ := r
    refine ⟨k, hObj1, copiedInto d1 ob, copiedInto d2 ob, hr1 d1, hr1 d2, ?_⟩
    intro h18
    rcases hr2 k hObj1 ob rfl with h0 | ⟨body, hob, hlen⟩
    · omega
    · rw [hob]
      simp only [copiedInto]
      rw [frameInto_read_frame d1 body hlen, frameInto_read_frame d2 body hlen]

/-- Witness of C33: the frame of the test read into a destination of zeros and
into the destination that already holds the second test frame. -/
theorem C33_destination_write_only_witness :
    (rmpSTATE_FIND_FIRST_BYTE = rmpSTATE_FIND_FIRST_BYTE
      ∨ rmpSTATE_FIND_FIRST_BYTE = rmpSTATE_FIND_SECOND_BYTE
      ∨ rmpSTATE_FIND_FIRST_BYTE = rmpSTATE_WAIT_AND_COPY_MESSAGE)
    ∧ sampleFrame.length + 1 ≤ 19
    ∧ ∃ (k : Nat) (hObj1 : rmp_obj_t) (e1 e2 : Mem),
        prvProcessing 19 ⟨rmpSTATE_FIND_FIRST_BYTE, ⟨sampleFrame, 128⟩, 36⟩ zeroMem 18
          = some (k, hObj1, e1)
        ∧ prvProcessing 19 ⟨rmpSTATE_FIND_FIRST_BYTE, ⟨sampleFrame, 128⟩, 36⟩
            (frameInto zeroMem (sampleFrame2.drop 2)) 18
          = some (k, hObj1, e2)
        ∧ (k = 18 → memRead e1 0 18 = memRead e2 0 18) :=
  ⟨by decide, by decide,
    C33_destination_write_only rmpSTATE_FIND_FIRST_BYTE 128 36 18 19 sampleFrame zeroMem
      (frameInto zeroMem (sampleFrame2.drop 2)) (by decide) (by decide)⟩

/-- C34: frame conditions of the facade. `Put` and `PutISR` leave the state and
the threshold unchanged; `Processing` (which returns, in each of the three
states) and `Reset` leave the threshold and the ring-buffer capacity unchanged;
`RMP_SetState` leaves the ring-buffer contents and the threshold unchanged; and
`RMP_GetState` only reads the state. -/
theorem C34_facade_frame_conditions (s cap t n fuel v : Nat) (b pSrc : List Nat) (pDst : Mem)
    (hs : s = rmpSTATE_FIND_FIRST_BYTE ∨ s = rmpSTATE_FIND_SECOND_BYTE
      ∨ s = rmpSTATE_WAIT_AND_COPY_MESSAGE)
    (hfuel : b.length + 1 ≤ fuel) :
    ((prvPut ⟨s, ⟨b, cap⟩, t⟩ pSrc).1.eState = s
      ∧ (prvPut ⟨s, ⟨b, cap⟩, t⟩ pSrc).1.uReadBytesThreshold = t)
    ∧ ((prvPutISR ⟨s, ⟨b, cap⟩, t⟩ pSrc).1.eState = s
      ∧ (prvPutISR ⟨s, ⟨b, cap⟩, t⟩ pSrc).1.uReadBytesThreshold = t)
    ∧ (∃ (k : Nat) (hObj1 : rmp_obj_t) (pDst1 : Mem),
        prvProcessing fuel ⟨s, ⟨b, cap⟩, t⟩ pDst n = some (k, hObj1, pDst1)
        ∧ hObj1.uReadBytesThreshold = t ∧ hObj1.xLWRB.cap = cap)
    ∧ ((prvReset ⟨s, ⟨b, cap⟩, t⟩).1.uReadBytesThreshold = t
      ∧ (prvReset ⟨s, ⟨b, cap⟩, t⟩).1.xLWRB.cap = cap)
    ∧ ((RMP_SetState ⟨s, ⟨b, cap⟩, t⟩ v).2.xLWRB.data = b
      ∧ (RMP_SetState ⟨s, ⟨b, cap⟩, t⟩ v).2.uReadBytesThreshold = t)
    ∧ RMP_GetState ⟨s, ⟨b, cap⟩, t⟩ = s := by
  refine ⟨?_, ?_, ?_, ?_, ?_, rfl⟩
  · rw [prvPut_eq]; exact ⟨rfl, rfl⟩
  · rw [prvPutISR, prvPut_eq]; exact ⟨rfl, rfl⟩
  · obtain ⟨k, s1, b1, d1, hk, _, _⟩ := processing_loop_inv cap t n 0 fuel s b pDst hs
      (by omega)
    exact ⟨k, _, d1, hk, rfl, rfl⟩
  · rw [prvReset_eq]; exact ⟨rfl, rfl⟩
  · unfold RMP_SetState
    split <;> exact ⟨rfl, rfl⟩

/-- Witness of C34 on an object waiting for a frame body, with a refused state
value. -/
theorem C34_facade_frame_conditions_witness :
    (rmpSTATE_WAIT_AND_COPY_MESSAGE = rmpSTATE_FIND_FIRST_BYTE
      ∨ rmpSTATE_WAIT_AND_COPY_MESSAGE = rmpSTATE_FIND_SECOND_BYTE
      ∨ rmpSTATE_WAIT_AND_COPY_MESSAGE = rmpSTATE_WAIT_AND_COPY_MESSAGE)
    ∧ [1, 2, 3].length + 1 ≤ 4
    ∧ (∃ (k : Nat) (hObj1 : rmp_obj_t) (pDst1 : Mem),
        prvProcessing 4 ⟨rmpSTATE_WAIT_AND_COPY_MESSAGE, ⟨[1, 2, 3], 128⟩, 36⟩ zeroMem 18
          = some (k, hObj1, pDst1)
        ∧ hObj1.uReadBytesThreshold = 36 ∧ hObj1.xLWRB.cap = 128)
    ∧ ((RMP_SetState ⟨rmpSTATE_WAIT_AND_COPY_MESSAGE, ⟨[1, 2, 3], 128⟩, 36⟩ 7).2.xLWRB.data
          = [1, 2, 3]
      ∧ (RMP_SetState ⟨rmpSTATE_WAIT_AND_COPY_MESSAGE, ⟨[1, 2, 3], 128⟩, 36⟩
          7).2.uReadBytesThreshold = 36) :=
  ⟨by decide, by decide,
    (C34_facade_frame_conditions rmpSTATE_WAIT_AND_COPY_MESSAGE 128 36 18 4 7 [1, 2, 3] [9]
      zeroMem (by decide) (by decide)).2.2.1,
    (C34_facade_frame_conditions rmpSTATE_WAIT_AND_COPY_MESSAGE 128 36 18 4 7 [1, 2, 3] [9]
      zeroMem (by decide) (by decide)).2.2.2.2.1⟩

/-! ## Linearity of the CRC loop and single-bit errors -/

theorem shiftLeft_mod_xor (a b j : Nat) :
    ((a ^^^ b) <<< j) % 2 ^ 16 = ((a <<< j) % 2 ^ 16) ^^^ ((b <<< j) % 2 ^ 16) := by
  apply Nat.eq_of_testBit_eq
  intro i
  simp only [Nat.testBit_mod_two_pow, Nat.testBit_xor, Nat.testBit_shiftLeft]
  by_cases hi : i < 16 <;> by_cases hj : j ≤ i <;> simp [hi, hj]

theorem crc16_bit_xor (a b : Nat) : crc16_bit (a ^^^ b) = crc16_bit a ^^^ crc16_bit b := by
  rw [crc16_bit_eq, crc16_bit_eq, crc16_bit_eq, shiftLeft_mod_xor, Nat.testBit_xor]
  cases a.testBit 15 <;> cases b.testBit 15 <;> simp
  · ac_rfl
  · ac_rfl
  · have key : ∀ x y p : Nat, x ^^^ p ^^^ (y ^^^ p) = x ^^^ y := by
      intro x y p
      have h : x ^^^ p ^^^ (y ^^^ p) = (x ^^^ y) ^^^ (p ^^^ p) := by ac_rfl
      rw [h, Nat.xor_self, Nat.xor_zero]
    exact (key _ _ _).symm

theorem crc16_bit_iterate_xor (j : Nat) :
    ∀ (a b : Nat), Nat.iterate crc16_bit j (a ^^^ b)
      = Nat.iterate crc16_bit j a ^^^ Nat.iterate crc16_bit j b := by
  induction j with
  | zero => intro a b; rfl
  | succ j ih =>
    intro a b
    rw [Function.iterate_succ_apply, Function.iterate_succ_apply, Function.iterate_succ_apply,
      crc16_bit_xor, ih]

theorem crc16_byte_xor (a b x y : Nat) :
    crc16_byte (a ^^^ b) (x ^^^ y) = crc16_byte a x ^^^ crc16_byte b y := by
  unfold crc16_byte
  rw [shiftLeft_mod_xor, ← crc16_bit_iterate_xor]
  congr 1
  ac_rfl

theorem crc16_byte_zero : crc16_byte 0 0 = 0 := by decide

theorem crc16_foldl_perturb (m : List Nat) :
    ∀ (a e : Nat), m.foldl crc16_byte (a ^^^ e)
      = m.foldl crc16_byte a ^^^ (List.replicate m.length 0).foldl crc16_byte e := by
  induction m with
  | nil => intro a e; rfl
  | cons x rest ih =>
    intro a e
    have h : crc16_byte (a ^^^ e) x = crc16_byte a x ^^^ crc16_byte e 0 := by
      have := crc16_byte_xor a e x 0
      rwa [Nat.xor_zero] at this
    rw [List.foldl_cons, h, ih, List.length_cons, List.replicate_succ, List.foldl_cons,
      List.foldl_cons]

theorem crc16_foldl_flip (pre post : List Nat) (a x e : Nat) :
    (pre ++ (x ^^^ e) :: post).foldl crc16_byte a
      = (pre ++ x :: post).foldl crc16_byte a
        ^^^ (List.replicate post.length 0).foldl crc16_byte (crc16_byte 0 e) := by
  have h : crc16_byte (pre.foldl crc16_byte a) (x ^^^ e)
      = crc16_byte (pre.foldl crc16_byte a) x ^^^ crc16_byte 0 e := by
    have := crc16_byte_xor (pre.foldl crc16_byte a) 0 x e
    rwa [Nat.xor_zero] at this
  rw [List.foldl_append, List.foldl_cons, h, crc16_foldl_perturb, List.foldl_append,
    List.foldl_cons]

theorem crc16_syndrome_low_byte : ∀ j, j < 15 → ∀ k, k < 8 →
    ((List.replicate j 0).foldl crc16_byte (crc16_byte 0 (2 ^ k))) % 2 ^ 8 ≠ 0 := by
  decide

theorem xor_mod_256 (a s : Nat) : (a ^^^ s) % 2 ^ 8 = (a % 2 ^ 8) ^^^ (s % 2 ^ 8) := by
  apply Nat.eq_of_testBit_eq
  intro i
  simp only [Nat.testBit_mod_two_pow, Nat.testBit_xor]
  by_cases hi : i < 8 <;> simp [hi]

theorem xor_ne_self (x y : Nat) (hy : y ≠ 0) : x ^^^ y ≠ x := by
  intro h
  apply hy
  have : x ^^^ (x ^^^ y) = x ^^^ x := by rw [h]
  rwa [← Nat.xor_assoc, Nat.xor_self, Nat.zero_xor] at this

theorem flip_detected (body : List Nat) (hb : body.length = 16)
    (hok : CORE_GetCrc16_CCITT_Poly0x1021 (body.take 15) % 2 ^ 8 = body.getD 15 0)
    (j k : Nat) (hj : j < 16) (hk : k < 8) :
    CORE_GetCrc16_CCITT_Poly0x1021 ((body.set j (body.getD j 0 ^^^ 2 ^ k)).take 15) % 2 ^ 8
      ≠ (body.set j (body.getD j 0 ^^^ 2 ^ k)).getD 15 0 := by
  have h2k : 2 ^ k ≠ 0 := by positivity
  by_cases h15 : j = 15
  · subst h15
    have htake : (body.set 15 (body.getD 15 0 ^^^ 2 ^ k)).take 15 = body.take 15 := by
      rw [List.set_take, List.set_eq_of_length_le (by simp)]
    have hget : (body.set 15 (body.getD 15 0 ^^^ 2 ^ k)).getD 15 0
        = body.getD 15 0 ^^^ 2 ^ k := by
      simp [List.getD_eq_getElem?_getD, hb]
    rw [htake, hget, hok]
    exact fun h => xor_ne_self _ _ h2k h.symm
  · have hj15 : j < 15 := by omega
    have hp : (body.take 15).length = 15 := by simp [hb]
    have hpj : (body.take 15).getD j 0 = body.getD j 0 := by
      simp [List.getD_eq_getElem?_getD, List.getElem?_take, hj15]
    have htake : (body.set j (body.getD j 0 ^^^ 2 ^ k)).take 15
        = (body.take 15).set j ((body.take 15).getD j 0 ^^^ 2 ^ k) := by
      rw [List.set_take, hpj]
    have hget : (body.set j (body.getD j 0 ^^^ 2 ^ k)).getD 15 0 = body.getD 15 0 := by
      have hne : j ≠ 15 := h15
      simp [List.getD_eq_getElem?_getD, List.getElem?_set_ne hne]
    have hjl : j < (body.take 15).length := by omega
    have hsplit : (body.take 15).take j ++ (body.take 15).getD j 0 :: (body.take 15).drop (j + 1)
        = body.take 15 := by
      rw [List.getD_eq_getElem _ _ hjl, ← List.drop_eq_getElem_cons hjl, List.take_append_drop]
    have hset : (body.take 15).set j ((body.take 15).getD j 0 ^^^ 2 ^ k)
        = (body.take 15).take j
          ++ ((body.take 15).getD j 0 ^^^ 2 ^ k) :: (body.take 15).drop (j + 1) := by
      rw [List.set_eq_take_append_cons_drop, if_pos hjl]
    have hpost : ((body.take 15).drop (j + 1)).length = 14 - j := by
      rw [List.length_drop, hp]; omega
    have hsyn := crc16_syndrome_low_byte (14 - j) (by omega) k hk
    rw [htake, hget, hset]
    unfold CORE_GetCrc16_CCITT_Poly0x1021
    rw [crc16_foldl_flip, hsplit, hpost, xor_mod_256]
    unfold CORE_GetCrc16_CCITT_Poly0x1021 at hok
    rw [hok]
    exact xor_ne_self _ _ hsyn

/-- C32: the one-byte checksum detects every single-bit error. For a valid
frame `f` and the sequence `f'` got from it by flipping one bit (`k < 8`) of
one byte at an index from 2 to 17 (a payload byte or the checksum byte), `f'`
is not a valid frame: the low 8 bits of the CRC of `f'[2..16]` differ from
`f'[17]`; and `Processing` on a buffer that starts with `f'` (state
`FindFirstByte`, capacity at least 18) consumes it and returns 0. -/
theorem C32_single_bit_error_detected (f r : List Nat) (i k cap t fuel n : Nat) (pDst : Mem)
    (hf : isValidFrame f) (hi : 2 ≤ i) (hi17 : i ≤ 17) (hk : k < 8) (hn : 18 ≤ n)
    (hfuel : 3 ≤ fuel) :
    ¬ isValidFrame (flipBit f i k)
    ∧ CORE_GetCrc16_CCITT_Poly0x1021 (((flipBit f i k).drop 2).take 15) % 2 ^ 8
        ≠ (flipBit f i k).getD 17 0
    ∧ ∃ pDst1,
        prvProcessing fuel ⟨rmpSTATE_FIND_FIRST_BYTE, ⟨flipBit f i k ++ r, cap⟩, t⟩ pDst n
          = some (0, ⟨rmpSTATE_FIND_FIRST_BYTE, ⟨r, cap⟩, t⟩, pDst1) := by
  obtain ⟨hl, h0, h1, hcrc⟩ := hf
  obtain ⟨body, rfl, hb, h17, hpay⟩ := marked_shape f hl h0 h1
  obtain ⟨j, rfl⟩ : ∃ j, i = j + 2 := ⟨i - 2, by omega⟩
  obtain ⟨m, rfl⟩ : ∃ m, fuel = m + 3 := ⟨fuel - 3, by omega⟩
  have hok : CORE_GetCrc16_CCITT_Poly0x1021 (body.take 15) % 2 ^ 8 = body.getD 15 0 := by
    rw [← h17, ← hpay, hcrc]
  have hflip : flipBit (0xFF :: 0xFF :: body) (j + 2) k
      = 0xFF :: 0xFF :: body.set j (body.getD j 0 ^^^ 2 ^ k) := by
    simp [flipBit]
  have hbad := flip_detected body hb hok j k (by omega) hk
  have hlen : (body.set j (body.getD j 0 ^^^ 2 ^ k)).length = 16 := by
    rw [List.length_set, hb]
  rw [hflip]
  refine ⟨?_, ?_, ?_⟩
  · intro hv
    obtain ⟨_, _, _, hv4⟩ := hv
    apply hbad
    simpa using hv4.symm
  · simpa using hbad
  · refine ⟨frameInto pDst (body.set j (body.getD j 0 ^^^ 2 ^ k)), ?_⟩
    rw [processing_marked m cap t n _ r pDst hn hlen, if_neg hbad]

/-- Witness of C32: bit 3 of payload byte 10 of the test frame flipped. -/
theorem C32_single_bit_error_detected_witness :
    isValidFrame sampleFrame ∧ 2 ≤ 10 ∧ 10 ≤ 17 ∧ 3 < 8
    ∧ ¬ isValidFrame (flipBit sampleFrame 10 3)
    ∧ CORE_GetCrc16_CCITT_Poly0x1021 (((flipBit sampleFrame 10 3).drop 2).take 15) % 2 ^ 8
        ≠ (flipBit sampleFrame 10 3).getD 17 0
    ∧ ∃ pDst1,
        prvProcessing 3 ⟨rmpSTATE_FIND_FIRST_BYTE, ⟨flipBit sampleFrame 10 3 ++ [], 128⟩, 36⟩
            zeroMem 18
          = some (0, ⟨rmpSTATE_FIND_FIRST_BYTE, ⟨[], 128⟩, 36⟩, pDst1) :=
  ⟨by decide, by decide, by decide, by decide,
    C32_single_bit_error_detected sampleFrame [] 10 3 128 36 3 18 zeroMem (by decide)
      (by decide) (by decide) (by decide) (by decide) (by decide)⟩

end RMP
